import Mathlib

/-! Kernel FIB synchronisation: zebra/rt_netlink.c

A shallow embedding of the request builders of `zebra/rt_netlink.c`
(`is_selfroute`, `get_rt_proto`, `_netlink_route_build_singlepath`,
`_netlink_route_build_multipath`, `are_first_hops_same`,
`is_duplicate_first_hop`, `netlink_route_multipath`, `kernel_route_rib`)
and theorems about them.

Conventions of the embedding:
* a netlink message is kept as its header, its `rtmsg` body and the list of
  attributes in the order the code appends them; an attribute keeps its type
  and a typed payload (the byte layout, alignment and the `maxlen` test of
  `addattr_l` are not represented);
* `union g_addr` is the list of its bytes; `.ipv4` is the first 4 bytes and
  `.ipv6` the first 16;
* bit sets whose constants are declared outside `rt_netlink.c`
  (`nexthop->flags`, `rib->flags`) are records of booleans, one per flag the
  code tests; kernel ABI flag words (`nlmsg_flags`, `rtm_flags`,
  `rtnh_flags`) are numbers;
* a failed `assert` or a NULL dereference is a `Fault`.
-/

namespace RtNetlink

/-! ## Constants -/

/-- Address family of IPv4 (`sys/socket.h`). -/
abbrev AF_INET : Nat := 2
/-- Address family of IPv6 (`sys/socket.h`). -/
abbrev AF_INET6 : Nat := 10
/-- Address family of MPLS, rt_netlink.c line 63. -/
abbrev AF_MPLS : Nat := 28

/-- Netlink message type of a route addition (`linux/rtnetlink.h`). -/
abbrev RTM_NEWROUTE : Nat := 24
/-- Netlink message type of a route deletion (`linux/rtnetlink.h`). -/
abbrev RTM_DELROUTE : Nat := 25

/-- Header flag: the message is a request (`linux/netlink.h`). -/
abbrev NLM_F_REQUEST : Nat := 0x01
/-- Header flag: replace an existing object (`linux/netlink.h`). -/
abbrev NLM_F_REPLACE : Nat := 0x100
/-- Header flag: create the object if it does not exist (`linux/netlink.h`). -/
abbrev NLM_F_CREATE : Nat := 0x400

/-- Route attribute types (`linux/rtnetlink.h`; 18..22 at rt_netlink.c lines 66-80). -/
abbrev RTA_DST : Nat := 1
abbrev RTA_OIF : Nat := 4
abbrev RTA_GATEWAY : Nat := 5
abbrev RTA_PRIORITY : Nat := 6
abbrev RTA_PREFSRC : Nat := 7
abbrev RTA_METRICS : Nat := 8
abbrev RTA_MULTIPATH : Nat := 9
abbrev RTA_TABLE : Nat := 15
abbrev RTA_VIA : Nat := 18
abbrev RTA_NEWDST : Nat := 19
abbrev RTA_ENCAP_TYPE : Nat := 21
abbrev RTA_ENCAP : Nat := 22

/-- Metric attribute type of the MTU inside RTA_METRICS (`linux/rtnetlink.h`). -/
abbrev RTAX_MTU : Nat := 2
/-- Encapsulation type MPLS, rt_netlink.c line 87. -/
abbrev LWTUNNEL_ENCAP_MPLS : Nat := 1
/-- Attribute type of the label stack inside RTA_ENCAP, rt_netlink.c line 91. -/
abbrev MPLS_IPTUNNEL_DST : Nat := 1

/-- Nexthop flag: the gateway is on link (`linux/rtnetlink.h`). -/
abbrev RTNH_F_ONLINK : Nat := 4

/-- Route scope and table constants (`linux/rtnetlink.h`). -/
abbrev RT_SCOPE_UNIVERSE : Nat := 0
abbrev RT_TABLE_UNSPEC : Nat := 0

/-- Route types (`linux/rtnetlink.h`). -/
abbrev RTN_UNICAST : Nat := 1
abbrev RTN_BLACKHOLE : Nat := 6
abbrev RTN_UNREACHABLE : Nat := 7

/-- Kernel protocol ids of `linux/rtnetlink.h`. -/
abbrev RTPROT_REDIRECT : Nat := 1
abbrev RTPROT_KERNEL : Nat := 2
abbrev RTPROT_STATIC : Nat := 4
abbrev RTPROT_ZEBRA : Nat := 11

/-- Modelled from the spec: the daemon-owned kernel protocol ids, declared in
zebra/rt_netlink.h (not among the sources); values of the protocol id map. -/
abbrev RTPROT_BGP : Nat := 186
abbrev RTPROT_ISIS : Nat := 187
abbrev RTPROT_OSPF : Nat := 188
abbrev RTPROT_RIP : Nat := 189
abbrev RTPROT_RIPNG : Nat := 190

/-- Modelled from the spec: the daemon origin types, declared in the generated
lib/route_types.h (not among the sources); the code only needs them distinct,
the numbering follows the order of the route type table. -/
abbrev ZEBRA_ROUTE_SYSTEM : Nat := 0
abbrev ZEBRA_ROUTE_KERNEL : Nat := 1
abbrev ZEBRA_ROUTE_CONNECT : Nat := 2
abbrev ZEBRA_ROUTE_STATIC : Nat := 3
abbrev ZEBRA_ROUTE_RIP : Nat := 4
abbrev ZEBRA_ROUTE_RIPNG : Nat := 5
abbrev ZEBRA_ROUTE_OSPF : Nat := 6
abbrev ZEBRA_ROUTE_OSPF6 : Nat := 7
abbrev ZEBRA_ROUTE_ISIS : Nat := 8
abbrev ZEBRA_ROUTE_BGP : Nat := 9

/-- Fixed metric written into RTA_PRIORITY (zebra/rt_netlink.h; the spec's PRIORITY = 20). -/
abbrev NL_DEFAULT_ROUTE_METRIC : Nat := 20

/-- The implicit-null label (lib/mpls.h; the spec's sentinel 3). -/
abbrev MPLS_IMP_NULL_LABEL : Nat := 3

/-! ## Protocol id map -/

/-- Embeds `is_selfroute`, rt_netlink.c lines 126-135. -/
def is_selfroute (proto : Nat) : Nat :=
  if proto = RTPROT_BGP ∨ proto = RTPROT_OSPF ∨
     proto = RTPROT_STATIC ∨ proto = RTPROT_ZEBRA ∨
     proto = RTPROT_ISIS ∨ proto = RTPROT_RIPNG then 1
  else 0

/-- Embeds `get_rt_proto`, rt_netlink.c lines 137-165. -/
def get_rt_proto (proto : Nat) : Nat :=
  if proto = ZEBRA_ROUTE_BGP then RTPROT_BGP
  else if proto = ZEBRA_ROUTE_OSPF ∨ proto = ZEBRA_ROUTE_OSPF6 then RTPROT_OSPF
  else if proto = ZEBRA_ROUTE_STATIC then RTPROT_STATIC
  else if proto = ZEBRA_ROUTE_ISIS then RTPROT_ISIS
  else if proto = ZEBRA_ROUTE_RIP then RTPROT_RIP
  else if proto = ZEBRA_ROUTE_RIPNG then RTPROT_RIPNG
  else RTPROT_ZEBRA

/-! ## Data model -/

/-- The bytes of a `union g_addr` (lib/nexthop.h): `.ipv4` is the first 4 bytes,
`.ipv6` the first 16. -/
abbrev GAddr := List Nat

/-- The test `g.ipv4.s_addr != 0`. -/
def ipv4_s_addr (g : GAddr) : Bool := (g.take 4).any (fun b => b != 0)

/-- The libc test `IN6_IS_ADDR_UNSPECIFIED (&g.ipv6)`. -/
def IN6_IS_ADDR_UNSPECIFIED (g : GAddr) : Bool := (g.take 16).all (fun b => b == 0)

/-- The comparison `IPV4_ADDR_SAME (&a.ipv4, &b.ipv4)` (lib/prefix.h, a memcmp of 4 bytes). -/
def IPV4_ADDR_SAME (a b : GAddr) : Bool := decide (a.take 4 = b.take 4)

/-- The comparison `IPV6_ADDR_SAME (&a.ipv6, &b.ipv6)` (lib/prefix.h, a memcmp of 16 bytes). -/
def IPV6_ADDR_SAME (a b : GAddr) : Bool := decide (a.take 16 = b.take 16)

/-- The nexthop variants, `enum nexthop_types_t` of lib/nexthop.h. -/
inductive NexthopType where
  | IFINDEX
  | IPV4
  | IPV4_IFINDEX
  | IPV6
  | IPV6_IFINDEX
  | BLACKHOLE
  deriving DecidableEq, Repr

/-- The flags of `nexthop->flags` that rt_netlink.c tests with CHECK_FLAG. -/
structure NexthopFlags where
  ACTIVE : Bool
  FIB : Bool
  RECURSIVE : Bool
  ONLINK : Bool
  deriving DecidableEq, Repr

/-- The fields of `struct nexthop` that the request builders read. `nh_label`
is `none` for a NULL pointer and otherwise the `num_labels` labels of the
`struct nexthop_label`. -/
structure Nexthop where
  type : NexthopType
  flags : NexthopFlags
  ifindex : Nat
  gate : GAddr
  src : GAddr
  rmap_src : GAddr
  nh_label : Option (List Nat)
  deriving DecidableEq, Repr

/-- A nexthop of the top-level chain of a route entry together with its
`resolved` chain. -/
structure NexthopNode where
  nh : Nexthop
  resolved : List Nexthop
  deriving DecidableEq, Repr

/-- Modelled from the spec: the iterator ALL_NEXTHOPS_RO is declared in
zebra/rib.h, which is not among the sources. Following the data model ("a
recursive nexthop additionally owns a child chain of resolved nexthops") the
walk visits every nexthop of the top-level chain in order and, right after a
nexthop that has the RECURSIVE flag, the nexthops of its resolved chain. The
`recursing` variable of the iterator only selects a log text and is left out. -/
def ALL_NEXTHOPS_RO : List NexthopNode → List Nexthop
  | [] => []
  | n :: rest =>
    n.nh :: ((if n.nh.flags.RECURSIVE then n.resolved else []) ++ ALL_NEXTHOPS_RO rest)

/-- The fields of `struct prefix` (lib/prefix.h) that the builders read; `u` holds
the address bytes of the union member `u.prefix`. -/
structure Prefix where
  family : Nat
  prefixlen : Nat
  u : List Nat
  deriving DecidableEq, Repr

/-- The flags of `rib->flags` that rt_netlink.c tests. -/
structure RibFlags where
  BLACKHOLE : Bool
  REJECT : Bool
  deriving DecidableEq, Repr

/-- The fields of `struct rib` (zebra/rib.h) that `netlink_route_multipath` reads. -/
structure Rib where
  type : Nat
  flags : RibFlags
  table : Nat
  mtu : Nat
  nexthop_mtu : Nat
  nexthop : List NexthopNode
  deriving DecidableEq, Repr

/-! ## Netlink messages -/

/-- The payload of an attribute that holds no further attribute. `lse` is an
array of label stack entries copied from the local array `out_lse`: `none`
stands for a slot of that array that was never written. `via` is the
`family` and `gate` part of a `struct gw_family_t`. -/
inductive RtaLeaf where
  | bytes (b : List Nat)
  | u16 (v : Nat)
  | u32 (v : Nat)
  | lse (stack : List (Option Nat))
  | via (family : Nat) (gate : List Nat)
  deriving DecidableEq, Repr

/-- The payload of an attribute: a value or one level of nested attributes. -/
inductive RtaData where
  | leaf (d : RtaLeaf)
  | nest (inner : List (Nat × RtaLeaf))
  deriving DecidableEq, Repr

/-- An attribute `struct rtattr` with its payload. -/
structure Rtattr where
  rta_type : Nat
  data : RtaData
  deriving DecidableEq, Repr

/-- A nexthop record `struct rtnexthop` of RTA_MULTIPATH with the attributes that
its `rtnh_len` covers. -/
structure Rtnexthop where
  rtnh_flags : Nat
  rtnh_hops : Nat
  rtnh_ifindex : Nat
  attrs : List Rtattr
  deriving DecidableEq, Repr

/-- An attribute of the message itself: a plain attribute, or the RTA_MULTIPATH
attribute with its nexthop records. -/
inductive NlAttr where
  | rta (a : Rtattr)
  | multipath (rtnh : List Rtnexthop)
  deriving DecidableEq, Repr

/-- The attribute type of a message attribute. -/
def NlAttr.type : NlAttr → Nat
  | .rta a => a.rta_type
  | .multipath _ => RTA_MULTIPATH

/-- The fields of `struct nlmsghdr` that the builders set. -/
structure Nlmsghdr where
  nlmsg_type : Nat
  nlmsg_flags : Nat
  deriving DecidableEq, Repr

/-- The body `struct rtmsg`. A request is built from a zeroed body, so
`rtm_src_len` is 0 unless a received message says otherwise. -/
structure Rtmsg where
  rtm_family : Nat
  rtm_dst_len : Nat
  rtm_table : Nat
  rtm_protocol : Nat
  rtm_scope : Nat
  rtm_type : Nat
  rtm_flags : Nat
  rtm_src_len : Nat := 0
  deriving DecidableEq, Repr

/-- The local `req` of the builders: header, body and the attributes appended so far. -/
structure Req where
  n : Nlmsghdr
  r : Rtmsg
  attrs : List NlAttr
  deriving DecidableEq, Repr

/-- The ways a call can end without returning. -/
inductive Fault where
  | assert_failed
  | null_deref
  deriving DecidableEq, Repr

/-- Embeds `addattr_l` (zebra/kernel_netlink.c): append an attribute with a byte payload. -/
def addattr_l (req : Req) (type : Nat) (data : List Nat) : Req :=
  { req with attrs := req.attrs ++ [.rta ⟨type, .leaf (.bytes data)⟩] }

/-- Embeds `addattr32` (zebra/kernel_netlink.c): append an attribute with a 32-bit payload. -/
def addattr32 (req : Req) (type : Nat) (data : Nat) : Req :=
  { req with attrs := req.attrs ++ [.rta ⟨type, .leaf (.u32 data)⟩] }

/-- Appends a plain attribute with any payload (`addattr_l` of a typed value,
or an `addattr_nest` ... `addattr_nest_end` pair). -/
def addattr (req : Req) (type : Nat) (data : RtaData) : Req :=
  { req with attrs := req.attrs ++ [.rta ⟨type, data⟩] }

/-! ## Label stack entries -/

/-- Modelled from the spec: `mpls_lse_encode (label, ttl, exp, bos)` is declared in
lib/mpls.h, which is not among the sources. The entry is the 32-bit value with
the label in bits 31..12, the TC (exp) in bits 11..9, BOS in bit 8 and the TTL
in bits 7..0, read as the big-endian number of the wire. -/
def mpls_lse_encode (label ttl exp bos : Nat) : Nat :=
  ((label <<< 12) ||| (exp <<< 9) ||| (if bos ≠ 0 then 1 <<< 8 else 0) ||| ttl) % 2 ^ 32

/-- The label field (bits 31..12) of a label stack entry. -/
def lse_label (lse : Nat) : Nat := lse >>> 12

/-- The bottom-of-stack bit (bit 8) of a label stack entry. -/
def lse_bos (lse : Nat) : Nat := (lse >>> 8) % 2

/-- One iteration of the label loop, rt_netlink.c lines 1075-1090 and 1281-1296
(without the log text): the state is the local array `out_lse` and the
counter `num_labels`. -/
def label_loop_body (label : List Nat) (st : List (Option Nat) × Nat) (i : Nat) :
    List (Option Nat) × Nat :=
  if label.getD i 0 ≠ MPLS_IMP_NULL_LABEL then
    let bos := if i = label.length - 1 then 1 else 0
    (st.1.set i (some (mpls_lse_encode (label.getD i 0) 0 0 bos)), st.2 + 1)
  else st

/-- The label loop `for (i = 0; i < nh_label->num_labels; i++)`: starts from an
array `out_lse` no slot of which is written (only the slots below
`nh_label->num_labels` can be written or read) and `num_labels = 0`. -/
def label_loop (label : List Nat) : List (Option Nat) × Nat :=
  (List.range label.length).foldl (label_loop_body label) (List.replicate label.length none, 0)

/-- The payload `&out_lse, num_labels * sizeof(mpls_lse_t)` of the label stack
attribute: the first `num_labels` slots of `out_lse`. -/
def out_lse_payload (label : List Nat) : List (Option Nat) :=
  (label_loop label).1.take (label_loop label).2

/-- The attributes of lines 1069-1109 (singlepath) and 1275-1320 (multipath):
nothing for a NULL or empty label stack or when `num_labels` stays 0, RTA_NEWDST
for an MPLS route, RTA_ENCAP_TYPE and a nested RTA_ENCAP otherwise. -/
def label_attrs (rtm_family : Nat) (nh_label : Option (List Nat)) : List Rtattr :=
  match nh_label with
  | none => []
  | some label =>
    if label.length ≠ 0 then
      if (label_loop label).2 ≠ 0 then
        if rtm_family = AF_MPLS then
          [⟨RTA_NEWDST, .leaf (.lse (out_lse_payload label))⟩]
        else
          [⟨RTA_ENCAP_TYPE, .leaf (.u16 LWTUNNEL_ENCAP_MPLS)⟩,
           ⟨RTA_ENCAP, .nest [(MPLS_IPTUNNEL_DST, .lse (out_lse_payload label))]⟩]
      else []
    else []

/-- The two assertions of lines 1063-1067 and 1269-1273. -/
def label_assert (rtm_family : Nat) (nh_label : Option (List Nat)) : Except Fault Unit :=
  if rtm_family = AF_MPLS then
    match nh_label with
    | none => .error .assert_failed
    | some label => if label.length = 1 then .ok () else .error .assert_failed
  else .ok ()

/-! ## Encoding one nexthop -/

/-- The attribute that `_netlink_route_nl_add_gateway_info` (lines 953-977) and
`_netlink_route_rta_add_gateway_info` (lines 979-1005) append: RTA_VIA with
the gateway family and `bytelen` gateway bytes for an MPLS route, RTA_GATEWAY
with `bytelen` gateway bytes otherwise. -/
def gateway_info (route_family gw_family bytelen : Nat) (nexthop : Nexthop) : Rtattr :=
  if route_family = AF_MPLS then
    ⟨RTA_VIA, .leaf (.via gw_family (nexthop.gate.take bytelen))⟩
  else
    ⟨RTA_GATEWAY, .leaf (.bytes (nexthop.gate.take bytelen))⟩

/-- Embeds `_netlink_route_nl_add_gateway_info`, rt_netlink.c lines 953-977. -/
def _netlink_route_nl_add_gateway_info (route_family gw_family : Nat) (req : Req)
    (bytelen : Nat) (nexthop : Nexthop) : Req :=
  { req with attrs := req.attrs ++ [.rta (gateway_info route_family gw_family bytelen nexthop)] }

/-- The IPv4 preferred source of lines 1124-1129 (also 1169-1174):
RTA_PREFSRC from `rmap_src` when it is non-zero, else from `src` when that is
non-zero. -/
def prefsrc_v4 (req : Req) (bytelen : Nat) (nexthop : Nexthop) : Req :=
  if ipv4_s_addr nexthop.rmap_src then addattr_l req RTA_PREFSRC (nexthop.rmap_src.take bytelen)
  else if ipv4_s_addr nexthop.src then addattr_l req RTA_PREFSRC (nexthop.src.take bytelen)
  else req

/-- The IPv6 preferred source of lines 1147-1152 (also 1188-1193). -/
def prefsrc_v6 (req : Req) (bytelen : Nat) (nexthop : Nexthop) : Req :=
  if !IN6_IS_ADDR_UNSPECIFIED nexthop.rmap_src then
    addattr_l req RTA_PREFSRC (nexthop.rmap_src.take bytelen)
  else if !IN6_IS_ADDR_UNSPECIFIED nexthop.src then
    addattr_l req RTA_PREFSRC (nexthop.src.take bytelen)
  else req

/-- The address 169.254.0.1 as `inet_pton` stores it (network byte order). -/
abbrev ipv4_ll : List Nat := [169, 254, 0, 1]

/-- The flag RTNH_F_ONLINK on the route message, lines 1040 and 1111-1112. -/
def set_rtm_onlink (req : Req) : Req :=
  { req with r := { req.r with rtm_flags := req.r.rtm_flags ||| RTNH_F_ONLINK } }

/-- The cross-family block of the singlepath builder, lines 1032-1056: an IPv6
nexthop on an AF_INET route. -/
def singlepath_cross (bytelen : Nat) (nexthop : Nexthop) (req : Req) (cmd : Nat) : Req :=
  let req := set_rtm_onlink req
  let req := addattr_l req RTA_GATEWAY ipv4_ll
  let req := addattr32 req RTA_OIF nexthop.ifindex
  if ipv4_s_addr nexthop.rmap_src ∧ cmd = RTM_NEWROUTE then
    addattr_l req RTA_PREFSRC (nexthop.rmap_src.take bytelen)
  else if ipv4_s_addr nexthop.src ∧ cmd = RTM_NEWROUTE then
    addattr_l req RTA_PREFSRC (nexthop.src.take bytelen)
  else req

/-- The label block of the singlepath builder, lines 1069-1109. -/
def singlepath_labels (nexthop : Nexthop) (req : Req) : Req :=
  { req with attrs := req.attrs ++
      (label_attrs req.r.rtm_family nexthop.nh_label).map NlAttr.rta }

/-- The ONLINK block of the singlepath builder, lines 1111-1112. -/
def singlepath_onlink (nexthop : Nexthop) (req : Req) : Req :=
  if nexthop.flags.ONLINK then set_rtm_onlink req else req

/-- The IPv4 gateway block of the singlepath builder, lines 1114-1138. -/
def singlepath_ipv4 (bytelen : Nat) (nexthop : Nexthop) (cmd : Nat) (req : Req) : Req :=
  if nexthop.type = .IPV4 ∨ nexthop.type = .IPV4_IFINDEX then
    let req :=
      if cmd ≠ RTM_DELROUTE then
        _netlink_route_nl_add_gateway_info req.r.rtm_family AF_INET req bytelen nexthop
      else req
    if cmd = RTM_NEWROUTE then prefsrc_v4 req bytelen nexthop else req
  else req

/-- The IPv6 gateway block of the singlepath builder, lines 1139-1161. -/
def singlepath_ipv6 (bytelen : Nat) (nexthop : Nexthop) (cmd : Nat) (req : Req) : Req :=
  if nexthop.type = .IPV6 ∨ nexthop.type = .IPV6_IFINDEX then
    let req := _netlink_route_nl_add_gateway_info req.r.rtm_family AF_INET6 req bytelen nexthop
    if cmd = RTM_NEWROUTE then prefsrc_v6 req bytelen nexthop else req
  else req

/-- The interface block of the singlepath builder for IFINDEX and IPV4_IFINDEX,
lines 1162-1180. -/
def singlepath_oif (bytelen : Nat) (nexthop : Nexthop) (cmd : Nat) (req : Req) : Req :=
  if nexthop.type = .IFINDEX ∨ nexthop.type = .IPV4_IFINDEX then
    let req := addattr32 req RTA_OIF nexthop.ifindex
    if cmd = RTM_NEWROUTE then prefsrc_v4 req bytelen nexthop else req
  else req

/-- The interface block of the singlepath builder for IPV6_IFINDEX, lines 1182-1199. -/
def singlepath_oif6 (bytelen : Nat) (nexthop : Nexthop) (cmd : Nat) (req : Req) : Req :=
  if nexthop.type = .IPV6_IFINDEX then
    let req := addattr32 req RTA_OIF nexthop.ifindex
    if cmd = RTM_NEWROUTE then prefsrc_v6 req bytelen nexthop else req
  else req

/-- Embeds `_netlink_route_build_singlepath`, rt_netlink.c lines 1018-1200:
appends the attributes of one nexthop to the message `req` (the `nlmsg` and
`rtmsg` arguments of the C function), block after block. -/
def _netlink_route_build_singlepath (bytelen : Nat) (nexthop : Nexthop) (req : Req)
    (cmd : Nat) : Except Fault Req :=
  if req.r.rtm_family = AF_INET ∧
      (nexthop.type = .IPV6 ∨ nexthop.type = .IPV6_IFINDEX) then
    .ok (singlepath_cross bytelen nexthop req cmd)
  else
    match label_assert req.r.rtm_family nexthop.nh_label with
    | .error e => .error e
    | .ok _ =>
      .ok (singlepath_oif6 bytelen nexthop cmd
            (singlepath_oif bytelen nexthop cmd
              (singlepath_ipv6 bytelen nexthop cmd
                (singlepath_ipv4 bytelen nexthop cmd
                  (singlepath_onlink nexthop
                    (singlepath_labels nexthop req))))))

/-- The update of `*src` at lines 1252-1255, 1330-1333 and 1366-1369. -/
def src_v4 (nexthop : Nexthop) (src : Option GAddr) : Option GAddr :=
  if ipv4_s_addr nexthop.rmap_src then some nexthop.rmap_src
  else if ipv4_s_addr nexthop.src then some nexthop.src
  else src

/-- The update of `*src` at lines 1348-1351. -/
def src_v6 (nexthop : Nexthop) (src : Option GAddr) : Option GAddr :=
  if !IN6_IS_ADDR_UNSPECIFIED nexthop.rmap_src then some nexthop.rmap_src
  else if !IN6_IS_ADDR_UNSPECIFIED nexthop.src then some nexthop.src
  else src

/-- The record at entry of the multipath builder, lines 1232-1235; `rtnh_ifindex`
is assigned on every path before the function returns. -/
def rtnh_init : Rtnexthop := ⟨0, 0, 0, []⟩

/-- The cross-family block of the multipath builder, lines 1237-1262. -/
def multipath_cross (nexthop : Nexthop) (src : Option GAddr) : Rtnexthop × Option GAddr :=
  let rtnh := rtnh_init
  let rtnh := { rtnh with rtnh_flags := rtnh.rtnh_flags ||| RTNH_F_ONLINK }
  let rtnh := { rtnh with attrs := rtnh.attrs ++ [Rtattr.mk RTA_GATEWAY (.leaf (.bytes ipv4_ll))] }
  let rtnh := { rtnh with rtnh_ifindex := nexthop.ifindex }
  (rtnh, src_v4 nexthop src)

/-- The label block of the multipath builder, lines 1275-1320. -/
def multipath_labels (rtm_family : Nat) (nexthop : Nexthop) (rtnh : Rtnexthop) : Rtnexthop :=
  { rtnh with attrs := rtnh.attrs ++ label_attrs rtm_family nexthop.nh_label }

/-- The ONLINK block of the multipath builder, lines 1322-1323. -/
def multipath_onlink (nexthop : Nexthop) (rtnh : Rtnexthop) : Rtnexthop :=
  if nexthop.flags.ONLINK then { rtnh with rtnh_flags := rtnh.rtnh_flags ||| RTNH_F_ONLINK }
  else rtnh

/-- The IPv4 gateway block of the multipath builder, lines 1325-1341. -/
def multipath_ipv4 (rtm_family bytelen : Nat) (nexthop : Nexthop)
    (st : Rtnexthop × Option GAddr) : Rtnexthop × Option GAddr :=
  if nexthop.type = .IPV4 ∨ nexthop.type = .IPV4_IFINDEX then
    ({ st.1 with attrs := st.1.attrs ++ [gateway_info rtm_family AF_INET bytelen nexthop] },
     src_v4 nexthop st.2)
  else st

/-- The IPv6 gateway block of the multipath builder, lines 1342-1359. -/
def multipath_ipv6 (rtm_family bytelen : Nat) (nexthop : Nexthop)
    (st : Rtnexthop × Option GAddr) : Rtnexthop × Option GAddr :=
  if nexthop.type = .IPV6 ∨ nexthop.type = .IPV6_IFINDEX then
    ({ st.1 with attrs := st.1.attrs ++ [gateway_info rtm_family AF_INET6 bytelen nexthop] },
     src_v6 nexthop st.2)
  else st

/-- The interface block of the multipath builder, lines 1360-1386. -/
def multipath_ifindex (nexthop : Nexthop)
    (st : Rtnexthop × Option GAddr) : Rtnexthop × Option GAddr :=
  if nexthop.type = .IPV4_IFINDEX ∨ nexthop.type = .IFINDEX then
    ({ st.1 with rtnh_ifindex := nexthop.ifindex }, src_v4 nexthop st.2)
  else if nexthop.type = .IPV6_IFINDEX then
    ({ st.1 with rtnh_ifindex := nexthop.ifindex }, st.2)
  else
    ({ st.1 with rtnh_ifindex := 0 }, st.2)

/-- Embeds `_netlink_route_build_multipath`, rt_netlink.c lines 1218-1387: the
nexthop record appended to the RTA_MULTIPATH under construction, and the new
value of `*src` (`none` for NULL, else the `union g_addr` pointed to). -/
def _netlink_route_build_multipath (bytelen : Nat) (nexthop : Nexthop) (rtmsg : Rtmsg)
    (src : Option GAddr) : Except Fault (Rtnexthop × Option GAddr) :=
  if rtmsg.rtm_family = AF_INET ∧
      (nexthop.type = .IPV6 ∨ nexthop.type = .IPV6_IFINDEX) then
    .ok (multipath_cross nexthop src)
  else
    match label_assert rtmsg.rtm_family nexthop.nh_label with
    | .error e => .error e
    | .ok _ =>
      .ok (multipath_ifindex nexthop
            (multipath_ipv6 rtmsg.rtm_family bytelen nexthop
              (multipath_ipv4 rtmsg.rtm_family bytelen nexthop
                (multipath_onlink nexthop
                  (multipath_labels rtmsg.rtm_family nexthop rtnh_init), src))))

/-! ## Duplicate first hops -/

/-- Embeds `are_first_hops_same`, rt_netlink.c lines 1433-1469. -/
def are_first_hops_same (next1 next2 : Nexthop) : Nat :=
  match next1.type with
  | .IPV4 | .IPV4_IFINDEX =>
    if next2.type ≠ .IPV4 ∧ next2.type ≠ .IPV4_IFINDEX then 0
    else if !IPV4_ADDR_SAME next1.gate next2.gate then 0
    else if next1.ifindex ≠ next2.ifindex then 0
    else 1
  | .IFINDEX =>
    if next1.type ≠ next2.type then 0
    else if next1.ifindex ≠ next2.ifindex then 0
    else 1
  | .IPV6 | .IPV6_IFINDEX =>
    if next2.type ≠ .IPV6 ∧ next2.type ≠ .IPV6_IFINDEX then 0
    else if !IPV6_ADDR_SAME next1.gate next2.gate then 0
    else if next1.ifindex ≠ next2.ifindex then 0
    else 1
  | _ => 1

/-- Embeds `is_duplicate_first_hop`, rt_netlink.c lines 1474-1496. `nhops` is the
list of the first `nhop_num` entries of the array; the result is the return
value and the array after the call (extended by `nexthop` when the result is 0). -/
def is_duplicate_first_hop (nexthop : Nexthop) (nhops : List Nexthop) : Nat × List Nexthop :=
  if nhops.any (fun nh => are_first_hops_same nexthop nh != 0) then (1, nhops)
  else (0, nhops ++ [nexthop])

/-! ## netlink_route_multipath -/

/-- What a call of `netlink_route_multipath` leaves behind: the local `req` as
built, whether it was handed to `netlink_talk`, and the return value. -/
structure Outcome where
  req : Req
  talk : Bool
  ret : Int
  deriving DecidableEq, Repr

/-- The address length `bytelen = (family == AF_INET ? 4 : 16)`, line 1657. -/
def bytelen_of (family : Nat) : Nat := if family = AF_INET then 4 else 16

/-- The header, the body and the attributes RTA_DST, RTA_PRIORITY, RTA_TABLE and
RTA_METRICS, rt_netlink.c lines 1655-1719. -/
def route_req_base (cmd : Nat) (p : Prefix) (rib : Rib) (update : Nat) : Req :=
  let family := p.family
  let bytelen := bytelen_of family
  let discard : Bool := rib.flags.BLACKHOLE || rib.flags.REJECT
  let req : Req :=
    { n := { nlmsg_type := cmd,
             nlmsg_flags :=
               if cmd = RTM_NEWROUTE ∧ update ≠ 0 then
                 (NLM_F_CREATE ||| NLM_F_REQUEST) ||| NLM_F_REPLACE
               else NLM_F_CREATE ||| NLM_F_REQUEST },
      r := { rtm_family := family,
             rtm_dst_len := p.prefixlen,
             rtm_table := 0,
             rtm_protocol := get_rt_proto rib.type,
             rtm_scope := RT_SCOPE_UNIVERSE,
             rtm_type :=
               if cmd = RTM_NEWROUTE then
                 if discard then
                   if rib.flags.BLACKHOLE then RTN_BLACKHOLE else RTN_UNREACHABLE
                 else RTN_UNICAST
               else 0,
             rtm_flags := 0 },
      attrs := [] }
  let req := addattr_l req RTA_DST (p.u.take bytelen)
  let req := addattr32 req RTA_PRIORITY NL_DEFAULT_ROUTE_METRIC
  let req :=
    if rib.table < 256 then { req with r := { req.r with rtm_table := rib.table } }
    else addattr32 { req with r := { req.r with rtm_table := RT_TABLE_UNSPEC } } RTA_TABLE rib.table
  if rib.mtu ≠ 0 ∨ rib.nexthop_mtu ≠ 0 then
    let mtu :=
      if rib.mtu = 0 ∨ (rib.nexthop_mtu ≠ 0 ∧ rib.nexthop_mtu < rib.mtu) then rib.nexthop_mtu
      else rib.mtu
    addattr req RTA_METRICS (.nest [(RTAX_MTU, .u32 mtu)])
  else req

/-- The counting loop, rt_netlink.c lines 1737-1748. -/
def count_nexthops (cmd : Nat) (walk : List Nexthop) : Nat :=
  walk.foldl (fun nexthop_num nexthop =>
    if nexthop.flags.RECURSIVE then nexthop_num
    else if cmd = RTM_NEWROUTE ∧ !nexthop.flags.ACTIVE then nexthop_num
    else if cmd = RTM_DELROUTE ∧ !nexthop.flags.FIB then nexthop_num
    else nexthop_num + 1) 0

/-- The source taken from a RECURSIVE-marked nexthop, lines 1758-1786 and
1835-1863: the pair is (`setsrc`, `src`). -/
def recursive_src (family : Nat) (nexthop : Nexthop) (st : Bool × GAddr) : Bool × GAddr :=
  if !st.1 then
    if family = AF_INET then
      if ipv4_s_addr nexthop.rmap_src then (true, nexthop.rmap_src.take 4)
      else if ipv4_s_addr nexthop.src then (true, nexthop.src.take 4)
      else st
    else if family = AF_INET6 then
      if !IN6_IS_ADDR_UNSPECIFIED nexthop.rmap_src then (true, nexthop.rmap_src.take 16)
      else if !IN6_IS_ADDR_UNSPECIFIED nexthop.src then (true, nexthop.src.take 16)
      else st
    else st
  else st

/-- The local state of the singlepath loop. -/
structure SingleState where
  req : Req
  setsrc : Bool
  src : GAddr
  nexthop_num : Nat
  deriving DecidableEq, Repr

/-- The singlepath loop, rt_netlink.c lines 1754-1804, over the nexthops of the walk. -/
def singlepath_loop (cmd family bytelen : Nat) :
    List Nexthop → SingleState → Except Fault SingleState
  | [], st => .ok st
  | nexthop :: rest, st =>
    if nexthop.flags.RECURSIVE then
      let s := recursive_src family nexthop (st.setsrc, st.src)
      singlepath_loop cmd family bytelen rest { st with setsrc := s.1, src := s.2 }
    else if (cmd = RTM_NEWROUTE ∧ nexthop.flags.ACTIVE) ∨
        (cmd = RTM_DELROUTE ∧ nexthop.flags.FIB) then
      match _netlink_route_build_singlepath bytelen nexthop st.req cmd with
      | .error e => .error e
      | .ok req => .ok { st with req := req, nexthop_num := st.nexthop_num + 1 }
    else singlepath_loop cmd family bytelen rest st

/-- The source taken over from `src1` after a record was built, lines 1882-1890:
the pair is (`setsrc`, `src`). -/
def src1_setsrc (family : Nat) (src1 : Option GAddr) (st : Bool × GAddr) : Bool × GAddr :=
  if !st.1 ∧ src1.isSome then
    (true,
     if family = AF_INET then (src1.getD []).take 4
     else if family = AF_INET6 then (src1.getD []).take 16
     else st.2)
  else st

/-- The local state of the multipath loop: the records appended to the
RTA_MULTIPATH under construction, `src1`, the array `nhops`, `setsrc`, `src`
and `nexthop_num`. -/
structure MultiState where
  rtnh : List Rtnexthop
  src1 : Option GAddr
  nhops : List Nexthop
  setsrc : Bool
  src : GAddr
  nexthop_num : Nat
  deriving DecidableEq, Repr

/-- The multipath loop, rt_netlink.c lines 1827-1892, over the nexthops of the walk. -/
def multipath_loop (multipath_num cmd family bytelen : Nat) (rtmsg : Rtmsg) :
    List Nexthop → MultiState → Except Fault MultiState
  | [], st => .ok st
  | nexthop :: rest, st =>
    if st.nexthop_num ≥ multipath_num then .ok st
    else if nexthop.flags.RECURSIVE then
      let s := recursive_src family nexthop (st.setsrc, st.src)
      multipath_loop multipath_num cmd family bytelen rtmsg rest
        { st with setsrc := s.1, src := s.2 }
    else
      let c1 : Bool × List Nexthop :=
        if cmd = RTM_NEWROUTE ∧ nexthop.flags.ACTIVE then
          let d := is_duplicate_first_hop nexthop st.nhops
          (decide (d.1 = 0), d.2)
        else (false, st.nhops)
      if c1.1 ∨ (cmd = RTM_DELROUTE ∧ nexthop.flags.FIB) then
        match _netlink_route_build_multipath bytelen nexthop rtmsg st.src1 with
        | .error e => .error e
        | .ok (r, src1) =>
          let s := src1_setsrc family src1 (st.setsrc, st.src)
          multipath_loop multipath_num cmd family bytelen rtmsg rest
            { rtnh := st.rtnh ++ [r], src1 := src1, nhops := c1.2,
              setsrc := s.1, src := s.2, nexthop_num := st.nexthop_num + 1 }
      else
        multipath_loop multipath_num cmd family bytelen rtmsg rest { st with nhops := c1.2 }

/-- The RTA_PREFSRC of lines 1805-1811 and 1893-1901. -/
def add_setsrc (req : Req) (cmd family bytelen : Nat) (setsrc : Bool) (src : GAddr) : Req :=
  if setsrc ∧ cmd = RTM_NEWROUTE then
    if family = AF_INET then addattr_l req RTA_PREFSRC (src.take bytelen)
    else if family = AF_INET6 then addattr_l req RTA_PREFSRC (src.take bytelen)
    else req
  else req

/-- Embeds `netlink_route_multipath`, rt_netlink.c lines 1630-1924. The global
`multipath_num` and the result of `netlink_talk` on the request are
parameters; `update` is the C int. -/
def netlink_route_multipath (multipath_num : Nat) (netlink_talk : Req → Int)
    (cmd : Nat) (p : Prefix) (rib : Rib) (update : Nat) : Except Fault Outcome :=
  let family := p.family
  let bytelen := bytelen_of family
  let discard : Bool := rib.flags.BLACKHOLE || rib.flags.REJECT
  let req := route_req_base cmd p rib update
  let walk := ALL_NEXTHOPS_RO rib.nexthop
  if discard then
    .ok ⟨req, true, netlink_talk req⟩
  else
    let nexthop_num := count_nexthops cmd walk
    if nexthop_num = 1 ∨ multipath_num = 1 then
      match singlepath_loop cmd family bytelen walk ⟨req, false, [], 0⟩ with
      | .error e => .error e
      | .ok st =>
        let req := add_setsrc st.req cmd family bytelen st.setsrc st.src
        if st.nexthop_num = 0 then .ok ⟨req, false, 0⟩
        else .ok ⟨req, true, netlink_talk req⟩
    else
      match multipath_loop multipath_num cmd family bytelen req.r walk ⟨[], none, [], false, [], 0⟩ with
      | .error e => .error e
      | .ok st =>
        let req := add_setsrc req cmd family bytelen st.setsrc st.src
        let req :=
          if st.rtnh ≠ [] then { req with attrs := req.attrs ++ [.multipath st.rtnh] }
          else req
        if st.nexthop_num = 0 then .ok ⟨req, false, 0⟩
        else .ok ⟨req, true, netlink_talk req⟩

/-- Embeds `kernel_route_rib`, rt_netlink.c lines 1959-1968; `none` is a NULL
pointer. With both pointers NULL the last call dereferences `new`. -/
def kernel_route_rib (multipath_num : Nat) (netlink_talk : Req → Int)
    (p : Prefix) (old new : Option Rib) : Except Fault Outcome :=
  match old, new with
  | none, some new => netlink_route_multipath multipath_num netlink_talk RTM_NEWROUTE p new 0
  | some old, none => netlink_route_multipath multipath_num netlink_talk RTM_DELROUTE p old 0
  | some _, some new => netlink_route_multipath multipath_num netlink_talk RTM_NEWROUTE p new 1
  | none, none => .error .null_deref

/-! ## Kernel route notifications -/

/-- Route flag of a cloned route (`linux/rtnetlink.h`). -/
abbrev RTM_F_CLONED : Nat := 0x200
/-- The main kernel table (`linux/rtnetlink.h`). -/
abbrev RT_TABLE_MAIN : Nat := 254
/-- The id of the default VRF (lib/vrf.h). -/
abbrev VRF_DEFAULT : Nat := 0
/-- Address family indexes of the RIB (lib/zebra.h). -/
abbrev AFI_IP : Nat := 1
abbrev AFI_IP6 : Nat := 2
/-- Unicast sub-address family (lib/zebra.h). -/
abbrev SAFI_UNICAST : Nat := 1

/-- The fields of `struct zebra_vrf` that `vrf_lookup_by_table` reads. -/
structure ZebraVrf where
  vrf_id : Nat
  table_id : Nat
  deriving DecidableEq, Repr

/-- Embeds `vrf_lookup_by_table`, rt_netlink.c lines 170-186. The iteration
`vrf_first` / `vrf_next` / `vrf_iter2info` (lib/vrf.c) is the list of the
infos of the known VRFs in iteration order, `none` for a NULL info. -/
def vrf_lookup_by_table (vrfs : List (Option ZebraVrf)) (table_id : Nat) : Nat :=
  match vrfs with
  | [] => VRF_DEFAULT
  | none :: rest => vrf_lookup_by_table rest table_id
  | some zvrf :: rest =>
    if zvrf.table_id ≠ table_id then vrf_lookup_by_table rest table_id
    else zvrf.vrf_id

/-- What the walk reads from the `struct rtnexthop` at one position of a received
RTA_MULTIPATH payload: `rtnh_len`, `rtnh_ifindex` and the data of the
RTA_GATEWAY attribute that `netlink_parse_rtattr` finds in the
`rtnh_len - sizeof (*rtnh)` bytes after the record header (`none` when there
is none). -/
structure RtnhIn where
  rtnh_len : Nat
  rtnh_ifindex : Nat
  gateway : Option (List Nat)
  deriving DecidableEq, Repr

/-- A received RTA_MULTIPATH attribute: the payload length `RTA_PAYLOAD` and, for
every byte offset into the payload, what a `struct rtnexthop` read at that
offset holds. -/
structure MultipathIn where
  len : Nat
  rtnh_at : Nat → RtnhIn

/-- The attribute table `tb` that `netlink_parse_rtattr` (zebra/kernel_netlink.c)
fills from a route message: `none` for a NULL entry, else the data of the
attribute. For RTA_METRICS the data is the entry `mxrta[RTAX_MTU]` of the
nested table. -/
structure RouteTb where
  RTA_DST : Option (List Nat)
  RTA_OIF : Option Nat
  RTA_GATEWAY : Option (List Nat)
  RTA_PRIORITY : Option Nat
  RTA_PREFSRC : Option (List Nat)
  RTA_METRICS : Option (Option Nat)
  RTA_MULTIPATH : Option MultipathIn
  RTA_TABLE : Option Nat

/-- A received route message: header `h`, body `rtm` and parsed attributes `tb`. -/
structure RouteMsg where
  h : Nlmsghdr
  rtm : Rtmsg
  tb : RouteTb

/-- The flag argument handed to the RIB (`zebra_flags`): the only flag the
notification path sets is ZEBRA_FLAG_SELFROUTE. -/
structure ZebraFlags where
  SELFROUTE : Bool
  deriving DecidableEq, Repr

/-- A nexthop appended to the entry under construction by one of
`rib_nexthop_ipv4_ifindex_add (rib, gate, src, index)`,
`rib_nexthop_ipv4_add (rib, gate, src)` and `rib_nexthop_ifindex_add (rib, index)`
(zebra/zebra_rib.c). -/
inductive NexthopAdd where
  | ipv4_ifindex (gate : List Nat) (src : Option (List Nat)) (ifindex : Nat)
  | ipv4 (gate : List Nat) (src : Option (List Nat))
  | ifindex (ifindex : Nat)
  deriving DecidableEq, Repr

/-- The entry that the multipath branch allocates and fills, lines 509-518 (the
time stamp `uptime` is left out); `nexthops` are the nexthops appended, and
`rib->nexthop_num` is their number. -/
structure KernelRib where
  type : Nat
  distance : Nat
  flags : ZebraFlags
  metric : Nat
  mtu : Nat
  vrf_id : Nat
  table : Nat
  nexthops : List NexthopAdd
  deriving DecidableEq, Repr

/-- A call into the RIB (zebra/zebra_rib.c) with its arguments in the order of
the C call. -/
inductive RibCall where
  | rib_add (afi safi vrf_id type inst : Nat) (flags : ZebraFlags) (p : Prefix)
      (gate src : Option (List Nat)) (ifindex table_id metric mtu distance : Nat)
  | rib_add_multipath (afi safi : Nat) (p : Prefix) (rib : KernelRib)
  | rib_delete (afi safi vrf_id type inst : Nat) (flags : ZebraFlags) (p : Prefix)
      (gate : Option (List Nat)) (ifindex table_id : Nat)
  deriving DecidableEq, Repr

/-- The alignment `NLMSG_ALIGN` / `RTNH_ALIGN` to 4 bytes (`linux/netlink.h`). -/
def NLMSG_ALIGN (len : Nat) : Nat := (len + 3) / 4 * 4

/-- The size of `struct rtnexthop` (`linux/rtnetlink.h`). -/
abbrev sizeof_rtnexthop : Nat := 8

/-- The nexthop that one iteration of the walk appends, lines 525-544. -/
def rtnh_nexthop (rtnh : RtnhIn) (src : Option (List Nat)) : NexthopAdd :=
  let index := rtnh.rtnh_ifindex
  let gate := if rtnh.rtnh_len > sizeof_rtnexthop then rtnh.gateway else none
  match gate with
  | some gate =>
    if index ≠ 0 then .ipv4_ifindex gate src index
    else .ipv4 gate src
  | none => .ifindex index

/-- The walk `for (;;)` over the records of a received RTA_MULTIPATH, lines
520-548 (also 326-354): `off` is the position of `rtnh` in the payload, `len`
the C int, `acc` the nexthops appended so far. The loop has no bound of its
own, so the embedding counts iterations down from `fuel` and is `none` when
they run out. -/
def rtnh_walk (mp : MultipathIn) (src : Option (List Nat)) :
    Nat → Nat → Int → List NexthopAdd → Option (List NexthopAdd)
  | 0, _, _, _ => none
  | fuel + 1, off, len, acc =>
    let rtnh := mp.rtnh_at off
    if len < (sizeof_rtnexthop : Int) ∨ (rtnh.rtnh_len : Int) > len then some acc
    else
      rtnh_walk mp src fuel (off + NLMSG_ALIGN rtnh.rtnh_len)
        (len - (NLMSG_ALIGN rtnh.rtnh_len : Int)) (acc ++ [rtnh_nexthop rtnh src])

/-- The part of `netlink_route_change_read_unicast` after the table was mapped
to a VRF, rt_netlink.c lines 441-589: the calls into the RIB, in order. -/
def route_change_rib_calls (fuel : Nat) (msg : RouteMsg) (vrf_id table : Nat)
    (zebra_flags : ZebraFlags) : Option (List RibCall) :=
  let index := msg.tb.RTA_OIF.getD 0
  let dest := msg.tb.RTA_DST.getD (List.replicate 16 0)
  let gate := msg.tb.RTA_GATEWAY
  let src := msg.tb.RTA_PREFSRC
  let metric :=
    if msg.h.nlmsg_type = RTM_NEWROUTE then msg.tb.RTA_PRIORITY.getD 0 else 0
  let mtu :=
    if msg.h.nlmsg_type = RTM_NEWROUTE then
      match msg.tb.RTA_METRICS with
      | some (some mtu) => mtu
      | _ => 0
    else 0
  let calls4 : Option (List RibCall) :=
    if msg.rtm.rtm_family = AF_INET then
      let p : Prefix := ⟨AF_INET, msg.rtm.rtm_dst_len, dest.take 4⟩
      if msg.h.nlmsg_type = RTM_NEWROUTE then
        match msg.tb.RTA_MULTIPATH with
        | none =>
          some [.rib_add AFI_IP SAFI_UNICAST vrf_id ZEBRA_ROUTE_KERNEL 0 ⟨false⟩ p gate src index
            table metric mtu 0]
        | some mp =>
          match rtnh_walk mp src fuel 0 mp.len [] with
          | none => none
          | some nexthops =>
            if nexthops.length = 0 then some []
            else
              some [.rib_add_multipath AFI_IP SAFI_UNICAST p
                ⟨ZEBRA_ROUTE_KERNEL, 0, ⟨false⟩, metric, mtu, vrf_id, table, nexthops⟩]
      else
        some [.rib_delete AFI_IP SAFI_UNICAST vrf_id ZEBRA_ROUTE_KERNEL 0 zebra_flags p gate index
          table]
    else some []
  let calls6 : List RibCall :=
    if msg.rtm.rtm_family = AF_INET6 then
      let p : Prefix := ⟨AF_INET6, msg.rtm.rtm_dst_len, dest.take 16⟩
      if msg.h.nlmsg_type = RTM_NEWROUTE then
        [.rib_add AFI_IP6 SAFI_UNICAST vrf_id ZEBRA_ROUTE_KERNEL 0 ⟨false⟩ p gate src index
          table metric mtu 0]
      else
        [.rib_delete AFI_IP6 SAFI_UNICAST vrf_id ZEBRA_ROUTE_KERNEL 0 zebra_flags p gate index
          table]
    else []
  calls4.map (fun c => c ++ calls6)

/-- The table id of a route message, lines 426-430: RTA_TABLE when present, the
body byte `rtm_table` otherwise. -/
def route_table (msg : RouteMsg) : Nat :=
  match msg.tb.RTA_TABLE with
  | some table => table
  | none => msg.rtm.rtm_table

/-- Embeds `netlink_route_change_read_unicast`, rt_netlink.c lines 379-590: the
calls into the RIB, in order, and the return value; `none` when the walk over
RTA_MULTIPATH does not end within `fuel` iterations. The known VRFs and the
predicates `is_zebra_valid_kernel_table` and `is_zebra_main_routing_table` (zebra,
outside rt_netlink.c) are parameters. -/
def netlink_route_change_read_unicast (vrfs : List (Option ZebraVrf))
    (is_zebra_valid_kernel_table is_zebra_main_routing_table : Nat → Bool)
    (fuel : Nat) (msg : RouteMsg) : Option (List RibCall × Int) :=
  if msg.rtm.rtm_flags &&& RTM_F_CLONED ≠ 0 then some ([], 0)
  else if msg.rtm.rtm_protocol = RTPROT_REDIRECT then some ([], 0)
  else if msg.rtm.rtm_protocol = RTPROT_KERNEL then some ([], 0)
  else if is_selfroute msg.rtm.rtm_protocol ≠ 0 ∧ msg.h.nlmsg_type = RTM_NEWROUTE then
    some ([], 0)
  else
    let zebra_flags : ZebraFlags := ⟨decide (is_selfroute msg.rtm.rtm_protocol ≠ 0)⟩
    if msg.rtm.rtm_src_len ≠ 0 then some ([], 0)
    else
      let table := route_table msg
      let vrf_id := vrf_lookup_by_table vrfs table
      if vrf_id = VRF_DEFAULT ∧
          (!is_zebra_valid_kernel_table table && !is_zebra_main_routing_table table) then
        some ([], 0)
      else
        (route_change_rib_calls fuel msg vrf_id table zebra_flags).map (fun calls => (calls, 0))

/-! ## MPLS label forwarding entries -/

/-- The number of bits of a label (lib/mpls.h; the destination length 20 of an
MPLS route). -/
abbrev MPLS_LABEL_LEN_BITS : Nat := 20

/-- The flags of `nhlfe->flags` that rt_netlink.c tests or changes. -/
structure NhlfeFlags where
  SELECTED : Bool
  INSTALLED : Bool
  deriving DecidableEq, Repr

/-- The fields of `zebra_nhlfe_t` (zebra/zebra_mpls.h) that rt_netlink.c uses;
`nexthop` is `none` for a NULL pointer. -/
structure Nhlfe where
  flags : NhlfeFlags
  nexthop : Option Nexthop
  deriving DecidableEq, Repr

/-- The fields of `zebra_lsp_t` (zebra/zebra_mpls.h) that rt_netlink.c uses:
`ile.in_label` and the list `nhlfe_list`. -/
structure Lsp where
  in_label : Nat
  nhlfe_list : List Nhlfe
  deriving DecidableEq, Repr

/-- Modelled from the spec: the macro NHLFE_FAMILY is declared in
zebra/zebra_mpls.h, which is not among the sources. The family of an NHLFE is
the address family of its nexthop's gateway: AF_INET6 for the nexthop variants
V6Gateway and V6GatewayIfindex, AF_INET for the others. -/
def NHLFE_FAMILY (nexthop : Nexthop) : Nat :=
  if nexthop.type = .IPV6 ∨ nexthop.type = .IPV6_IFINDEX then AF_INET6 else AF_INET

/-- Embeds `_netlink_mpls_build_singlepath`, rt_netlink.c lines 1389-1405. -/
def _netlink_mpls_build_singlepath (nhlfe : Nhlfe) (req : Req) (cmd : Nat) :
    Except Fault Req :=
  match nhlfe.nexthop with
  | none => .error .null_deref
  | some nexthop =>
    let family := NHLFE_FAMILY nexthop
    let bytelen := if family = AF_INET then 4 else 16
    _netlink_route_build_singlepath bytelen nexthop req cmd

/-- Embeds `_netlink_mpls_build_multipath`, rt_netlink.c lines 1408-1424. -/
def _netlink_mpls_build_multipath (nhlfe : Nhlfe) (rtmsg : Rtmsg) (src : Option GAddr) :
    Except Fault (Rtnexthop × Option GAddr) :=
  match nhlfe.nexthop with
  | none => .error .null_deref
  | some nexthop =>
    let family := NHLFE_FAMILY nexthop
    let bytelen := if family = AF_INET then 4 else 16
    _netlink_route_build_multipath bytelen nexthop rtmsg src

/-- The counting loop of `netlink_mpls_multipath`, lines 2020-2040. -/
def mpls_count_nexthops (cmd : Nat) (nhlfe_list : List Nhlfe) : Nat :=
  nhlfe_list.foldl (fun nexthop_num nhlfe =>
    match nhlfe.nexthop with
    | none => nexthop_num
    | some nexthop =>
      if cmd = RTM_NEWROUTE then
        if nhlfe.flags.SELECTED ∧ nexthop.flags.ACTIVE then nexthop_num + 1 else nexthop_num
      else
        if nhlfe.flags.INSTALLED ∧ nexthop.flags.FIB then nexthop_num + 1 else nexthop_num) 0

/-- The test of lines 2078-2083 and 2127-2132. -/
def mpls_nhlfe_chosen (cmd : Nat) (nhlfe : Nhlfe) (nexthop : Nexthop) : Bool :=
  (decide (cmd = RTM_NEWROUTE) && (nhlfe.flags.SELECTED && nexthop.flags.ACTIVE)) ||
  (decide (cmd = RTM_DELROUTE) && (nhlfe.flags.INSTALLED && nexthop.flags.FIB))

/-- The flag update of lines 2088-2097 and 2141-2150 on an NHLFE and its nexthop. -/
def mpls_mark (cmd : Nat) (nhlfe : Nhlfe) (nexthop : Nexthop) : Nhlfe :=
  if cmd = RTM_NEWROUTE then
    { flags := { nhlfe.flags with INSTALLED := true },
      nexthop := some { nexthop with flags := { nexthop.flags with FIB := true } } }
  else
    { flags := { nhlfe.flags with INSTALLED := false },
      nexthop := some { nexthop with flags := { nexthop.flags with FIB := false } } }

/-- The singlepath loop of `netlink_mpls_multipath`, lines 2072-2101: the NHLFE
list after the loop and the request. -/
def mpls_singlepath_loop (cmd : Nat) : List Nhlfe → Req → Except Fault (List Nhlfe × Req)
  | [], req => .ok ([], req)
  | nhlfe :: rest, req =>
    match nhlfe.nexthop with
    | none =>
      match mpls_singlepath_loop cmd rest req with
      | .error e => .error e
      | .ok (l, req) => .ok (nhlfe :: l, req)
    | some nexthop =>
      if mpls_nhlfe_chosen cmd nhlfe nexthop then
        match _netlink_mpls_build_singlepath nhlfe req cmd with
        | .error e => .error e
        | .ok req => .ok (mpls_mark cmd nhlfe nexthop :: rest, req)
      else
        match mpls_singlepath_loop cmd rest req with
        | .error e => .error e
        | .ok (l, req) => .ok (nhlfe :: l, req)

/-- The local state of the multipath loop of `netlink_mpls_multipath`: the
records appended to the RTA_MULTIPATH under construction, `src1` and
`nexthop_num`. -/
structure MplsMultiState where
  rtnh : List Rtnexthop
  src1 : Option GAddr
  nexthop_num : Nat
  deriving DecidableEq, Repr

/-- The multipath loop of `netlink_mpls_multipath`, lines 2118-2153: the NHLFE
list after the loop and the local state. -/
def mpls_multipath_loop (multipath_num cmd : Nat) (rtmsg : Rtmsg) :
    List Nhlfe → MplsMultiState → Except Fault (List Nhlfe × MplsMultiState)
  | [], st => .ok ([], st)
  | nhlfe :: rest, st =>
    match nhlfe.nexthop with
    | none =>
      match mpls_multipath_loop multipath_num cmd rtmsg rest st with
      | .error e => .error e
      | .ok (l, st) => .ok (nhlfe :: l, st)
    | some nexthop =>
      if st.nexthop_num ≥ multipath_num then .ok (nhlfe :: rest, st)
      else if mpls_nhlfe_chosen cmd nhlfe nexthop then
        match _netlink_mpls_build_multipath nhlfe rtmsg st.src1 with
        | .error e => .error e
        | .ok (r, src1) =>
          match mpls_multipath_loop multipath_num cmd rtmsg rest
              ⟨st.rtnh ++ [r], src1, st.nexthop_num + 1⟩ with
          | .error e => .error e
          | .ok (l, st) => .ok (mpls_mark cmd nhlfe nexthop :: l, st)
      else
        match mpls_multipath_loop multipath_num cmd rtmsg rest st with
        | .error e => .error e
        | .ok (l, st) => .ok (nhlfe :: l, st)

/-- What a call of `netlink_mpls_multipath` leaves behind: the LSP with the
updated flags, the request handed to `netlink_talk` (`none` when the function
returns before talking) and the return value. -/
structure MplsOutcome where
  lsp : Lsp
  sent : Option Req
  ret : Int
  deriving DecidableEq, Repr

/-- The header, the body and RTA_DST of the request of `netlink_mpls_multipath`,
lines 2045-2061. -/
def mpls_req_base (cmd : Nat) (lsp : Lsp) : Req :=
  let req : Req :=
    { n := { nlmsg_type := cmd,
             nlmsg_flags :=
               if cmd = RTM_NEWROUTE then (NLM_F_CREATE ||| NLM_F_REQUEST) ||| NLM_F_REPLACE
               else NLM_F_CREATE ||| NLM_F_REQUEST },
      r := { rtm_family := AF_MPLS,
             rtm_dst_len := MPLS_LABEL_LEN_BITS,
             rtm_table := RT_TABLE_MAIN,
             rtm_protocol := RTPROT_ZEBRA,
             rtm_scope := RT_SCOPE_UNIVERSE,
             rtm_type := RTN_UNICAST,
             rtm_flags := 0 },
      attrs := [] }
  addattr req RTA_DST (.leaf (.lse [some (mpls_lse_encode lsp.in_label 0 0 1)]))

/-- Embeds `netlink_mpls_multipath`, rt_netlink.c lines 1996-2163. The global
`multipath_num` and the result of `netlink_talk` on the request are parameters. -/
def netlink_mpls_multipath (multipath_num : Nat) (netlink_talk : Req → Int)
    (cmd : Nat) (lsp : Lsp) : Except Fault MplsOutcome :=
  let nexthop_num := mpls_count_nexthops cmd lsp.nhlfe_list
  if nexthop_num = 0 then .ok ⟨lsp, none, 0⟩
  else
    let req := mpls_req_base cmd lsp
    if nexthop_num = 1 ∨ multipath_num = 1 then
      match mpls_singlepath_loop cmd lsp.nhlfe_list req with
      | .error e => .error e
      | .ok (l, req) => .ok ⟨{ lsp with nhlfe_list := l }, some req, netlink_talk req⟩
    else
      match mpls_multipath_loop multipath_num cmd req.r lsp.nhlfe_list ⟨[], none, 0⟩ with
      | .error e => .error e
      | .ok (l, st) =>
        let req :=
          if st.rtnh ≠ [] then { req with attrs := req.attrs ++ [.multipath st.rtnh] }
          else req
        .ok ⟨{ lsp with nhlfe_list := l }, some req, netlink_talk req⟩

/-- Embeds `clear_nhlfe_installed`, rt_netlink.c lines 2168-2183: the LSP after
the call. -/
def clear_nhlfe_installed (lsp : Lsp) : Lsp :=
  { lsp with nhlfe_list := lsp.nhlfe_list.map (fun nhlfe =>
      match nhlfe.nexthop with
      | none => nhlfe
      | some nexthop =>
        { flags := { nhlfe.flags with INSTALLED := false },
          nexthop := some { nexthop with flags := { nexthop.flags with FIB := false } } }) }

/-! ## Bridge neighbor entries -/

/-- Message types of the neighbor table (`linux/rtnetlink.h`). -/
abbrev RTM_NEWNEIGH : Nat := 28
abbrev RTM_DELNEIGH : Nat := 29
/-- The bridge address family (`sys/socket.h`). -/
abbrev AF_BRIDGE : Nat := 7
/-- Neighbor states (`linux/neighbour.h`). -/
abbrev NUD_REACHABLE : Nat := 0x02
abbrev NUD_PERMANENT : Nat := 0x80
/-- Neighbor flags (`linux/neighbour.h`). -/
abbrev NTF_SELF : Nat := 0x02
abbrev NTF_MASTER : Nat := 0x04
/-- Neighbor attribute types (`linux/neighbour.h`). -/
abbrev NDA_DST : Nat := 1
abbrev NDA_LLADDR : Nat := 2
abbrev NDA_VLAN : Nat := 5
abbrev NDA_MASTER : Nat := 9
/-- The length of a MAC address (`net/ethernet.h`). -/
abbrev ETHER_ADDR_LEN : Nat := 6
/-- The size of `struct ndmsg` (`linux/neighbour.h`): 12 bytes. -/
abbrev sizeof_ndmsg : Nat := 12
/-- The macro `NLMSG_LENGTH (len)` (`linux/netlink.h`): `len` plus the 16 bytes
of the aligned message header. -/
def NLMSG_LENGTH (len : Nat) : Nat := len + 16

/-- The bridge interface `br_if` that a bridge slave points to: its `ifindex`
and the value of `IS_ZEBRA_IF_BRIDGE_VLAN_AWARE (br_if->info)`, a macro of
zebra/interface.h, which is not among the sources. -/
structure BridgeIf where
  ifindex : Nat
  vlan_aware : Bool
  deriving DecidableEq, Repr

/-- The fields of `struct zebra_l2info_brslave` that rt_netlink.c reads; `br_if`
is `none` for a NULL pointer. -/
structure BrSlave where
  bridge_ifindex : Nat
  br_if : Option BridgeIf
  deriving DecidableEq, Repr

/-- What rt_netlink.c reads of `struct zebra_if` (`ifp->info`): the values of
the macros `IS_ZEBRA_IF_BRIDGE_SLAVE (ifp)` and `IS_ZEBRA_IF_VXLAN (ifp)` of
zebra/interface.h, which is not among the sources, and the pointer `l2if` read
as a `struct zebra_l2info_brslave *` (`none` for NULL). -/
structure ZebraIf where
  bridge_slave : Bool
  vxlan : Bool
  l2if : Option BrSlave
  deriving DecidableEq, Repr

/-- The fields of `struct interface` (lib/if.h) that rt_netlink.c reads; `info`
is `none` for a NULL pointer. -/
structure Interface where
  ifindex : Nat
  vrf_id : Nat
  info : Option ZebraIf
  deriving DecidableEq, Repr

/-- The field of `struct zebra_vrf` that `EVPN_ENABLED` (zebra_vxlan.h) reads. -/
structure ZebraVrfEvpn where
  advertise_all_vni : Nat
  deriving DecidableEq, Repr

/-- The macro `EVPN_ENABLED (zvrf)`, zebra_vxlan.h line 36, as a C truth value. -/
def EVPN_ENABLED (zvrf : ZebraVrfEvpn) : Nat := zvrf.advertise_all_vni

/-- The fields of `struct ndmsg` (`linux/neighbour.h`). -/
structure Ndmsg where
  ndm_family : Nat
  ndm_ifindex : Nat
  ndm_state : Nat
  ndm_flags : Nat
  ndm_type : Nat
  deriving DecidableEq, Repr

/-- What `netlink_parse_rtattr` finds in a received neighbor message: the data
of NDA_LLADDR and the 16-bit value of NDA_VLAN. -/
structure NeighTb where
  NDA_LLADDR : Option (List Nat)
  NDA_VLAN : Option Nat
  deriving DecidableEq, Repr

/-- A received neighbor message: the header with its `nlmsg_len`, the body and
the parsed attributes. -/
structure NeighMsg where
  h : Nlmsghdr
  nlmsg_len : Nat
  ndm : Ndmsg
  tb : NeighTb
  deriving DecidableEq, Repr

/-- A call of one of the four MAC handlers of zebra_vxlan.h with its arguments
`(ifp, br_if, mac, vid)`. -/
inductive MacCall where
  | zebra_vxlan_check_del_local_mac (ifp : Interface) (br_if : BridgeIf) (mac : List Nat)
      (vid : Nat)
  | zebra_vxlan_local_mac_add_update (ifp : Interface) (br_if : BridgeIf) (mac : List Nat)
      (vid : Nat)
  | zebra_vxlan_check_readd_remote_mac (ifp : Interface) (br_if : BridgeIf) (mac : List Nat)
      (vid : Nat)
  | zebra_vxlan_local_mac_del (ifp : Interface) (br_if : BridgeIf) (mac : List Nat)
      (vid : Nat)
  deriving DecidableEq, Repr

/-- The value a C `int` takes when it is assigned the integer `n`: the 32-bit
two's complement pattern of `n` read as a signed number. -/
def to_int32 (n : Int) : Int := (n + 2147483648) % 4294967296 - 2147483648

/-- Embeds `netlink_neigh_change`, rt_netlink.c lines 767-888: the handler calls,
in order, and the return value. The interface lookup
`if_lookup_by_index_per_ns`, `vrf_info_lookup`, the static `filter_vlan` and
the return values of the handlers are parameters. The local `len` is a C
`int`: the difference of the 32-bit `nlmsg_len` and `NLMSG_LENGTH (sizeof
(struct ndmsg))` wraps to a negative value below 28 and from 2^31 + 28 on. -/
def netlink_neigh_change (if_lookup_by_index_per_ns : Nat → Option Interface)
    (vrf_info_lookup : Nat → Option ZebraVrfEvpn) (filter_vlan : Nat)
    (handler : MacCall → Int) (msg : NeighMsg) : Except Fault (List MacCall × Int) :=
  if ¬ (msg.h.nlmsg_type = RTM_NEWNEIGH ∨ msg.h.nlmsg_type = RTM_DELNEIGH) then .ok ([], 0)
  else
    let len : Int := to_int32 ((msg.nlmsg_len : Int) - (NLMSG_LENGTH sizeof_ndmsg : Int))
    if len < 0 then .ok ([], -1)
    else if msg.ndm.ndm_family ≠ AF_BRIDGE then .ok ([], 0)
    else
      match if_lookup_by_index_per_ns msg.ndm.ndm_ifindex with
      | none => .ok ([], 0)
      | some ifp =>
        match vrf_info_lookup ifp.vrf_id with
        | none => .ok ([], 0)
        | some zvrf =>
          if EVPN_ENABLED zvrf = 0 then .ok ([], 0)
          else
            match ifp.info with
            | none => .ok ([], 0)
            | some zif =>
              if !zif.bridge_slave then .ok ([], 0)
              else if msg.ndm.ndm_state &&& NUD_PERMANENT ≠ 0 then .ok ([], 0)
              else
                match zif.l2if with
                | none => .error .assert_failed
                | some br_slave =>
                  match br_slave.br_if with
                  | none => .ok ([], 0)
                  | some br_if =>
                    match msg.tb.NDA_LLADDR with
                    | none => .ok ([], 0)
                    | some lladdr =>
                      if lladdr.length ≠ ETHER_ADDR_LEN then .ok ([], 0)
                      else
                        let mac := lladdr.take ETHER_ADDR_LEN
                        let vid := msg.tb.NDA_VLAN.getD 0
                        if filter_vlan ≠ 0 ∧ vid ≠ filter_vlan then .ok ([], 0)
                        else
                          let call : MacCall :=
                            if msg.h.nlmsg_type = RTM_NEWNEIGH then
                              if zif.vxlan then
                                .zebra_vxlan_check_del_local_mac ifp br_if mac vid
                              else .zebra_vxlan_local_mac_add_update ifp br_if mac vid
                            else if zif.vxlan then
                              .zebra_vxlan_check_readd_remote_mac ifp br_if mac vid
                            else .zebra_vxlan_local_mac_del ifp br_if mac vid
                          .ok ([call], handler call)

/-- A neighbor request under construction: header, body and the attributes
appended so far. -/
structure NeighReq where
  n : Nlmsghdr
  ndm : Ndmsg
  attrs : List Rtattr
  deriving DecidableEq, Repr

/-- Embeds `netlink_neigh_update_af_bridge`, rt_netlink.c lines 1567-1626: the
request handed to `netlink_talk` (`none` when the function returns before
talking) and the return value. `mac` are the bytes of the `struct ethaddr`,
`vtep_ip` those of the `struct in_addr`. -/
def netlink_neigh_update_af_bridge (netlink_talk : NeighReq → Int) (ifp : Interface)
    (vid : Nat) (mac : List Nat) (vtep_ip : List Nat) (cmd : Nat) :
    Except Fault (Option NeighReq × Int) :=
  match ifp.info with
  | none => .error .null_deref
  | some zif =>
    match zif.l2if with
    | none => .error .null_deref
    | some br_slave =>
      match br_slave.br_if with
      | none => .ok (none, -1)
      | some br_if =>
        let flags :=
          if cmd = RTM_NEWNEIGH then NLM_F_REQUEST ||| (NLM_F_CREATE ||| NLM_F_REPLACE)
          else NLM_F_REQUEST
        let attrs : List Rtattr :=
          [⟨NDA_LLADDR, .leaf (.bytes (mac.take 6))⟩]
        let dst_alen := 4
        let attrs := attrs ++ [Rtattr.mk NDA_DST (.leaf (.bytes (vtep_ip.take dst_alen)))]
        let attrs :=
          if br_if.vlan_aware ∧ vid > 0 then attrs ++ [Rtattr.mk NDA_VLAN (.leaf (.u16 vid))]
          else attrs
        let attrs := attrs ++ [Rtattr.mk NDA_MASTER (.leaf (.u32 br_if.ifindex))]
        let req : NeighReq :=
          { n := { nlmsg_type := cmd, nlmsg_flags := flags },
            ndm := { ndm_family := AF_BRIDGE, ndm_ifindex := ifp.ifindex,
                     ndm_state := NUD_REACHABLE, ndm_flags := 0 ||| (NTF_SELF ||| NTF_MASTER),
                     ndm_type := 0 },
            attrs := attrs }
        .ok (some req, netlink_talk req)

/-- Embeds `kernel_add_mac`, rt_netlink.c lines 1977-1983. -/
def kernel_add_mac (netlink_talk : NeighReq → Int) (ifp : Interface) (vid : Nat)
    (mac : List Nat) (vtep_ip : List Nat) : Except Fault (Option NeighReq × Int) :=
  netlink_neigh_update_af_bridge netlink_talk ifp vid mac vtep_ip RTM_NEWNEIGH

/-- Embeds `kernel_del_mac`, rt_netlink.c lines 1985-1991. -/
def kernel_del_mac (netlink_talk : NeighReq → Int) (ifp : Interface) (vid : Nat)
    (mac : List Nat) (vtep_ip : List Nat) : Except Fault (Option NeighReq × Int) :=
  netlink_neigh_update_af_bridge netlink_talk ifp vid mac vtep_ip RTM_DELNEIGH

/-! ## Notions used in the statements -/

/-- The attribute types the singlepath builder appends on a route that is not of family MPLS. -/
abbrev singlepath_types : List Nat :=
  [RTA_GATEWAY, RTA_OIF, RTA_PREFSRC, RTA_ENCAP_TYPE, RTA_ENCAP]

/-- The request `req'` is `req` with further attributes appended, all of a type in `ts`;
header and body are the same except for `rtm_flags`. -/
def Extends (ts : List Nat) (req req' : Req) : Prop :=
  req'.n = req.n ∧ req'.r = { req.r with rtm_flags := req'.r.rtm_flags } ∧
  ∃ extra, req'.attrs = req.attrs ++ extra ∧ ∀ a ∈ extra, a.type ∈ ts

/-- The candidates of the counting rule: not RECURSIVE-marked and ACTIVE for
RTM_NEWROUTE, FIB for RTM_DELROUTE. -/
def is_candidate (cmd : Nat) (nh : Nexthop) : Bool :=
  !nh.flags.RECURSIVE &&
    ((cmd == RTM_NEWROUTE && nh.flags.ACTIVE) || (cmd == RTM_DELROUTE && nh.flags.FIB))

/-- The candidate nexthops of a route entry in traversal order. -/
def candidates (cmd : Nat) (rib : Rib) : List Nexthop :=
  (ALL_NEXTHOPS_RO rib.nexthop).filter (is_candidate cmd)

/-- The record `r` is what the multipath builder emits for the nexthop `nh`. -/
def Encodes (bytelen : Nat) (rtmsg : Rtmsg) (nh : Nexthop) (r : Rtnexthop) : Prop :=
  ∃ s s', _netlink_route_build_multipath bytelen nh rtmsg s = .ok (r, s')

/-- No nexthop of the list is a duplicate first hop of one before it. -/
def NoDuplicateFirstHop (nhops : List Nexthop) : Prop :=
  nhops.Pairwise (fun earlier later => are_first_hops_same later earlier = 0)

/-- The request of the multipath branch, lines 1893-1905. -/
def multipath_req (cmd : Nat) (p : Prefix) (rib : Rib) (update : Nat) (st : MultiState) : Req :=
  if st.rtnh ≠ [] then
    { add_setsrc (route_req_base cmd p rib update) cmd p.family (bytelen_of p.family)
        st.setsrc st.src with
      attrs := (add_setsrc (route_req_base cmd p rib update) cmd p.family (bytelen_of p.family)
        st.setsrc st.src).attrs ++ [.multipath st.rtnh] }
  else add_setsrc (route_req_base cmd p rib update) cmd p.family (bytelen_of p.family)
    st.setsrc st.src

/-- A route message passes the filters of lines 408-424: not cloned, not of
protocol REDIRECT or KERNEL, not a self-owned RTM_NEWROUTE, and `rtm_src_len` 0. -/
abbrev passes_filters (msg : RouteMsg) : Prop :=
  msg.rtm.rtm_flags &&& RTM_F_CLONED = 0 ∧ msg.rtm.rtm_protocol ≠ RTPROT_REDIRECT ∧
  msg.rtm.rtm_protocol ≠ RTPROT_KERNEL ∧
  ¬ (is_selfroute msg.rtm.rtm_protocol = 1 ∧ msg.h.nlmsg_type = RTM_NEWROUTE) ∧
  msg.rtm.rtm_src_len = 0

/-- The table id is one the notification path processes: the VRF lookup gives a
non-default VRF, or the table is the main table or an allowed kernel table. -/
def table_processed (vrfs : List (Option ZebraVrf))
    (is_zebra_valid_kernel_table is_zebra_main_routing_table : Nat → Bool) (table : Nat) : Bool :=
  decide (vrf_lookup_by_table vrfs table ≠ VRF_DEFAULT) || is_zebra_main_routing_table table ||
    is_zebra_valid_kernel_table table

/-- A route message is accepted: it passes the filters and its table id is processed. -/
abbrev accepted (vrfs : List (Option ZebraVrf))
    (is_zebra_valid_kernel_table is_zebra_main_routing_table : Nat → Bool) (msg : RouteMsg) : Prop :=
  passes_filters msg ∧
  table_processed vrfs is_zebra_valid_kernel_table is_zebra_main_routing_table
    (route_table msg) = true

/-- The table id is registered to the VRF with id `vrf_id`. -/
def registered (vrfs : List (Option ZebraVrf)) (table vrf_id : Nat) : Prop :=
  ∃ zvrf, some zvrf ∈ vrfs ∧ zvrf.table_id = table ∧ zvrf.vrf_id = vrf_id

/-- The VRF id argument of a call into the RIB. -/
def RibCall.vrf : RibCall → Nat
  | .rib_add _ _ vrf_id _ _ _ _ _ _ _ _ _ _ _ => vrf_id
  | .rib_add_multipath _ _ _ rib => rib.vrf_id
  | .rib_delete _ _ vrf_id _ _ _ _ _ _ _ => vrf_id

/-- The table id argument of a call into the RIB. -/
def RibCall.table : RibCall → Nat
  | .rib_add _ _ _ _ _ _ _ _ _ _ table_id _ _ _ => table_id
  | .rib_add_multipath _ _ _ rib => rib.table
  | .rib_delete _ _ _ _ _ _ _ _ _ table_id => table_id

/-- The destination of a route message: the data of RTA_DST, or `anyaddr`. -/
def route_dest (msg : RouteMsg) : List Nat := msg.tb.RTA_DST.getD (List.replicate 16 0)

/-- The AFI of the RIB for an address family. -/
def afi_of (family : Nat) : Nat := if family = AF_INET then AFI_IP else AFI_IP6

/-- The MTU that a RTM_NEWROUTE message carries in RTA_METRICS, 0 when it has none. -/
def route_mtu (msg : RouteMsg) : Nat :=
  match msg.tb.RTA_METRICS with
  | some (some mtu) => mtu
  | _ => 0

/-- The total length of a sequence of nexthop records, each padded to 4 bytes. -/
def layout_len : List RtnhIn → Nat
  | [] => 0
  | r :: rest => NLMSG_ALIGN r.rtnh_len + layout_len rest

/-- The record found at a byte offset of a payload that holds the given records
one after the other, each padded to 4 bytes; offsets inside a record read as
an empty record. -/
def layout_at : List RtnhIn → Nat → RtnhIn
  | [], _ => ⟨0, 0, none⟩
  | r :: rest, off =>
    if off = 0 then r
    else if off < NLMSG_ALIGN r.rtnh_len then ⟨0, 0, none⟩
    else layout_at rest (off - NLMSG_ALIGN r.rtnh_len)

/-- The RTA_MULTIPATH payload that holds exactly the given records. -/
def multipath_layout (records : List RtnhIn) : MultipathIn :=
  ⟨layout_len records, layout_at records⟩

/-- The minimum of the non-zero values among `a` and `b`, as the claim on
RTA_METRICS words it (0 when both are 0). -/
def min_nonzero (a b : Nat) : Nat :=
  if a = 0 then b else if b = 0 then a else min a b

/-- The label stack of the nexthop of an NHLFE passes the two assertions of
the builders on an MPLS route: it is present and holds exactly one label. An
NHLFE without nexthop is skipped by every loop. -/
def mpls_label_ok (nhlfe : Nhlfe) : Bool :=
  match nhlfe.nexthop with
  | none => true
  | some nexthop => nexthop.nh_label.map List.length == some 1

/-- The attribute types the singlepath builder appends on a route of any family. -/
abbrev mpls_types : List Nat := RTA_NEWDST :: RTA_VIA :: singlepath_types

/-- The traffic class field (bits 11..9) of a label stack entry. -/
def lse_tc (lse : Nat) : Nat := (lse >>> 9) % 8

/-- The TTL field (bits 7..0) of a label stack entry. -/
def lse_ttl (lse : Nat) : Nat := lse % 256

/-- The RTA_PREFSRC attribute that carries the first `bytelen` bytes of a source. -/
def prefsrc_attr (bytelen : Nat) (s : GAddr) : NlAttr :=
  .rta ⟨RTA_PREFSRC, .leaf (.bytes (s.take bytelen))⟩

/-- What a delete may append for the nexthop: no RTA_PREFSRC, and no gateway
attribute unless the nexthop is of type IPV6 or IPV6_IFINDEX. -/
def DeleteAttr (nh : Nexthop) (a : NlAttr) : Prop :=
  a.type ≠ RTA_PREFSRC ∧
  (¬ (nh.type = .IPV6 ∨ nh.type = .IPV6_IFINDEX) → a.type ≠ RTA_GATEWAY ∧ a.type ≠ RTA_VIA)

/-- The handler the claim on `netlink_neigh_change` names for a message type and
a learning interface: `zebra_vxlan_check_del_local_mac` for NEW on a VxLAN
interface, `zebra_vxlan_local_mac_add_update` for NEW on any other interface,
`zebra_vxlan_check_readd_remote_mac` for DEL on a VxLAN interface,
`zebra_vxlan_local_mac_del` for DEL on any other interface. -/
def neigh_handler_call (nlmsg_type : Nat) (vxlan : Bool) (ifp : Interface) (br_if : BridgeIf)
    (mac : List Nat) (vid : Nat) : MacCall :=
  match decide (nlmsg_type = RTM_NEWNEIGH), vxlan with
  | true, true => .zebra_vxlan_check_del_local_mac ifp br_if mac vid
  | true, false => .zebra_vxlan_local_mac_add_update ifp br_if mac vid
  | false, true => .zebra_vxlan_check_readd_remote_mac ifp br_if mac vid
  | false, false => .zebra_vxlan_local_mac_del ifp br_if mac vid

/-- The conditions of the claim on `netlink_neigh_change`, with the interface,
its bridge master and the MAC they determine: the message is RTM_NEWNEIGH or
RTM_DELNEIGH of family BRIDGE, its interface exists, belongs to an
EVPN-enabled VRF and is a bridge slave with a bridge master, the entry is not
PERMANENT, it carries an LLADDR of exactly 6 bytes and its VLAN passes the
VLAN filter. -/
def neigh_handled (if_lookup_by_index_per_ns : Nat → Option Interface)
    (vrf_info_lookup : Nat → Option ZebraVrfEvpn) (filter_vlan : Nat) (msg : NeighMsg)
    (ifp : Interface) (zif : ZebraIf) (br_if : BridgeIf) (mac : List Nat) : Prop :=
  (msg.h.nlmsg_type = RTM_NEWNEIGH ∨ msg.h.nlmsg_type = RTM_DELNEIGH) ∧
  msg.ndm.ndm_family = AF_BRIDGE ∧
  if_lookup_by_index_per_ns msg.ndm.ndm_ifindex = some ifp ∧
  (∃ zvrf, vrf_info_lookup ifp.vrf_id = some zvrf ∧ EVPN_ENABLED zvrf ≠ 0) ∧
  ifp.info = some zif ∧ zif.bridge_slave = true ∧
  (∃ br_slave, zif.l2if = some br_slave ∧ br_slave.br_if = some br_if) ∧
  msg.ndm.ndm_state &&& NUD_PERMANENT = 0 ∧
  msg.tb.NDA_LLADDR = some mac ∧ mac.length = 6 ∧
  (filter_vlan = 0 ∨ msg.tb.NDA_VLAN.getD 0 = filter_vlan)

/-- The NHLFE passes the test of the loops of `netlink_mpls_multipath`: it has a
nexthop and is SELECTED with an ACTIVE nexthop (RTM_NEWROUTE) or INSTALLED with
a FIB nexthop (RTM_DELROUTE). -/
def mpls_chosen (cmd : Nat) (nhlfe : Nhlfe) : Bool :=
  match nhlfe.nexthop with
  | none => false
  | some nexthop => mpls_nhlfe_chosen cmd nhlfe nexthop

/-- The positions of the NHLFE list that a loop with room for `limit` nexthops
encodes: the first `limit` NHLFEs that pass the test. -/
def mpls_encoded_mask (cmd : Nat) : Nat → List Nhlfe → List Bool
  | _, [] => []
  | limit, nhlfe :: rest =>
    if limit ≠ 0 ∧ mpls_chosen cmd nhlfe = true then
      true :: mpls_encoded_mask cmd (limit - 1) rest
    else false :: mpls_encoded_mask cmd limit rest

/-- The NHLFEs at the positions of a mask, in list order. -/
def mpls_encoded : List Bool → List Nhlfe → List Nhlfe
  | true :: mask, nhlfe :: rest => nhlfe :: mpls_encoded mask rest
  | false :: mask, _ :: rest => mpls_encoded mask rest
  | _, _ => []

/-- The NHLFE list with the flag update of `mpls_mark` at the positions of a
mask and every other NHLFE as it was. -/
def mpls_marked (cmd : Nat) : List Bool → List Nhlfe → List Nhlfe
  | true :: mask, nhlfe :: rest =>
    (match nhlfe.nexthop with
     | none => nhlfe
     | some nexthop => mpls_mark cmd nhlfe nexthop) :: mpls_marked cmd mask rest
  | false :: mask, nhlfe :: rest => nhlfe :: mpls_marked cmd mask rest
  | _, l => l

/-- The FIB flag of the nexthop of an NHLFE (false without nexthop). -/
def nhlfe_fib (nhlfe : Nhlfe) : Bool :=
  match nhlfe.nexthop with
  | none => false
  | some nexthop => nexthop.flags.FIB

/-- The request `req` encodes exactly the NHLFEs `enc` on the base request:
one NHLFE in singlepath encoding, or one record per NHLFE, in order, in an
RTA_MULTIPATH attribute (no attribute for no record). -/
def MplsEncodes (cmd : Nat) (base : Req) (enc : List Nhlfe) (req : Req) : Prop :=
  (∃ nhlfe, enc = [nhlfe] ∧ _netlink_mpls_build_singlepath nhlfe base cmd = .ok req) ∨
  (∃ records, List.Forall₂ (fun nhlfe r =>
      ∃ s s', _netlink_mpls_build_multipath nhlfe base.r s = .ok (r, s')) enc records ∧
    req = if records ≠ [] then { base with attrs := base.attrs ++ [.multipath records] }
      else base)

/-- The number of nexthops a call of `netlink_mpls_multipath` has room for: 1 in
singlepath encoding, `multipath_num` otherwise. -/
def mpls_room (multipath_num cmd : Nat) (l : List Nhlfe) : Nat :=
  if mpls_count_nexthops cmd l = 1 ∨ multipath_num = 1 then 1 else multipath_num

/-! ## Example inputs -/

/-- The gateway 192.0.2.1 as a `union g_addr`. -/
def ex_gw1 : GAddr := [192, 0, 2, 1, 0, 0, 0, 0, 0, 0, 0, 0, 0, 0, 0, 0]
/-- The gateway 198.51.100.1 as a `union g_addr`. -/
def ex_gw2 : GAddr := [198, 51, 100, 1, 0, 0, 0, 0, 0, 0, 0, 0, 0, 0, 0, 0]
/-- The all-zero `union g_addr`. -/
def ex_zero : GAddr := [0, 0, 0, 0, 0, 0, 0, 0, 0, 0, 0, 0, 0, 0, 0, 0]
/-- The flags of a resolved nexthop that is not installed: ACTIVE only. -/
def ex_active : NexthopFlags := ⟨true, false, false, false⟩
/-- No flag set. -/
def ex_inactive : NexthopFlags := ⟨false, false, false, false⟩
/-- An active nexthop IPv4 192.0.2.1 on eth0 (ifindex 2). -/
def ex_nh1 : Nexthop := ⟨.IPV4, ex_active, 2, ex_gw1, ex_zero, ex_zero, none⟩
/-- An active nexthop IPv4+ifindex 192.0.2.1 on eth0 (ifindex 2). -/
def ex_nh2 : Nexthop := ⟨.IPV4_IFINDEX, ex_active, 2, ex_gw1, ex_zero, ex_zero, none⟩
/-- An active nexthop IPv4 198.51.100.1 on eth1 (ifindex 3). -/
def ex_nh3 : Nexthop := ⟨.IPV4, ex_active, 3, ex_gw2, ex_zero, ex_zero, none⟩
/-- The prefix 10.0.0.0/8. -/
def ex_p : Prefix := ⟨AF_INET, 8, [10, 0, 0, 0, 0, 0, 0, 0, 0, 0, 0, 0, 0, 0, 0, 0]⟩
/-- A static route entry in the main table with the single nexthop `ex_nh1`. -/
def ex_rib1 : Rib := ⟨ZEBRA_ROUTE_STATIC, ⟨false, false⟩, 254, 0, 0, [⟨ex_nh1, []⟩]⟩
/-- A static route entry in the main table with the three nexthops of the ECMP scenario. -/
def ex_rib3 : Rib :=
  ⟨ZEBRA_ROUTE_STATIC, ⟨false, false⟩, 254, 0, 0, [⟨ex_nh1, []⟩, ⟨ex_nh2, []⟩, ⟨ex_nh3, []⟩]⟩
/-- The entry of `ip route 10.0.0.0/8 192.0.2.1 reject`: REJECT flag, one active
gateway nexthop. -/
def ex_rib_reject : Rib := ⟨ZEBRA_ROUTE_STATIC, ⟨false, true⟩, 254, 0, 0, [⟨ex_nh1, []⟩]⟩
/-- A route entry whose only nexthop is not ACTIVE. -/
def ex_rib_inactive : Rib :=
  ⟨ZEBRA_ROUTE_STATIC, ⟨false, false⟩, 254, 0, 0, [⟨{ ex_nh1 with flags := ex_inactive }, []⟩]⟩
/-- A blackhole entry (BLACKHOLE flag) whose only nexthop, of type BLACKHOLE, is not ACTIVE. -/
def ex_rib_blackhole : Rib :=
  ⟨ZEBRA_ROUTE_STATIC, ⟨true, false⟩, 254, 0, 0,
    [⟨⟨.BLACKHOLE, ex_inactive, 0, ex_zero, ex_zero, ex_zero, none⟩, []⟩]⟩
/-- The entry `ex_rib3` placed in table 1001. -/
def ex_rib_table : Rib := { ex_rib3 with table := 1001 }

/-- A `netlink_talk` that reports success. -/
def ex_talk : Req → Int := fun _ => 0

/-- An IPv6 link-local gateway fe80::1 as a `union g_addr`. -/
def ex_gw6 : GAddr := [254, 128, 0, 0, 0, 0, 0, 0, 0, 0, 0, 0, 0, 0, 0, 1]
/-- An active nexthop IPv6+ifindex fe80::1 on eth0 (ifindex 2), the BGP unnumbered case. -/
def ex_nh6 : Nexthop := ⟨.IPV6_IFINDEX, ex_active, 2, ex_gw6, ex_zero, ex_zero, none⟩
/-- The nexthop `ex_nh1` with the label stack implicit-null, 200. -/
def ex_nh_null_200 : Nexthop := { ex_nh1 with nh_label := some [3, 200] }
/-- The nexthop `ex_nh1` with the label stack 200, implicit-null. -/
def ex_nh_200_null : Nexthop := { ex_nh1 with nh_label := some [200, 3] }
/-- The base request of an RTM_NEWROUTE for 10.0.0.0/8 from `ex_rib1`. -/
def ex_req : Req := route_req_base RTM_NEWROUTE ex_p ex_rib1 0

/-- The default VRF and a VRF with id 5 bound to table 1001. -/
def ex_vrfs : List (Option ZebraVrf) := [some ⟨0, 0⟩, some ⟨5, 1001⟩]
/-- No table is an allowed import table. -/
def ex_valid : Nat → Bool := fun _ => false
/-- The main table is table 254. -/
def ex_main : Nat → Bool := fun table => table == RT_TABLE_MAIN
/-- The attributes of a route 10.0.0.0/8 via 192.0.2.1 on ifindex 2. -/
def ex_tb : RouteTb := ⟨some [10, 0, 0, 0], some 2, some [192, 0, 2, 1], none, none, none, none, none⟩
/-- The body of a unicast route for 10.0.0.0/8 in the main table with protocol STATIC. -/
def ex_rtm : Rtmsg :=
  { rtm_family := AF_INET, rtm_dst_len := 8, rtm_table := 254, rtm_protocol := RTPROT_STATIC,
    rtm_scope := RT_SCOPE_UNIVERSE, rtm_type := RTN_UNICAST, rtm_flags := 0 }
/-- The kernel deletes 10.0.0.0/8 with protocol STATIC. -/
def ex_msg_del : RouteMsg := ⟨⟨RTM_DELROUTE, 0⟩, ex_rtm, ex_tb⟩
/-- The kernel announces 10.0.0.0/8 with protocol STATIC. -/
def ex_msg_new_static : RouteMsg := ⟨⟨RTM_NEWROUTE, 0⟩, ex_rtm, ex_tb⟩
/-- Two nexthop records: gateway 192.0.2.1 on ifindex 2, gateway 198.51.100.1 without ifindex. -/
def ex_records : List RtnhIn := [⟨16, 2, some [192, 0, 2, 1]⟩, ⟨16, 0, some [198, 51, 100, 1]⟩]
/-- An external (protocol BOOT) RTM_NEWROUTE for 10.0.0.0/8 in table 1001 with RTA_MULTIPATH. -/
def ex_msg_multipath : RouteMsg :=
  ⟨⟨RTM_NEWROUTE, 0⟩, { ex_rtm with rtm_protocol := 3, rtm_table := RT_TABLE_UNSPEC },
    ⟨some [10, 0, 0, 0], none, none, some 100, none, none, some (multipath_layout ex_records),
      some 1001⟩⟩
/-- An external RTM_NEWROUTE for 2001:db8::/32 in the main table with an
RTA_MULTIPATH of one record (gateway fe80::1 on ifindex 2). -/
def ex_msg_multipath6 : RouteMsg :=
  ⟨⟨RTM_NEWROUTE, 0⟩,
    { ex_rtm with rtm_family := AF_INET6, rtm_dst_len := 32, rtm_protocol := 3 },
    ⟨some [32, 1, 13, 184, 0, 0, 0, 0, 0, 0, 0, 0, 0, 0, 0, 0], none, none, none, none, none,
      some (multipath_layout [⟨28, 2, some [254, 128, 0, 0, 0, 0, 0, 0, 0, 0, 0, 0, 0, 0, 0, 1]⟩]),
      none⟩⟩

/-- The nexthop 192.0.2.1 with the one out-label 200. -/
def ex_nh_200 : Nexthop := { ex_nh1 with nh_label := some [200] }
/-- Three NHLFEs of an LSP, each SELECTED with an ACTIVE IPv4 gateway nexthop
and one out-label. -/
def ex_nhlfe1 : Nhlfe := ⟨⟨true, false⟩, some ex_nh_200⟩
def ex_nhlfe2 : Nhlfe := ⟨⟨true, false⟩, some { ex_nh3 with nh_label := some [201] }⟩
def ex_nhlfe3 : Nhlfe := ⟨⟨true, false⟩, some { ex_nh2 with nh_label := some [202] }⟩
/-- The LSP of in-label 100 with these three NHLFEs. -/
def ex_lsp3 : Lsp := ⟨100, [ex_nhlfe1, ex_nhlfe2, ex_nhlfe3]⟩
/-- The LSP of the example `add_transit (in=100, out=200, gw=192.0.2.1)`. -/
def ex_lsp_transit : Lsp := ⟨100, [ex_nhlfe1]⟩

/-- A blackhole nexthop. -/
def ex_nh_blackhole : Nexthop := ⟨.BLACKHOLE, ex_active, 0, ex_zero, ex_zero, ex_zero, none⟩
/-- An LSP with an installed NHLFE, an NHLFE without nexthop and a selected one
that is not installed. -/
def ex_lsp_installed : Lsp :=
  ⟨100, [⟨⟨true, true⟩, some { ex_nh_200 with flags := ⟨true, true, false, true⟩ }⟩,
         ⟨⟨false, true⟩, none⟩, ex_nhlfe2]⟩

/-- The source address 192.0.2.9. -/
def ex_src : GAddr := [192, 0, 2, 9, 0, 0, 0, 0, 0, 0, 0, 0, 0, 0, 0, 0]
/-- The source address 192.0.2.10. -/
def ex_src2 : GAddr := [192, 0, 2, 10, 0, 0, 0, 0, 0, 0, 0, 0, 0, 0, 0, 0]
/-- The nexthop 192.0.2.1 on ifindex 2 with source 192.0.2.9. -/
def ex_nh_src : Nexthop := { ex_nh2 with src := ex_src }
/-- A static route with this one nexthop. -/
def ex_rib_src : Rib := ⟨ZEBRA_ROUTE_STATIC, ⟨false, false⟩, 254, 0, 0, [⟨ex_nh_src, []⟩]⟩
/-- A static route whose nexthop 198.51.100.1 has the source 192.0.2.10, is
RECURSIVE-marked and resolves to `ex_nh_src`. -/
def ex_rib_rec_src : Rib :=
  ⟨ZEBRA_ROUTE_STATIC, ⟨false, false⟩, 254, 0, 0,
    [⟨{ ex_nh3 with flags := ⟨true, false, true, false⟩, src := ex_src2 }, [ex_nh_src]⟩]⟩
/-- The prefix 2001:db8::/32. -/
def ex_p6 : Prefix := ⟨AF_INET6, 32, [32, 1, 13, 184, 0, 0, 0, 0, 0, 0, 0, 0, 0, 0, 0, 0]⟩
/-- A static IPv6 route via fe80::1 on ifindex 2, installed (FIB). -/
def ex_rib6_fib : Rib :=
  ⟨ZEBRA_ROUTE_STATIC, ⟨false, false⟩, 254, 0, 0,
    [⟨{ ex_nh6 with flags := ⟨true, true, false, false⟩ }, []⟩]⟩
/-- A received RTA_MULTIPATH payload of 8 bytes whose record declares `rtnh_len` 0. -/
def ex_mp_zero : MultipathIn := ⟨8, fun _ => ⟨0, 0, none⟩⟩
/-- An external RTM_NEWROUTE for 10.0.0.0/8 in the main table with this payload. -/
def ex_msg_zero_len : RouteMsg :=
  ⟨⟨RTM_NEWROUTE, 0⟩, { ex_rtm with rtm_protocol := 3 },
    ⟨some [10, 0, 0, 0], none, none, none, none, none, some ex_mp_zero, none⟩⟩

/-- The bridge with ifindex 10, VLAN-aware. -/
def ex_br : BridgeIf := ⟨10, true⟩
/-- A local bridge-slave interface (ifindex 3) and a VxLAN bridge-slave
interface (ifindex 4), both in VRF 0 under the bridge `ex_br`. -/
def ex_ifp_local : Interface := ⟨3, 0, some ⟨true, false, some ⟨10, some ex_br⟩⟩⟩
def ex_ifp_vxlan : Interface := ⟨4, 0, some ⟨true, true, some ⟨10, some ex_br⟩⟩⟩
/-- A bridge-slave interface whose bridge master is not known. -/
def ex_ifp_orphan : Interface := ⟨5, 0, some ⟨true, false, some ⟨10, none⟩⟩⟩
/-- The interfaces by ifindex. -/
def ex_if_lookup : Nat → Option Interface := fun i =>
  if i = 3 then some ex_ifp_local else if i = 4 then some ex_ifp_vxlan else none
/-- VRF 0 has EVPN enabled. -/
def ex_vrf_info : Nat → Option ZebraVrfEvpn := fun v => if v = 0 then some ⟨1⟩ else none
/-- The MAC 00:11:22:33:44:55. -/
def ex_mac : List Nat := [0x00, 0x11, 0x22, 0x33, 0x44, 0x55]
/-- The kernel forgets this MAC on VLAN 100 of the VxLAN interface. -/
def ex_neigh_del : NeighMsg :=
  ⟨⟨RTM_DELNEIGH, 0⟩, 48, ⟨AF_BRIDGE, 4, NUD_REACHABLE, 0, 0⟩, ⟨some ex_mac, some 100⟩⟩
/-- Every handler returns 0. -/
def ex_handler : MacCall → Int := fun _ => 0
/-- Every request is acknowledged. -/
def ex_neigh_talk : NeighReq → Int := fun _ => 0

/-- The nexthop 198.51.100.1 with the one out-label 201, installed earlier (FIB). -/
def ex_nh_stale : Nexthop :=
  { ex_nh3 with flags := ⟨false, true, false, false⟩, nh_label := some [201] }
/-- An LSP whose first NHLFE is selected and not yet installed and whose second
NHLFE was installed earlier and is no longer selected. -/
def ex_lsp_stale : Lsp := ⟨100, [ex_nhlfe1, ⟨⟨false, true⟩, some ex_nh_stale⟩]⟩

/-- The source address ::1. -/
def ex_rmap6 : GAddr := [0, 0, 0, 0, 0, 0, 0, 0, 0, 0, 0, 0, 0, 0, 0, 1]
/-- The source address 2001:db8::9. -/
def ex_src6 : GAddr := [32, 1, 13, 184, 0, 0, 0, 0, 0, 0, 0, 0, 0, 0, 0, 9]
/-- The nexthop "ifindex 2" (type IFINDEX) with `rmap_src` ::1 and `src` 2001:db8::9. -/
def ex_nh_if6 : Nexthop := ⟨.IFINDEX, ex_active, 2, ex_zero, ex_src6, ex_rmap6, none⟩
/-- A static IPv6 route with this one nexthop. -/
def ex_rib_if6 : Rib := ⟨ZEBRA_ROUTE_STATIC, ⟨false, false⟩, 254, 0, 0, [⟨ex_nh_if6, []⟩]⟩

/-! # Theorems -/

/-! ## Requests that extend a request -/

theorem Extends.refl (ts : List Nat) (req : Req) : Extends ts req req :=
  ⟨rfl, rfl, [], by simp, by simp⟩

theorem Extends.trans {ts : List Nat} {a b c : Req} (h1 : Extends ts a b) (h2 : Extends ts b c) :
    Extends ts a c := by
  obtain ⟨hn1, hr1, e1, he1, ht1⟩ := h1
  obtain ⟨hn2, hr2, e2, he2, ht2⟩ := h2
  refine ⟨hn2.trans hn1, ?_, e1 ++ e2, ?_, ?_⟩
  · rw [hr2, hr1]
  · rw [he2, he1, List.append_assoc]
  · intro x hx
    rcases List.mem_append.1 hx with h | h
    · exact ht1 x h
    · exact ht2 x h

theorem Extends.mono {ts ts' : List Nat} {a b : Req} (h : Extends ts a b)
    (hs : ∀ t ∈ ts, t ∈ ts') : Extends ts' a b := by
  obtain ⟨hn, hr, e, he, ht⟩ := h
  exact ⟨hn, hr, e, he, fun x hx => hs _ (ht x hx)⟩

theorem extends_addattr_l {ts : List Nat} (req : Req) (t : Nat) (d : List Nat) (h : t ∈ ts) :
    Extends ts req (addattr_l req t d) :=
  ⟨rfl, rfl, [.rta ⟨t, .leaf (.bytes d)⟩], rfl, by simpa [NlAttr.type] using h⟩

theorem extends_addattr32 {ts : List Nat} (req : Req) (t : Nat) (d : Nat) (h : t ∈ ts) :
    Extends ts req (addattr32 req t d) :=
  ⟨rfl, rfl, [.rta ⟨t, .leaf (.u32 d)⟩], rfl, by simpa [NlAttr.type] using h⟩

theorem extends_set_rtm_onlink (ts : List Nat) (req : Req) : Extends ts req (set_rtm_onlink req) :=
  ⟨rfl, rfl, [], by simp [set_rtm_onlink], by simp⟩

theorem extends_prefsrc_v4 {ts : List Nat} (req : Req) (bytelen : Nat) (nh : Nexthop)
    (h : RTA_PREFSRC ∈ ts) : Extends ts req (prefsrc_v4 req bytelen nh) := by
  unfold prefsrc_v4
  split_ifs
  · exact extends_addattr_l _ _ _ h
  · exact extends_addattr_l _ _ _ h
  · exact Extends.refl _ _

theorem extends_prefsrc_v6 {ts : List Nat} (req : Req) (bytelen : Nat) (nh : Nexthop)
    (h : RTA_PREFSRC ∈ ts) : Extends ts req (prefsrc_v6 req bytelen nh) := by
  unfold prefsrc_v6
  split_ifs
  · exact extends_addattr_l _ _ _ h
  · exact extends_addattr_l _ _ _ h
  · exact Extends.refl _ _

theorem extends_gateway_info (req : Req) (gw bytelen : Nat) (nh : Nexthop)
    (hf : req.r.rtm_family ≠ AF_MPLS) :
    Extends singlepath_types req
      (_netlink_route_nl_add_gateway_info req.r.rtm_family gw req bytelen nh) := by
  refine ⟨rfl, rfl, [.rta (gateway_info req.r.rtm_family gw bytelen nh)], rfl, ?_⟩
  simp [NlAttr.type, gateway_info, hf]

theorem label_attrs_types (fam : Nat) (l : Option (List Nat)) (hf : fam ≠ AF_MPLS) :
    ∀ a ∈ label_attrs fam l, a.rta_type = RTA_ENCAP_TYPE ∨ a.rta_type = RTA_ENCAP := by
  intro a ha
  unfold label_attrs at ha
  split at ha
  · simp at ha
  · split_ifs at ha <;> simp at ha
    rcases ha with rfl | rfl <;> simp

theorem extends_singlepath_labels (req : Req) (nh : Nexthop) (hf : req.r.rtm_family ≠ AF_MPLS) :
    Extends singlepath_types req (singlepath_labels nh req) := by
  refine ⟨rfl, rfl, (label_attrs req.r.rtm_family nh.nh_label).map NlAttr.rta, rfl, ?_⟩
  intro a ha
  obtain ⟨b, hb, rfl⟩ := List.mem_map.1 ha
  rcases label_attrs_types _ _ hf b hb with h | h <;> simp [NlAttr.type, h]

theorem Extends.family {ts : List Nat} {a b : Req} (h : Extends ts a b) :
    b.r.rtm_family = a.r.rtm_family := by
  rw [h.2.1]

/-! ## The singlepath and multipath builders return -/

theorem extends_singlepath_cross (bytelen : Nat) (nh : Nexthop) (req : Req) (cmd : Nat) :
    Extends singlepath_types req (singlepath_cross bytelen nh req cmd) := by
  have h1 : Extends singlepath_types req
      (addattr32 (addattr_l (set_rtm_onlink req) RTA_GATEWAY ipv4_ll) RTA_OIF nh.ifindex) :=
    ((extends_set_rtm_onlink _ req).trans (extends_addattr_l _ _ _ (by simp))).trans
      (extends_addattr32 _ _ _ (by simp))
  unfold singlepath_cross
  simp only
  split_ifs
  · exact h1.trans (extends_addattr_l _ _ _ (by simp))
  · exact h1.trans (extends_addattr_l _ _ _ (by simp))
  · exact h1

theorem extends_singlepath_onlink (nh : Nexthop) (req : Req) :
    Extends singlepath_types req (singlepath_onlink nh req) := by
  unfold singlepath_onlink
  split_ifs
  · exact extends_set_rtm_onlink _ _
  · exact Extends.refl _ _

theorem extends_singlepath_ipv4 (bytelen : Nat) (nh : Nexthop) (cmd : Nat) (req : Req)
    (hf : req.r.rtm_family ≠ AF_MPLS) :
    Extends singlepath_types req (singlepath_ipv4 bytelen nh cmd req) := by
  unfold singlepath_ipv4
  simp only
  split_ifs <;>
    first
    | exact Extends.refl _ _
    | exact extends_gateway_info req _ _ _ hf
    | exact extends_prefsrc_v4 _ _ _ (by simp)
    | exact (extends_gateway_info req _ _ _ hf).trans (extends_prefsrc_v4 _ _ _ (by simp))

theorem extends_singlepath_ipv6 (bytelen : Nat) (nh : Nexthop) (cmd : Nat) (req : Req)
    (hf : req.r.rtm_family ≠ AF_MPLS) :
    Extends singlepath_types req (singlepath_ipv6 bytelen nh cmd req) := by
  unfold singlepath_ipv6
  simp only
  split_ifs
  · exact (extends_gateway_info req _ _ _ hf).trans (extends_prefsrc_v6 _ _ _ (by simp))
  · exact extends_gateway_info req _ _ _ hf
  · exact Extends.refl _ _

theorem extends_singlepath_oif (bytelen : Nat) (nh : Nexthop) (cmd : Nat) (req : Req) :
    Extends singlepath_types req (singlepath_oif bytelen nh cmd req) := by
  unfold singlepath_oif
  simp only
  split_ifs
  · exact (extends_addattr32 _ _ _ (by simp)).trans (extends_prefsrc_v4 _ _ _ (by simp))
  · exact extends_addattr32 _ _ _ (by simp)
  · exact Extends.refl _ _

theorem extends_singlepath_oif6 (bytelen : Nat) (nh : Nexthop) (cmd : Nat) (req : Req) :
    Extends singlepath_types req (singlepath_oif6 bytelen nh cmd req) := by
  unfold singlepath_oif6
  simp only
  split_ifs
  · exact (extends_addattr32 _ _ _ (by simp)).trans (extends_prefsrc_v6 _ _ _ (by simp))
  · exact extends_addattr32 _ _ _ (by simp)
  · exact Extends.refl _ _

theorem label_assert_ok (fam : Nat) (l : Option (List Nat)) (hf : fam ≠ AF_MPLS) :
    label_assert fam l = .ok () := by
  simp [label_assert, hf]

/-- On a route that is not of family MPLS the singlepath builder returns, and
its result is the request with further nexthop attributes. -/
theorem singlepath_extends (bytelen : Nat) (nh : Nexthop) (req : Req) (cmd : Nat)
    (hf : req.r.rtm_family ≠ AF_MPLS) :
    ∃ req', _netlink_route_build_singlepath bytelen nh req cmd = .ok req' ∧
      Extends singlepath_types req req' := by
  unfold _netlink_route_build_singlepath
  split_ifs
  · exact ⟨_, rfl, extends_singlepath_cross _ _ _ _⟩
  · rw [label_assert_ok _ _ hf]
    refine ⟨_, rfl, ?_⟩
    have e1 := extends_singlepath_labels req nh hf
    have e2 := e1.trans (extends_singlepath_onlink nh _)
    have e3 := e2.trans (extends_singlepath_ipv4 bytelen nh cmd _ (by rw [e2.family]; exact hf))
    have e4 := e3.trans (extends_singlepath_ipv6 bytelen nh cmd _ (by rw [e3.family]; exact hf))
    have e5 := e4.trans (extends_singlepath_oif bytelen nh cmd _)
    exact e5.trans (extends_singlepath_oif6 bytelen nh cmd _)

/-- On a route that is not of family MPLS the multipath builder returns. -/
theorem multipath_build_ok (bytelen : Nat) (nh : Nexthop) (rtmsg : Rtmsg) (src : Option GAddr)
    (hf : rtmsg.rtm_family ≠ AF_MPLS) :
    ∃ r, _netlink_route_build_multipath bytelen nh rtmsg src = .ok r := by
  unfold _netlink_route_build_multipath
  split_ifs
  · exact ⟨_, rfl⟩
  · rw [label_assert_ok _ _ hf]
    exact ⟨_, rfl⟩

/-! ## The counting loop and the singlepath loop -/

theorem count_nexthops_acc (cmd : Nat) (h : cmd = RTM_NEWROUTE ∨ cmd = RTM_DELROUTE)
    (walk : List Nexthop) (n : Nat) :
    walk.foldl (fun nexthop_num nexthop =>
      if nexthop.flags.RECURSIVE then nexthop_num
      else if cmd = RTM_NEWROUTE ∧ !nexthop.flags.ACTIVE then nexthop_num
      else if cmd = RTM_DELROUTE ∧ !nexthop.flags.FIB then nexthop_num
      else nexthop_num + 1) n = n + (walk.filter (is_candidate cmd)).length := by
  induction walk generalizing n with
  | nil => simp
  | cons a l ih =>
    rw [List.foldl_cons, ih, List.filter_cons]
    rcases h with rfl | rfl <;>
      cases hr : a.flags.RECURSIVE <;> cases ha : a.flags.ACTIVE <;> cases hfib : a.flags.FIB <;>
        simp [is_candidate, hr, ha, hfib] <;> omega

theorem count_nexthops_eq (cmd : Nat) (h : cmd = RTM_NEWROUTE ∨ cmd = RTM_DELROUTE)
    (walk : List Nexthop) :
    count_nexthops cmd walk = (walk.filter (is_candidate cmd)).length := by
  unfold count_nexthops
  rw [count_nexthops_acc cmd h walk 0]
  simp

theorem is_candidate_iff (cmd : Nat) (nh : Nexthop) :
    is_candidate cmd nh = true ↔ nh.flags.RECURSIVE = false ∧
      ((cmd = RTM_NEWROUTE ∧ nh.flags.ACTIVE = true) ∨
       (cmd = RTM_DELROUTE ∧ nh.flags.FIB = true)) := by
  simp [is_candidate]

theorem singlepath_loop_none (cmd family bytelen : Nat) (walk : List Nexthop) (st : SingleState)
    (h : walk.filter (is_candidate cmd) = []) :
    ∃ b s, singlepath_loop cmd family bytelen walk st = .ok { st with setsrc := b, src := s } := by
  induction walk generalizing st with
  | nil => exact ⟨st.setsrc, st.src, rfl⟩
  | cons a l ih =>
    rw [List.filter_cons] at h
    by_cases hc : is_candidate cmd a = true
    · simp [hc] at h
    · simp only [hc] at h
      have h' : l.filter (is_candidate cmd) = [] := by simpa using h
      rw [is_candidate_iff] at hc
      unfold singlepath_loop
      by_cases hr : a.flags.RECURSIVE = true
      · simp only [hr, if_true]
        obtain ⟨b, s, hbs⟩ := ih { st with setsrc := (recursive_src family a (st.setsrc, st.src)).1,
                                           src := (recursive_src family a (st.setsrc, st.src)).2 } h'
        exact ⟨b, s, hbs⟩
      · have hr' : a.flags.RECURSIVE = false := by simpa using hr
        have hn : ¬ ((cmd = RTM_NEWROUTE ∧ a.flags.ACTIVE = true) ∨
            (cmd = RTM_DELROUTE ∧ a.flags.FIB = true)) := fun hx => hc ⟨hr', hx⟩
        simp only [hr, if_false, hn]
        exact ih st h'

theorem singlepath_loop_first (cmd family bytelen : Nat) (walk : List Nexthop) (st : SingleState)
    (c : Nexthop) (rest : List Nexthop) (h : walk.filter (is_candidate cmd) = c :: rest)
    (hf : st.req.r.rtm_family ≠ AF_MPLS) :
    ∃ req1 b s, _netlink_route_build_singlepath bytelen c st.req cmd = .ok req1 ∧
      Extends singlepath_types st.req req1 ∧
      singlepath_loop cmd family bytelen walk st = .ok ⟨req1, b, s, st.nexthop_num + 1⟩ := by
  induction walk generalizing st with
  | nil => simp at h
  | cons a l ih =>
    rw [List.filter_cons] at h
    by_cases hc : is_candidate cmd a = true
    · simp only [hc, if_true, List.cons.injEq] at h
      obtain ⟨rfl, -⟩ := h
      rw [is_candidate_iff] at hc
      obtain ⟨req1, hb, he⟩ := singlepath_extends bytelen a st.req cmd hf
      refine ⟨req1, st.setsrc, st.src, hb, he, ?_⟩
      unfold singlepath_loop
      simp only [hc.1, hc.2, if_true, hb]
      simp
    · simp only [hc] at h
      have h' : l.filter (is_candidate cmd) = c :: rest := by simpa using h
      rw [is_candidate_iff] at hc
      unfold singlepath_loop
      by_cases hr : a.flags.RECURSIVE = true
      · simp only [hr, if_true]
        exact ih { st with setsrc := (recursive_src family a (st.setsrc, st.src)).1,
                           src := (recursive_src family a (st.setsrc, st.src)).2 } h' hf
      · have hr' : a.flags.RECURSIVE = false := by simpa using hr
        have hn : ¬ ((cmd = RTM_NEWROUTE ∧ a.flags.ACTIVE = true) ∨
            (cmd = RTM_DELROUTE ∧ a.flags.FIB = true)) := fun hx => hc ⟨hr', hx⟩
        simp only [hr, if_false, hn]
        exact ih st h' hf

/-! ## The multipath loop -/

theorem is_duplicate_first_hop_zero (nh : Nexthop) (nhops : List Nexthop)
    (h : (is_duplicate_first_hop nh nhops).1 = 0) :
    (is_duplicate_first_hop nh nhops).2 = nhops ++ [nh] ∧
      ∀ e ∈ nhops, are_first_hops_same nh e = 0 := by
  unfold is_duplicate_first_hop at h ⊢
  by_cases hany : (nhops.any fun e => are_first_hops_same nh e != 0) = true
  · rw [if_pos hany] at h; simp at h
  · rw [if_neg hany]
    refine ⟨rfl, ?_⟩
    intro e he
    by_contra hne
    exact hany (List.any_eq_true.2 ⟨e, he, by simpa using hne⟩)

theorem is_duplicate_first_hop_nonzero (nh : Nexthop) (nhops : List Nexthop)
    (h : (is_duplicate_first_hop nh nhops).1 ≠ 0) :
    (is_duplicate_first_hop nh nhops).2 = nhops := by
  unfold is_duplicate_first_hop at h ⊢
  by_cases hany : (nhops.any fun e => are_first_hops_same nh e != 0) = true
  · rw [if_pos hany]
  · rw [if_neg hany] at h; simp at h

theorem multipath_loop_break (multipath_num cmd family bytelen : Nat) (rtmsg : Rtmsg)
    (a : Nexthop) (l : List Nexthop) (st : MultiState) (hge : st.nexthop_num ≥ multipath_num) :
    multipath_loop multipath_num cmd family bytelen rtmsg (a :: l) st = .ok st := by
  rw [multipath_loop, if_pos hge]

theorem multipath_loop_recursive (multipath_num cmd family bytelen : Nat) (rtmsg : Rtmsg)
    (a : Nexthop) (l : List Nexthop) (st : MultiState) (hge : ¬ st.nexthop_num ≥ multipath_num)
    (hr : a.flags.RECURSIVE = true) :
    multipath_loop multipath_num cmd family bytelen rtmsg (a :: l) st =
      multipath_loop multipath_num cmd family bytelen rtmsg l
        { st with setsrc := (recursive_src family a (st.setsrc, st.src)).1,
                  src := (recursive_src family a (st.setsrc, st.src)).2 } := by
  rw [multipath_loop, if_neg hge, if_pos hr]

theorem multipath_loop_encode (multipath_num cmd family bytelen : Nat) (rtmsg : Rtmsg)
    (a : Nexthop) (l : List Nexthop) (st : MultiState) (hge : ¬ st.nexthop_num ≥ multipath_num)
    (hr : a.flags.RECURSIVE = false) (r : Rtnexthop) (src1 : Option GAddr)
    (hb : _netlink_route_build_multipath bytelen a rtmsg st.src1 = .ok (r, src1))
    (nhops : List Nexthop)
    (hc : (cmd = RTM_NEWROUTE ∧ a.flags.ACTIVE = true ∧
            (is_duplicate_first_hop a st.nhops).1 = 0 ∧
            nhops = (is_duplicate_first_hop a st.nhops).2) ∨
          (¬ (cmd = RTM_NEWROUTE ∧ a.flags.ACTIVE = true) ∧
            (cmd = RTM_DELROUTE ∧ a.flags.FIB = true) ∧ nhops = st.nhops)) :
    multipath_loop multipath_num cmd family bytelen rtmsg (a :: l) st =
      multipath_loop multipath_num cmd family bytelen rtmsg l
        { rtnh := st.rtnh ++ [r], src1 := src1, nhops := nhops,
          setsrc := (src1_setsrc family src1 (st.setsrc, st.src)).1,
          src := (src1_setsrc family src1 (st.setsrc, st.src)).2,
          nexthop_num := st.nexthop_num + 1 } := by
  rw [multipath_loop, if_neg hge, if_neg (by simp [hr])]
  rcases hc with ⟨h1, h2, h3, h4⟩ | ⟨h1, h2, h4⟩
  · simp only [h1, h2, and_self, if_true, h3, decide_True, true_or, hb, h4]
  · simp only [if_neg h1]
    simp only [h2, and_self, or_true, if_true, hb, h4]

theorem multipath_loop_skip (multipath_num cmd family bytelen : Nat) (rtmsg : Rtmsg)
    (a : Nexthop) (l : List Nexthop) (st : MultiState) (hge : ¬ st.nexthop_num ≥ multipath_num)
    (hr : a.flags.RECURSIVE = false) (nhops : List Nexthop)
    (hdel : ¬ (cmd = RTM_DELROUTE ∧ a.flags.FIB = true))
    (hc : (cmd = RTM_NEWROUTE ∧ a.flags.ACTIVE = true ∧
            (is_duplicate_first_hop a st.nhops).1 ≠ 0 ∧
            nhops = (is_duplicate_first_hop a st.nhops).2) ∨
          (¬ (cmd = RTM_NEWROUTE ∧ a.flags.ACTIVE = true) ∧ nhops = st.nhops)) :
    multipath_loop multipath_num cmd family bytelen rtmsg (a :: l) st =
      multipath_loop multipath_num cmd family bytelen rtmsg l { st with nhops := nhops } := by
  rw [multipath_loop, if_neg hge, if_neg (by simp [hr])]
  rcases hc with ⟨h1, h2, h3, h4⟩ | ⟨h1, h4⟩
  · have hdel' : ¬ (RTM_NEWROUTE = RTM_DELROUTE ∧ a.flags.FIB = true) := by
      rintro ⟨h, -⟩; exact absurd h (by decide)
    subst h1
    simp only [h2, and_self, if_true, h3, decide_False, Bool.false_eq_true, false_or, hdel',
      if_false, h4]
  · simp only [if_neg h1]
    simp only [Bool.false_eq_true, false_or, if_neg hdel, h4]

/-- The multipath loop returns on a route that is not of family MPLS; the
records it appends are the encodings, in order, of a sublist `enc` of the
candidates of the walk, `nexthop_num` counts them, and for RTM_NEWROUTE the
array `nhops` is extended by exactly these nexthops. -/
theorem multipath_loop_spec (multipath_num cmd family bytelen : Nat) (rtmsg : Rtmsg)
    (hf : rtmsg.rtm_family ≠ AF_MPLS) (walk : List Nexthop) (st : MultiState) :
    ∃ st', multipath_loop multipath_num cmd family bytelen rtmsg walk st = .ok st' ∧
      ∃ enc new, enc.Sublist (walk.filter (is_candidate cmd)) ∧
        st'.rtnh = st.rtnh ++ new ∧ List.Forall₂ (Encodes bytelen rtmsg) enc new ∧
        st'.nexthop_num = st.nexthop_num + new.length ∧
        (cmd = RTM_NEWROUTE → st'.nhops = st.nhops ++ enc) ∧
        (NoDuplicateFirstHop st.nhops → NoDuplicateFirstHop st'.nhops) := by
  induction walk generalizing st with
  | nil =>
    exact ⟨st, rfl, [], [], by simp, by simp, List.Forall₂.nil, by simp, by simp, id⟩
  | cons a l ih =>
    by_cases hge : st.nexthop_num ≥ multipath_num
    · rw [multipath_loop_break _ _ _ _ _ _ _ _ hge]
      exact ⟨st, rfl, [], [], by simp, by simp, List.Forall₂.nil, by simp, by simp, id⟩
    by_cases hr : a.flags.RECURSIVE = true
    · rw [multipath_loop_recursive _ _ _ _ _ _ _ _ hge hr]
      obtain ⟨st', h1, enc, new, h2, h3, h4, h5, h6, h7⟩ :=
        ih { st with setsrc := (recursive_src family a (st.setsrc, st.src)).1,
                     src := (recursive_src family a (st.setsrc, st.src)).2 }
      refine ⟨st', h1, enc, new, ?_, h3, h4, h5, h6, h7⟩
      have : is_candidate cmd a = false := by simp [is_candidate, hr]
      rw [List.filter_cons, this]
      simpa using h2
    have hr' : a.flags.RECURSIVE = false := by simpa using hr
    by_cases hnew : cmd = RTM_NEWROUTE ∧ a.flags.ACTIVE = true
    · have hcand : is_candidate cmd a = true := by
        rw [is_candidate_iff]; exact ⟨hr', Or.inl hnew⟩
      have hdel : ¬ (cmd = RTM_DELROUTE ∧ a.flags.FIB = true) := by
        rintro ⟨h, -⟩; rw [hnew.1] at h; exact absurd h (by decide)
      by_cases hd : (is_duplicate_first_hop a st.nhops).1 = 0
      · obtain ⟨hd2, hd3⟩ := is_duplicate_first_hop_zero a st.nhops hd
        obtain ⟨⟨r, src1⟩, hb⟩ := multipath_build_ok bytelen a rtmsg st.src1 hf
        rw [multipath_loop_encode _ _ _ _ _ _ _ _ hge hr' r src1 hb _
          (Or.inl ⟨hnew.1, hnew.2, hd, rfl⟩)]
        obtain ⟨st', h1, enc, new, h2, h3, h4, h5, h6, h7⟩ := ih
          { rtnh := st.rtnh ++ [r], src1 := src1, nhops := (is_duplicate_first_hop a st.nhops).2,
            setsrc := (src1_setsrc family src1 (st.setsrc, st.src)).1,
            src := (src1_setsrc family src1 (st.setsrc, st.src)).2,
            nexthop_num := st.nexthop_num + 1 }
        refine ⟨st', h1, a :: enc, r :: new, ?_, ?_, ?_, ?_, ?_, ?_⟩
        · rw [List.filter_cons, hcand]; simpa using h2
        · rw [h3]; simp
        · exact List.Forall₂.cons ⟨_, _, hb⟩ h4
        · rw [h5]; simp; omega
        · intro hc; rw [h6 hc]; simp only; rw [hd2]; simp
        · intro hp
          apply h7
          show NoDuplicateFirstHop (is_duplicate_first_hop a st.nhops).2
          rw [hd2]
          unfold NoDuplicateFirstHop at hp ⊢
          rw [List.pairwise_append]
          exact ⟨hp, by simp, fun e he b hb' => by
            rw [List.mem_singleton] at hb'; subst hb'; exact hd3 e he⟩
      · have hd2 := is_duplicate_first_hop_nonzero a st.nhops hd
        rw [multipath_loop_skip _ _ _ _ _ _ _ _ hge hr' _ hdel
          (Or.inl ⟨hnew.1, hnew.2, hd, rfl⟩)]
        obtain ⟨st', h1, enc, new, h2, h3, h4, h5, h6, h7⟩ := ih
          { st with nhops := (is_duplicate_first_hop a st.nhops).2 }
        refine ⟨st', h1, enc, new, ?_, h3, h4, h5, ?_, ?_⟩
        · rw [List.filter_cons, hcand]; simp only [if_true]
          exact List.Sublist.cons _ h2
        · intro hc; rw [h6 hc]; simp only; rw [hd2]
        · intro hp; apply h7; show NoDuplicateFirstHop (is_duplicate_first_hop a st.nhops).2
          rw [hd2]; exact hp
    · by_cases hdel : cmd = RTM_DELROUTE ∧ a.flags.FIB = true
      · have hcand : is_candidate cmd a = true := by
          rw [is_candidate_iff]; exact ⟨hr', Or.inr hdel⟩
        obtain ⟨⟨r, src1⟩, hb⟩ := multipath_build_ok bytelen a rtmsg st.src1 hf
        rw [multipath_loop_encode _ _ _ _ _ _ _ _ hge hr' r src1 hb _
          (Or.inr ⟨hnew, hdel, rfl⟩)]
        obtain ⟨st', h1, enc, new, h2, h3, h4, h5, h6, h7⟩ := ih
          { rtnh := st.rtnh ++ [r], src1 := src1, nhops := st.nhops,
            setsrc := (src1_setsrc family src1 (st.setsrc, st.src)).1,
            src := (src1_setsrc family src1 (st.setsrc, st.src)).2,
            nexthop_num := st.nexthop_num + 1 }
        refine ⟨st', h1, a :: enc, r :: new, ?_, ?_, ?_, ?_, ?_, h7⟩
        · rw [List.filter_cons, hcand]; simpa using h2
        · rw [h3]; simp
        · exact List.Forall₂.cons ⟨_, _, hb⟩ h4
        · rw [h5]; simp; omega
        · intro hc; rw [hdel.1] at hc; exact absurd hc (by decide)
      · have hcand : is_candidate cmd a = false := by
          have : ¬ is_candidate cmd a = true := by
            rw [is_candidate_iff]; rintro ⟨-, h | h⟩
            · exact hnew h
            · exact hdel h
          simpa using this
        rw [multipath_loop_skip _ _ _ _ _ _ _ _ hge hr' _ hdel (Or.inr ⟨hnew, rfl⟩)]
        obtain ⟨st', h1, enc, new, h2, h3, h4, h5, h6, h7⟩ := ih { st with nhops := st.nhops }
        refine ⟨st', h1, enc, new, ?_, h3, h4, h5, h6, h7⟩
        rw [List.filter_cons, hcand]; simpa using h2

/-- With an empty array `nhops` and room below `multipath_num`, the multipath
loop encodes at least one nexthop when the walk has a candidate. -/
theorem multipath_loop_nonempty (multipath_num cmd family bytelen : Nat) (rtmsg : Rtmsg)
    (hf : rtmsg.rtm_family ≠ AF_MPLS) (walk : List Nexthop) (st st' : MultiState)
    (hloop : multipath_loop multipath_num cmd family bytelen rtmsg walk st = .ok st')
    (hn : st.nhops = []) (hlt : st.nexthop_num < multipath_num)
    (hc : walk.filter (is_candidate cmd) ≠ []) :
    st.nexthop_num < st'.nexthop_num := by
  induction walk generalizing st with
  | nil => simp at hc
  | cons a l ih =>
    have hge : ¬ st.nexthop_num ≥ multipath_num := by omega
    by_cases hr : a.flags.RECURSIVE = true
    · rw [multipath_loop_recursive _ _ _ _ _ _ _ _ hge hr] at hloop
      have : is_candidate cmd a = false := by simp [is_candidate, hr]
      rw [List.filter_cons, this] at hc
      have := ih { st with setsrc := (recursive_src family a (st.setsrc, st.src)).1,
                           src := (recursive_src family a (st.setsrc, st.src)).2 }
        hloop hn hlt (by simpa using hc)
      exact this
    have hr' : a.flags.RECURSIVE = false := by simpa using hr
    have mono : ∀ s0 : MultiState,
        multipath_loop multipath_num cmd family bytelen rtmsg l s0 = .ok st' →
        s0.nexthop_num ≤ st'.nexthop_num := by
      intro s0 h0
      obtain ⟨st'', h1, enc, new, -, -, -, h5, -, -⟩ :=
        multipath_loop_spec multipath_num cmd family bytelen rtmsg hf l s0
      rw [h1] at h0
      cases h0
      omega
    by_cases hnew : cmd = RTM_NEWROUTE ∧ a.flags.ACTIVE = true
    · have hd : (is_duplicate_first_hop a st.nhops).1 = 0 := by
        rw [hn]; simp [is_duplicate_first_hop]
      obtain ⟨⟨r, src1⟩, hb⟩ := multipath_build_ok bytelen a rtmsg st.src1 hf
      rw [multipath_loop_encode _ _ _ _ _ _ _ _ hge hr' r src1 hb _
        (Or.inl ⟨hnew.1, hnew.2, hd, rfl⟩)] at hloop
      have := mono _ hloop
      simp only at this
      omega
    · by_cases hdel : cmd = RTM_DELROUTE ∧ a.flags.FIB = true
      · obtain ⟨⟨r, src1⟩, hb⟩ := multipath_build_ok bytelen a rtmsg st.src1 hf
        rw [multipath_loop_encode _ _ _ _ _ _ _ _ hge hr' r src1 hb _
          (Or.inr ⟨hnew, hdel, rfl⟩)] at hloop
        have := mono _ hloop
        simp only at this
        omega
      · have hcand : is_candidate cmd a = false := by
          have : ¬ is_candidate cmd a = true := by
            rw [is_candidate_iff]; rintro ⟨-, h | h⟩
            · exact hnew h
            · exact hdel h
          simpa using this
        rw [multipath_loop_skip _ _ _ _ _ _ _ _ hge hr' _ hdel (Or.inr ⟨hnew, rfl⟩)] at hloop
        rw [List.filter_cons, hcand] at hc
        have := ih { st with nhops := st.nhops } hloop hn hlt (by simpa using hc)
        exact this

/-! ## The base request -/

theorem route_req_base_n (cmd : Nat) (p : Prefix) (rib : Rib) (update : Nat) :
    (route_req_base cmd p rib update).n =
      { nlmsg_type := cmd,
        nlmsg_flags :=
          if cmd = RTM_NEWROUTE ∧ update ≠ 0 then
            (NLM_F_CREATE ||| NLM_F_REQUEST) ||| NLM_F_REPLACE
          else NLM_F_CREATE ||| NLM_F_REQUEST } := by
  unfold route_req_base
  simp only [addattr_l, addattr32, addattr]
  split_ifs <;> rfl

theorem route_req_base_r (cmd : Nat) (p : Prefix) (rib : Rib) (update : Nat) :
    (route_req_base cmd p rib update).r =
      { rtm_family := p.family,
        rtm_dst_len := p.prefixlen,
        rtm_table := if rib.table < 256 then rib.table else RT_TABLE_UNSPEC,
        rtm_protocol := get_rt_proto rib.type,
        rtm_scope := RT_SCOPE_UNIVERSE,
        rtm_type :=
          if cmd = RTM_NEWROUTE then
            if (rib.flags.BLACKHOLE || rib.flags.REJECT) = true then
              if rib.flags.BLACKHOLE = true then RTN_BLACKHOLE else RTN_UNREACHABLE
            else RTN_UNICAST
          else 0,
        rtm_flags := 0 } := by
  unfold route_req_base
  simp only [addattr_l, addattr32, addattr]
  split_ifs <;> rfl

theorem route_req_base_attrs (cmd : Nat) (p : Prefix) (rib : Rib) (update : Nat) :
    (route_req_base cmd p rib update).attrs =
      [.rta ⟨RTA_DST, .leaf (.bytes (p.u.take (bytelen_of p.family)))⟩,
       .rta ⟨RTA_PRIORITY, .leaf (.u32 NL_DEFAULT_ROUTE_METRIC)⟩] ++
      (if rib.table < 256 then [] else [.rta ⟨RTA_TABLE, .leaf (.u32 rib.table)⟩]) ++
      (if rib.mtu ≠ 0 ∨ rib.nexthop_mtu ≠ 0 then
        [.rta ⟨RTA_METRICS, .nest [(RTAX_MTU, .u32
          (if rib.mtu = 0 ∨ (rib.nexthop_mtu ≠ 0 ∧ rib.nexthop_mtu < rib.mtu) then rib.nexthop_mtu
           else rib.mtu))]⟩]
       else []) := by
  unfold route_req_base
  simp only [addattr_l, addattr32, addattr]
  split_ifs <;> simp

theorem multipath_loop_none (multipath_num cmd family bytelen : Nat) (rtmsg : Rtmsg)
    (walk : List Nexthop) (st : MultiState) (h : walk.filter (is_candidate cmd) = []) :
    ∃ b s, multipath_loop multipath_num cmd family bytelen rtmsg walk st =
      .ok { st with setsrc := b, src := s } := by
  induction walk generalizing st with
  | nil => exact ⟨st.setsrc, st.src, rfl⟩
  | cons a l ih =>
    by_cases hge : st.nexthop_num ≥ multipath_num
    · rw [multipath_loop_break _ _ _ _ _ _ _ _ hge]
      exact ⟨st.setsrc, st.src, rfl⟩
    rw [List.filter_cons] at h
    by_cases hc : is_candidate cmd a = true
    · simp [hc] at h
    simp only [hc] at h
    have h' : l.filter (is_candidate cmd) = [] := by simpa using h
    by_cases hr : a.flags.RECURSIVE = true
    · rw [multipath_loop_recursive _ _ _ _ _ _ _ _ hge hr]
      obtain ⟨b, s, hbs⟩ := ih { st with setsrc := (recursive_src family a (st.setsrc, st.src)).1,
                                         src := (recursive_src family a (st.setsrc, st.src)).2 } h'
      exact ⟨b, s, hbs⟩
    have hr' : a.flags.RECURSIVE = false := by simpa using hr
    rw [is_candidate_iff] at hc
    have hnew : ¬ (cmd = RTM_NEWROUTE ∧ a.flags.ACTIVE = true) := fun hx => hc ⟨hr', Or.inl hx⟩
    have hdel : ¬ (cmd = RTM_DELROUTE ∧ a.flags.FIB = true) := fun hx => hc ⟨hr', Or.inr hx⟩
    rw [multipath_loop_skip _ _ _ _ _ _ _ _ hge hr' _ hdel (Or.inr ⟨hnew, rfl⟩)]
    obtain ⟨b, s, hbs⟩ := ih { st with nhops := st.nhops } h'
    exact ⟨b, s, hbs⟩

/-! ## The three branches of netlink_route_multipath -/

theorem add_setsrc_cases (req : Req) (cmd family bytelen : Nat) (setsrc : Bool) (src : GAddr) :
    add_setsrc req cmd family bytelen setsrc src = req ∨
      add_setsrc req cmd family bytelen setsrc src = addattr_l req RTA_PREFSRC (src.take bytelen) := by
  unfold add_setsrc
  split_ifs <;> simp

theorem extends_add_setsrc {ts : List Nat} (req : Req) (cmd family bytelen : Nat) (setsrc : Bool)
    (src : GAddr) (h : RTA_PREFSRC ∈ ts) :
    Extends ts req (add_setsrc req cmd family bytelen setsrc src) := by
  rcases add_setsrc_cases req cmd family bytelen setsrc src with h1 | h1 <;> rw [h1]
  · exact Extends.refl _ _
  · exact extends_addattr_l _ _ _ h

theorem netlink_route_multipath_discard (multipath_num : Nat) (netlink_talk : Req → Int)
    (cmd : Nat) (p : Prefix) (rib : Rib) (update : Nat)
    (hd : (rib.flags.BLACKHOLE || rib.flags.REJECT) = true) :
    netlink_route_multipath multipath_num netlink_talk cmd p rib update =
      .ok ⟨route_req_base cmd p rib update, true,
            netlink_talk (route_req_base cmd p rib update)⟩ := by
  unfold netlink_route_multipath
  simp only [hd, if_true]

theorem netlink_route_multipath_single (multipath_num : Nat) (netlink_talk : Req → Int)
    (cmd : Nat) (p : Prefix) (rib : Rib) (update : Nat)
    (hd : (rib.flags.BLACKHOLE || rib.flags.REJECT) = false)
    (hs : count_nexthops cmd (ALL_NEXTHOPS_RO rib.nexthop) = 1 ∨ multipath_num = 1)
    (st : SingleState)
    (hl : singlepath_loop cmd p.family (bytelen_of p.family)
      (ALL_NEXTHOPS_RO rib.nexthop) ⟨route_req_base cmd p rib update, false, [], 0⟩ = .ok st) :
    netlink_route_multipath multipath_num netlink_talk cmd p rib update =
      .ok ⟨add_setsrc st.req cmd p.family (bytelen_of p.family) st.setsrc st.src,
        decide (st.nexthop_num ≠ 0),
        if st.nexthop_num = 0 then 0
        else netlink_talk (add_setsrc st.req cmd p.family (bytelen_of p.family) st.setsrc st.src)⟩ := by
  unfold netlink_route_multipath
  simp only [hd, Bool.false_eq_true, if_false, if_pos hs, hl]
  by_cases hz : st.nexthop_num = 0
  · simp [hz]
  · simp [hz]

theorem netlink_route_multipath_multi (multipath_num : Nat) (netlink_talk : Req → Int)
    (cmd : Nat) (p : Prefix) (rib : Rib) (update : Nat)
    (hd : (rib.flags.BLACKHOLE || rib.flags.REJECT) = false)
    (hs : ¬ (count_nexthops cmd (ALL_NEXTHOPS_RO rib.nexthop) = 1 ∨ multipath_num = 1))
    (st : MultiState)
    (hl : multipath_loop multipath_num cmd p.family (bytelen_of p.family)
      (route_req_base cmd p rib update).r
      (ALL_NEXTHOPS_RO rib.nexthop) ⟨[], none, [], false, [], 0⟩ = .ok st) :
    netlink_route_multipath multipath_num netlink_talk cmd p rib update =
      .ok ⟨multipath_req cmd p rib update st, decide (st.nexthop_num ≠ 0),
        if st.nexthop_num = 0 then 0 else netlink_talk (multipath_req cmd p rib update st)⟩ := by
  unfold netlink_route_multipath
  simp only [hd, Bool.false_eq_true, if_false, if_neg hs, hl]
  by_cases hz : st.nexthop_num = 0
  · simp [hz, multipath_req]
  · simp [hz, multipath_req]

theorem extends_multipath_attr {ts : List Nat} (req : Req) (rtnh : List Rtnexthop)
    (h : RTA_MULTIPATH ∈ ts) :
    Extends ts req (if rtnh ≠ [] then { req with attrs := req.attrs ++ [.multipath rtnh] }
      else req) := by
  split_ifs
  · exact ⟨rfl, rfl, [.multipath rtnh], rfl, by simpa [NlAttr.type] using h⟩
  · exact Extends.refl _ _

theorem singlepath_loop_extends (cmd family bytelen : Nat) (walk : List Nexthop)
    (st : SingleState) (hf : st.req.r.rtm_family ≠ AF_MPLS) :
    ∃ st', singlepath_loop cmd family bytelen walk st = .ok st' ∧
      Extends singlepath_types st.req st'.req := by
  rcases hw : walk.filter (is_candidate cmd) with _ | ⟨c, rest⟩
  · obtain ⟨b, s, h⟩ := singlepath_loop_none cmd family bytelen walk st hw
    exact ⟨_, h, Extends.refl _ _⟩
  · obtain ⟨req1, b, s, -, he, h⟩ := singlepath_loop_first cmd family bytelen walk st c rest hw hf
    exact ⟨_, h, he⟩

/-- For a prefix that is not of family MPLS `netlink_route_multipath` returns,
and the request it leaves is the base request with nexthop attributes appended. -/
theorem netlink_route_multipath_extends (multipath_num : Nat) (netlink_talk : Req → Int)
    (cmd : Nat) (p : Prefix) (rib : Rib) (update : Nat) (hfam : p.family ≠ AF_MPLS) :
    ∃ out, netlink_route_multipath multipath_num netlink_talk cmd p rib update = .ok out ∧
      Extends (RTA_MULTIPATH :: singlepath_types) (route_req_base cmd p rib update) out.req := by
  have hbf : (route_req_base cmd p rib update).r.rtm_family ≠ AF_MPLS := by
    rw [route_req_base_r]; exact hfam
  by_cases hd : (rib.flags.BLACKHOLE || rib.flags.REJECT) = true
  · exact ⟨_, netlink_route_multipath_discard _ _ _ _ _ _ hd, Extends.refl _ _⟩
  have hd' : (rib.flags.BLACKHOLE || rib.flags.REJECT) = false := by simpa using hd
  by_cases hs : count_nexthops cmd (ALL_NEXTHOPS_RO rib.nexthop) = 1 ∨ multipath_num = 1
  · obtain ⟨st, hl, he⟩ := singlepath_loop_extends cmd p.family (bytelen_of p.family)
      (ALL_NEXTHOPS_RO rib.nexthop) ⟨route_req_base cmd p rib update, false, [], 0⟩ hbf
    refine ⟨_, netlink_route_multipath_single _ _ _ _ _ _ hd' hs st hl, ?_⟩
    exact (he.mono (by intro t ht; exact List.mem_cons_of_mem _ ht)).trans
        (extends_add_setsrc _ _ _ _ _ _ (by simp))
  · obtain ⟨st, hl, -⟩ := multipath_loop_spec multipath_num cmd p.family
      (bytelen_of p.family) (route_req_base cmd p rib update).r hbf
      (ALL_NEXTHOPS_RO rib.nexthop) ⟨[], none, [], false, [], 0⟩
    refine ⟨_, netlink_route_multipath_multi _ _ _ _ _ _ hd' hs st hl, ?_⟩
    exact (extends_add_setsrc _ _ _ _ _ _ (by simp)).trans (extends_multipath_attr _ _ (by simp))


theorem route_req_base_attr_types (cmd : Nat) (p : Prefix) (rib : Rib) (update : Nat) :
    ∀ a ∈ (route_req_base cmd p rib update).attrs,
      ∃ x, a = .rta x ∧ x.rta_type ∈ [RTA_DST, RTA_PRIORITY, RTA_TABLE, RTA_METRICS] := by
  intro a ha
  rw [route_req_base_attrs] at ha
  simp only [List.mem_append, List.mem_cons, List.mem_singleton, List.not_mem_nil, or_false] at ha
  rcases ha with ((rfl | rfl) | ha) | ha
  · exact ⟨_, rfl, by simp⟩
  · exact ⟨_, rfl, by simp⟩
  · split_ifs at ha
    · simp at ha
    · rw [List.mem_singleton] at ha; subst ha; exact ⟨_, rfl, by simp⟩
  · by_cases hm : rib.mtu ≠ 0 ∨ rib.nexthop_mtu ≠ 0
    · rw [if_pos hm, List.mem_singleton] at ha; subst ha; exact ⟨_, rfl, by simp⟩
    · rw [if_neg hm] at ha; simp at ha

theorem no_multipath_of_extends {ts : List Nat} (cmd : Nat) (p : Prefix) (rib : Rib)
    (update : Nat) (req : Req) (he : Extends ts (route_req_base cmd p rib update) req)
    (hts : RTA_MULTIPATH ∉ ts) : ∀ a ∈ req.attrs, a.type ≠ RTA_MULTIPATH := by
  obtain ⟨-, -, extra, hattrs, htypes⟩ := he
  intro a ha
  rw [hattrs, List.mem_append] at ha
  rcases ha with ha | ha
  · obtain ⟨x, rfl, hx⟩ := route_req_base_attr_types cmd p rib update a ha
    simp only [List.mem_cons, List.mem_singleton, List.not_mem_nil, or_false] at hx
    rcases hx with h | h | h | h <;> simp [NlAttr.type, h]
  · intro h
    exact hts (h ▸ htypes a ha)

theorem netlink_route_multipath_single_first (multipath_num : Nat) (netlink_talk : Req → Int)
    (cmd : Nat) (p : Prefix) (rib : Rib) (update : Nat) (hfam : p.family ≠ AF_MPLS)
    (hd : (rib.flags.BLACKHOLE || rib.flags.REJECT) = false)
    (hs : count_nexthops cmd (ALL_NEXTHOPS_RO rib.nexthop) = 1 ∨ multipath_num = 1)
    (c : Nexthop) (rest : List Nexthop) (hc : candidates cmd rib = c :: rest) :
    ∃ out req1, netlink_route_multipath multipath_num netlink_talk cmd p rib update = .ok out ∧
      out.talk = true ∧
      _netlink_route_build_singlepath (bytelen_of p.family) c
        (route_req_base cmd p rib update) cmd = .ok req1 ∧
      (out.req = req1 ∨ ∃ s, out.req = addattr_l req1 RTA_PREFSRC s) ∧
      ∀ a ∈ out.req.attrs, a.type ≠ RTA_MULTIPATH := by
  have hbf : (route_req_base cmd p rib update).r.rtm_family ≠ AF_MPLS := by
    rw [route_req_base_r]; exact hfam
  obtain ⟨req1, b, s, hb, he, hl⟩ := singlepath_loop_first cmd p.family (bytelen_of p.family)
    (ALL_NEXTHOPS_RO rib.nexthop) ⟨route_req_base cmd p rib update, false, [], 0⟩ c rest hc hbf
  refine ⟨_, req1, netlink_route_multipath_single _ _ _ _ _ _ hd hs _ hl, by simp, hb, ?_, ?_⟩
  · rcases add_setsrc_cases req1 cmd p.family (bytelen_of p.family) b s with h | h
    · exact Or.inl h
    · exact Or.inr ⟨_, h⟩
  · exact no_multipath_of_extends cmd p rib update _
      (he.trans (extends_add_setsrc _ _ _ _ _ _ (by simp))) (by decide)

theorem netlink_route_multipath_multi_records (multipath_num : Nat) (netlink_talk : Req → Int)
    (cmd : Nat) (p : Prefix) (rib : Rib) (update : Nat) (hfam : p.family ≠ AF_MPLS)
    (hd : (rib.flags.BLACKHOLE || rib.flags.REJECT) = false)
    (hs : ¬ (count_nexthops cmd (ALL_NEXTHOPS_RO rib.nexthop) = 1 ∨ multipath_num = 1))
    (hcand : candidates cmd rib ≠ []) (hmp : multipath_num ≠ 0) :
    ∃ out records enc,
      netlink_route_multipath multipath_num netlink_talk cmd p rib update = .ok out ∧
      out.talk = true ∧ records ≠ [] ∧
      (out.req = { route_req_base cmd p rib update with
          attrs := (route_req_base cmd p rib update).attrs ++ [.multipath records] } ∨
       ∃ s, out.req = { route_req_base cmd p rib update with
          attrs := (route_req_base cmd p rib update).attrs ++
            [.rta ⟨RTA_PREFSRC, .leaf (.bytes s)⟩, .multipath records] }) ∧
      enc.Sublist (candidates cmd rib) ∧
      List.Forall₂ (Encodes (bytelen_of p.family) (route_req_base cmd p rib update).r)
        enc records := by
  have hbf : (route_req_base cmd p rib update).r.rtm_family ≠ AF_MPLS := by
    rw [route_req_base_r]; exact hfam
  obtain ⟨st, hl, enc, new, h2, h3, h4, h5, -, -⟩ := multipath_loop_spec multipath_num cmd
    p.family (bytelen_of p.family) (route_req_base cmd p rib update).r hbf
    (ALL_NEXTHOPS_RO rib.nexthop) ⟨[], none, [], false, [], 0⟩
  have hpos := multipath_loop_nonempty multipath_num cmd p.family (bytelen_of p.family)
    (route_req_base cmd p rib update).r hbf (ALL_NEXTHOPS_RO rib.nexthop) _ st hl rfl
    (by show 0 < multipath_num; omega) hcand
  simp only [List.nil_append] at h3
  simp only [Nat.zero_add] at h5 hpos
  have hne : new ≠ [] := by
    intro h; rw [h] at h5; simp at h5; omega
  have hrt : st.rtnh ≠ [] := by rw [h3]; exact hne
  refine ⟨_, new, enc, netlink_route_multipath_multi _ _ _ _ _ _ hd hs st hl, ?_, hne, ?_, h2, h4⟩
  · simp; omega
  · show multipath_req cmd p rib update st = _ ∨ _
    unfold multipath_req
    rw [if_pos hrt, h3]
    rcases add_setsrc_cases (route_req_base cmd p rib update) cmd p.family
      (bytelen_of p.family) st.setsrc st.src with h | h
    · left; rw [h]
    · right
      refine ⟨List.take (bytelen_of p.family) st.src, ?_⟩
      rw [h]; simp [addattr_l]

/-! ## The label loop -/

theorem label_loop_all_null (label : List Nat) (n : Nat) (st : List (Option Nat) × Nat)
    (h : ∀ i, i < n → label.getD i 0 = MPLS_IMP_NULL_LABEL) :
    (List.range n).foldl (label_loop_body label) st = st := by
  induction n with
  | zero => rfl
  | succ k ih =>
    rw [List.range_succ, List.foldl_append, ih (fun i hi => h i (by omega))]
    show label_loop_body label st k = st
    unfold label_loop_body
    rw [if_neg (not_not.2 (h k (by omega)))]

/-! ## C1 -/

/-- C1: `kernel_route_rib (p, old, new)` on a prefix of a RIB family: with only
`new` it is the call `netlink_route_multipath (RTM_NEWROUTE, p, new, 0)` and the
request built has type RTM_NEWROUTE and header flags CREATE|REQUEST, REPLACE
not among them; with only `old` it is the call with RTM_DELROUTE on `old` and
the request has type RTM_DELROUTE; with both it is the call with RTM_NEWROUTE
on `new` and `update = 1`, and the header flags are CREATE|REQUEST|REPLACE. -/
theorem kernel_route_rib_actions (multipath_num : Nat) (netlink_talk : Req → Int) (p : Prefix)
    (old new : Rib) (hfam : p.family ≠ AF_MPLS) :
    (kernel_route_rib multipath_num netlink_talk p none (some new) =
        netlink_route_multipath multipath_num netlink_talk RTM_NEWROUTE p new 0 ∧
      ∃ out, kernel_route_rib multipath_num netlink_talk p none (some new) = .ok out ∧
        out.req.n.nlmsg_type = RTM_NEWROUTE ∧
        out.req.n.nlmsg_flags = NLM_F_CREATE ||| NLM_F_REQUEST ∧
        out.req.n.nlmsg_flags &&& NLM_F_REPLACE = 0) ∧
    (kernel_route_rib multipath_num netlink_talk p (some old) none =
        netlink_route_multipath multipath_num netlink_talk RTM_DELROUTE p old 0 ∧
      ∃ out, kernel_route_rib multipath_num netlink_talk p (some old) none = .ok out ∧
        out.req.n.nlmsg_type = RTM_DELROUTE) ∧
    (kernel_route_rib multipath_num netlink_talk p (some old) (some new) =
        netlink_route_multipath multipath_num netlink_talk RTM_NEWROUTE p new 1 ∧
      ∃ out, kernel_route_rib multipath_num netlink_talk p (some old) (some new) = .ok out ∧
        out.req.n.nlmsg_type = RTM_NEWROUTE ∧
        out.req.n.nlmsg_flags = NLM_F_CREATE ||| NLM_F_REQUEST ||| NLM_F_REPLACE) := by
  refine ⟨⟨rfl, ?_⟩, ⟨rfl, ?_⟩, ⟨rfl, ?_⟩⟩
  · obtain ⟨out, h, he⟩ :=
      netlink_route_multipath_extends multipath_num netlink_talk RTM_NEWROUTE p new 0 hfam
    refine ⟨out, h, ?_⟩
    rw [he.1, route_req_base_n]
    simp
    decide
  · obtain ⟨out, h, he⟩ :=
      netlink_route_multipath_extends multipath_num netlink_talk RTM_DELROUTE p old 0 hfam
    refine ⟨out, h, ?_⟩
    rw [he.1, route_req_base_n]
  · obtain ⟨out, h, he⟩ :=
      netlink_route_multipath_extends multipath_num netlink_talk RTM_NEWROUTE p new 1 hfam
    refine ⟨out, h, ?_⟩
    rw [he.1, route_req_base_n]
    simp

theorem kernel_route_rib_actions_witness :
    ex_p.family ≠ AF_MPLS ∧
    (∃ out, kernel_route_rib 64 ex_talk ex_p none (some ex_rib3) = .ok out ∧
        out.req.n.nlmsg_type = RTM_NEWROUTE ∧
        out.req.n.nlmsg_flags = NLM_F_CREATE ||| NLM_F_REQUEST ∧
        out.req.n.nlmsg_flags &&& NLM_F_REPLACE = 0) ∧
    (∃ out, kernel_route_rib 64 ex_talk ex_p (some ex_rib1) none = .ok out ∧
        out.req.n.nlmsg_type = RTM_DELROUTE) ∧
    (∃ out, kernel_route_rib 64 ex_talk ex_p (some ex_rib1) (some ex_rib3) = .ok out ∧
        out.req.n.nlmsg_type = RTM_NEWROUTE ∧
        out.req.n.nlmsg_flags = NLM_F_CREATE ||| NLM_F_REQUEST ||| NLM_F_REPLACE) :=
  have h := kernel_route_rib_actions 64 ex_talk ex_p ex_rib1 ex_rib3 (by decide)
  ⟨by decide, h.1.2, h.2.1.2, h.2.2.2⟩

/-! ## C2 -/

/-- C2, as amended: for RTM_NEWROUTE and RTM_DELROUTE, a prefix of a RIB family,
a route entry with neither the BLACKHOLE nor the REJECT flag and with at least
one candidate, and `multipath_num >= 1`: the request is handed to
`netlink_talk`; if the candidate count is 1 or `multipath_num` is 1 it has no
RTA_MULTIPATH attribute and is the base request followed by the singlepath
encoding of the first candidate in traversal order (and possibly one
RTA_PREFSRC taken from a RECURSIVE-marked nexthop); otherwise it is the base
request followed by at most one RTA_PREFSRC and one RTA_MULTIPATH attribute
whose records are the multipath encodings, in traversal order, of candidates. -/
theorem singlepath_or_multipath_encoding (multipath_num : Nat) (netlink_talk : Req → Int)
    (cmd : Nat) (p : Prefix) (rib : Rib) (update : Nat)
    (hcmd : cmd = RTM_NEWROUTE ∨ cmd = RTM_DELROUTE) (hfam : p.family ≠ AF_MPLS)
    (hdiscard : rib.flags.BLACKHOLE = false ∧ rib.flags.REJECT = false)
    (hcand : candidates cmd rib ≠ []) (hmp : multipath_num ≠ 0) :
    ∃ out, netlink_route_multipath multipath_num netlink_talk cmd p rib update = .ok out ∧
      out.talk = true ∧
      (((candidates cmd rib).length = 1 ∨ multipath_num = 1) →
        (∀ a ∈ out.req.attrs, a.type ≠ RTA_MULTIPATH) ∧
        ∃ c req1, (candidates cmd rib).head? = some c ∧
          _netlink_route_build_singlepath (bytelen_of p.family) c
            (route_req_base cmd p rib update) cmd = .ok req1 ∧
          (out.req = req1 ∨ ∃ s, out.req = addattr_l req1 RTA_PREFSRC s)) ∧
      (¬ ((candidates cmd rib).length = 1 ∨ multipath_num = 1) →
        ∃ records enc, records ≠ [] ∧
          (out.req = { route_req_base cmd p rib update with
              attrs := (route_req_base cmd p rib update).attrs ++ [.multipath records] } ∨
           ∃ s, out.req = { route_req_base cmd p rib update with
              attrs := (route_req_base cmd p rib update).attrs ++
                [.rta ⟨RTA_PREFSRC, .leaf (.bytes s)⟩, .multipath records] }) ∧
          enc.Sublist (candidates cmd rib) ∧
          List.Forall₂ (Encodes (bytelen_of p.family) (route_req_base cmd p rib update).r)
            enc records) := by
  have hd : (rib.flags.BLACKHOLE || rib.flags.REJECT) = false := by
    rw [hdiscard.1, hdiscard.2]; rfl
  have hcount : count_nexthops cmd (ALL_NEXTHOPS_RO rib.nexthop) = (candidates cmd rib).length :=
    count_nexthops_eq cmd hcmd _
  by_cases hs : (candidates cmd rib).length = 1 ∨ multipath_num = 1
  · obtain ⟨c, rest, hc⟩ := List.exists_cons_of_ne_nil hcand
    obtain ⟨out, req1, h1, h2, h3, h4, h5⟩ := netlink_route_multipath_single_first multipath_num
      netlink_talk cmd p rib update hfam hd (by rw [hcount]; exact hs) c rest hc
    exact ⟨out, h1, h2, fun _ => ⟨h5, c, req1, by rw [hc]; rfl, h3, h4⟩, fun h => absurd hs h⟩
  · obtain ⟨out, records, enc, h1, h2, h3, h4, h5, h6⟩ := netlink_route_multipath_multi_records
      multipath_num netlink_talk cmd p rib update hfam hd (by rw [hcount]; exact hs) hcand hmp
    exact ⟨out, h1, h2, fun h => absurd h hs, fun _ => ⟨records, enc, h3, h4, h5, h6⟩⟩

theorem singlepath_or_multipath_encoding_witness :
    (RTM_NEWROUTE = RTM_NEWROUTE ∨ RTM_NEWROUTE = RTM_DELROUTE) ∧ ex_p.family ≠ AF_MPLS ∧
    (ex_rib1.flags.BLACKHOLE = false ∧ ex_rib1.flags.REJECT = false) ∧
    candidates RTM_NEWROUTE ex_rib1 ≠ [] ∧
    (ex_rib3.flags.BLACKHOLE = false ∧ ex_rib3.flags.REJECT = false) ∧
    candidates RTM_NEWROUTE ex_rib3 ≠ [] ∧ (64 : Nat) ≠ 0 ∧
    (∃ out, netlink_route_multipath 64 ex_talk RTM_NEWROUTE ex_p ex_rib1 0 = .ok out ∧
      out.talk = true ∧ (∀ a ∈ out.req.attrs, a.type ≠ RTA_MULTIPATH) ∧
      ∃ c req1, (candidates RTM_NEWROUTE ex_rib1).head? = some c ∧
        _netlink_route_build_singlepath (bytelen_of ex_p.family) c
          (route_req_base RTM_NEWROUTE ex_p ex_rib1 0) RTM_NEWROUTE = .ok req1 ∧
        (out.req = req1 ∨ ∃ s, out.req = addattr_l req1 RTA_PREFSRC s)) ∧
    (∃ out, netlink_route_multipath 64 ex_talk RTM_NEWROUTE ex_p ex_rib3 0 = .ok out ∧
      out.talk = true ∧
      ∃ records enc, records ≠ [] ∧
        (out.req = { route_req_base RTM_NEWROUTE ex_p ex_rib3 0 with
            attrs := (route_req_base RTM_NEWROUTE ex_p ex_rib3 0).attrs ++
              [.multipath records] } ∨
         ∃ s, out.req = { route_req_base RTM_NEWROUTE ex_p ex_rib3 0 with
            attrs := (route_req_base RTM_NEWROUTE ex_p ex_rib3 0).attrs ++
              [.rta ⟨RTA_PREFSRC, .leaf (.bytes s)⟩, .multipath records] }) ∧
        enc.Sublist (candidates RTM_NEWROUTE ex_rib3) ∧
        List.Forall₂ (Encodes (bytelen_of ex_p.family)
          (route_req_base RTM_NEWROUTE ex_p ex_rib3 0).r) enc records) :=
  ⟨by decide, by decide, by decide, by decide, by decide, by decide, by decide,
    (singlepath_or_multipath_encoding 64 ex_talk RTM_NEWROUTE ex_p ex_rib1 0
      (by decide) (by decide) (by decide) (by decide) (by decide)).imp
      (fun _ h => ⟨h.1, h.2.1, h.2.2.1 (by decide)⟩),
    (singlepath_or_multipath_encoding 64 ex_talk RTM_NEWROUTE ex_p ex_rib3 0
      (by decide) (by decide) (by decide) (by decide) (by decide)).imp
      (fun _ h => ⟨h.1, h.2.1, h.2.2.2 (by decide)⟩)⟩

/-- C2, counterexample to the claim as stated. The entry of
`ip route 10.0.0.0/8 192.0.2.1 reject` has exactly one candidate, the gateway
nexthop `ex_nh1`, but the request handed to `netlink_talk` is the base request
alone: it is not the singlepath encoding of that nexthop (which would append
RTA_GATEWAY) and holds no gateway attribute. And with `multipath_num = 1` an
entry without candidates yields a request that encodes no nexthop at all. -/
theorem discard_route_carries_no_nexthop :
    ((candidates RTM_NEWROUTE ex_rib_reject).length = 1 ∧
      (candidates RTM_NEWROUTE ex_rib_reject).head? = some ex_nh1 ∧
      netlink_route_multipath 64 ex_talk RTM_NEWROUTE ex_p ex_rib_reject 0 =
        .ok ⟨route_req_base RTM_NEWROUTE ex_p ex_rib_reject 0, true, 0⟩ ∧
      _netlink_route_build_singlepath (bytelen_of ex_p.family) ex_nh1
          (route_req_base RTM_NEWROUTE ex_p ex_rib_reject 0) RTM_NEWROUTE =
        .ok (addattr_l (route_req_base RTM_NEWROUTE ex_p ex_rib_reject 0)
          RTA_GATEWAY [192, 0, 2, 1]) ∧
      (∀ a ∈ (route_req_base RTM_NEWROUTE ex_p ex_rib_reject 0).attrs,
        a.type ≠ RTA_GATEWAY ∧ a.type ≠ RTA_OIF ∧ a.type ≠ RTA_MULTIPATH)) ∧
    (candidates RTM_NEWROUTE ex_rib_inactive = [] ∧
      netlink_route_multipath 1 ex_talk RTM_NEWROUTE ex_p ex_rib_inactive 0 =
        .ok ⟨route_req_base RTM_NEWROUTE ex_p ex_rib_inactive 0, false, 0⟩) :=
  ⟨⟨by decide, by decide, by rfl, by rfl, by decide⟩, by decide, by rfl⟩

/-! ## C3 -/

/-- C3: for RTM_NEWROUTE on a prefix of a RIB family, the multipath loop returns
a state `st` whose records `st.rtnh` are the encodings, in order, of the
nexthops in its array `st.nhops`, no nexthop of that array is a duplicate first
hop (per `are_first_hops_same`) of one encoded before it, and every
RTA_MULTIPATH attribute of the request holds exactly these records. For the
three active nexthops of the ECMP scenario the request holds an RTA_MULTIPATH
of two records, those of the first and of the third nexthop; the second is a
duplicate first hop of the first. -/
theorem multipath_no_duplicate_first_hop (multipath_num : Nat) (netlink_talk : Req → Int)
    (p : Prefix) (rib : Rib) (update : Nat) (hfam : p.family ≠ AF_MPLS) :
    (∃ st out,
      multipath_loop multipath_num RTM_NEWROUTE p.family (bytelen_of p.family)
        (route_req_base RTM_NEWROUTE p rib update).r (ALL_NEXTHOPS_RO rib.nexthop)
        ⟨[], none, [], false, [], 0⟩ = .ok st ∧
      List.Forall₂ (Encodes (bytelen_of p.family) (route_req_base RTM_NEWROUTE p rib update).r)
        st.nhops st.rtnh ∧
      NoDuplicateFirstHop st.nhops ∧
      netlink_route_multipath multipath_num netlink_talk RTM_NEWROUTE p rib update = .ok out ∧
      ∀ records, NlAttr.multipath records ∈ out.req.attrs → records = st.rtnh) ∧
    (netlink_route_multipath 64 ex_talk RTM_NEWROUTE ex_p ex_rib3 0 =
      .ok ⟨{ route_req_base RTM_NEWROUTE ex_p ex_rib3 0 with
              attrs := (route_req_base RTM_NEWROUTE ex_p ex_rib3 0).attrs ++
                [.multipath [⟨0, 0, 0, [⟨RTA_GATEWAY, .leaf (.bytes [192, 0, 2, 1])⟩]⟩,
                             ⟨0, 0, 0, [⟨RTA_GATEWAY, .leaf (.bytes [198, 51, 100, 1])⟩]⟩]] },
            true, 0⟩ ∧
      _netlink_route_build_multipath 4 ex_nh1 (route_req_base RTM_NEWROUTE ex_p ex_rib3 0).r none =
        .ok (⟨0, 0, 0, [⟨RTA_GATEWAY, .leaf (.bytes [192, 0, 2, 1])⟩]⟩, none) ∧
      _netlink_route_build_multipath 4 ex_nh3 (route_req_base RTM_NEWROUTE ex_p ex_rib3 0).r none =
        .ok (⟨0, 0, 0, [⟨RTA_GATEWAY, .leaf (.bytes [198, 51, 100, 1])⟩]⟩, none) ∧
      are_first_hops_same ex_nh2 ex_nh1 = 1) := by
  refine ⟨?_, by rfl, by rfl, by rfl, by decide⟩
  have hbf : (route_req_base RTM_NEWROUTE p rib update).r.rtm_family ≠ AF_MPLS := by
    rw [route_req_base_r]; exact hfam
  obtain ⟨st, hl, enc, new, -, h3, h4, -, h6, h7⟩ := multipath_loop_spec multipath_num
    RTM_NEWROUTE p.family (bytelen_of p.family) (route_req_base RTM_NEWROUTE p rib update).r hbf
    (ALL_NEXTHOPS_RO rib.nexthop) ⟨[], none, [], false, [], 0⟩
  have h6' := h6 rfl
  simp only [List.nil_append] at h3 h6'
  have hbase : ∀ records, NlAttr.multipath records ∉
      (route_req_base RTM_NEWROUTE p rib update).attrs := by
    intro records hm
    obtain ⟨x, hx, -⟩ := route_req_base_attr_types _ _ _ _ _ hm
    cases hx
  have key : ∃ out, netlink_route_multipath multipath_num netlink_talk RTM_NEWROUTE p rib
      update = .ok out ∧ ∀ records, NlAttr.multipath records ∈ out.req.attrs →
        records = st.rtnh := by
    by_cases hd : (rib.flags.BLACKHOLE || rib.flags.REJECT) = true
    · exact ⟨_, netlink_route_multipath_discard _ _ _ _ _ _ hd,
        fun records hm => absurd hm (hbase records)⟩
    have hd' : (rib.flags.BLACKHOLE || rib.flags.REJECT) = false := by simpa using hd
    by_cases hs : count_nexthops RTM_NEWROUTE (ALL_NEXTHOPS_RO rib.nexthop) = 1 ∨
        multipath_num = 1
    · obtain ⟨st1, hl1, he⟩ := singlepath_loop_extends RTM_NEWROUTE p.family
        (bytelen_of p.family) (ALL_NEXTHOPS_RO rib.nexthop)
        ⟨route_req_base RTM_NEWROUTE p rib update, false, [], 0⟩ hbf
      refine ⟨_, netlink_route_multipath_single _ _ _ _ _ _ hd' hs st1 hl1, ?_⟩
      intro records hm
      exact absurd rfl (no_multipath_of_extends RTM_NEWROUTE p rib update _
        (he.trans (extends_add_setsrc _ _ _ _ _ _ (by simp))) (by decide) _ hm)
    · refine ⟨_, netlink_route_multipath_multi _ _ _ _ _ _ hd' hs st hl, ?_⟩
      intro records hm
      have hset := no_multipath_of_extends RTM_NEWROUTE p rib update _
        (@extends_add_setsrc singlepath_types (route_req_base RTM_NEWROUTE p rib update)
          RTM_NEWROUTE p.family (bytelen_of p.family) st.setsrc st.src (by simp)) (by decide)
      change NlAttr.multipath records ∈ (multipath_req RTM_NEWROUTE p rib update st).attrs at hm
      unfold multipath_req at hm
      split_ifs at hm
      · simp only [List.mem_append, List.mem_singleton] at hm
        rcases hm with hm | hm
        · exact absurd rfl (hset _ hm)
        · cases hm; rfl
      · exact absurd rfl (hset _ hm)
  obtain ⟨out, ho, hrec⟩ := key
  refine ⟨st, out, hl, ?_, ?_, ho, hrec⟩
  · rw [h6', h3]; exact h4
  · exact h7 (by simp [NoDuplicateFirstHop])

theorem multipath_no_duplicate_first_hop_witness :
    ex_p.family ≠ AF_MPLS ∧
    ∃ st out,
      multipath_loop 64 RTM_NEWROUTE ex_p.family (bytelen_of ex_p.family)
        (route_req_base RTM_NEWROUTE ex_p ex_rib3 0).r (ALL_NEXTHOPS_RO ex_rib3.nexthop)
        ⟨[], none, [], false, [], 0⟩ = .ok st ∧
      List.Forall₂ (Encodes (bytelen_of ex_p.family) (route_req_base RTM_NEWROUTE ex_p ex_rib3 0).r)
        st.nhops st.rtnh ∧
      NoDuplicateFirstHop st.nhops ∧
      netlink_route_multipath 64 ex_talk RTM_NEWROUTE ex_p ex_rib3 0 = .ok out ∧
      ∀ records, NlAttr.multipath records ∈ out.req.attrs → records = st.rtnh :=
  ⟨by decide, (multipath_no_duplicate_first_hop 64 ex_talk ex_p ex_rib3 0 (by decide)).1⟩

/-! ## C4 -/

/-- C4: for a nexthop of type IPV6 or IPV6_IFINDEX on an AF_INET route, the
singlepath builder sets RTNH_F_ONLINK in `rtm_flags` and appends RTA_GATEWAY
with the 4 bytes 169.254.0.1, RTA_OIF with the nexthop's ifindex and at most
one RTA_PREFSRC taken from `rmap_src` or `src`; the multipath builder emits the
record with `rtnh_flags = RTNH_F_ONLINK`, `rtnh_ifindex` the nexthop's ifindex
and the single attribute RTA_GATEWAY 169.254.0.1. Neither result depends on
the nexthop's gateway address. -/
theorem cross_family_gateway (bytelen : Nat) (nexthop : Nexthop) (req : Req) (rtmsg : Rtmsg)
    (cmd : Nat) (src : Option GAddr)
    (hreq : req.r.rtm_family = AF_INET) (hrt : rtmsg.rtm_family = AF_INET)
    (ht : nexthop.type = .IPV6 ∨ nexthop.type = .IPV6_IFINDEX) :
    (∃ req' prefsrc, _netlink_route_build_singlepath bytelen nexthop req cmd = .ok req' ∧
      req'.r.rtm_flags = req.r.rtm_flags ||| RTNH_F_ONLINK ∧
      Nat.testBit req'.r.rtm_flags 2 = true ∧
      req'.attrs = req.attrs ++
        [.rta ⟨RTA_GATEWAY, .leaf (.bytes [169, 254, 0, 1])⟩,
         .rta ⟨RTA_OIF, .leaf (.u32 nexthop.ifindex)⟩] ++ prefsrc ∧
      (prefsrc = [] ∨
        prefsrc = [.rta ⟨RTA_PREFSRC, .leaf (.bytes (nexthop.rmap_src.take bytelen))⟩] ∨
        prefsrc = [.rta ⟨RTA_PREFSRC, .leaf (.bytes (nexthop.src.take bytelen))⟩]) ∧
      ∀ g, _netlink_route_build_singlepath bytelen { nexthop with gate := g } req cmd =
        .ok req') ∧
    (∃ src', _netlink_route_build_multipath bytelen nexthop rtmsg src =
        .ok (⟨RTNH_F_ONLINK, 0, nexthop.ifindex,
              [⟨RTA_GATEWAY, .leaf (.bytes [169, 254, 0, 1])⟩]⟩, src') ∧
      ∀ g, _netlink_route_build_multipath bytelen { nexthop with gate := g } rtmsg src =
        .ok (⟨RTNH_F_ONLINK, 0, nexthop.ifindex,
              [⟨RTA_GATEWAY, .leaf (.bytes [169, 254, 0, 1])⟩]⟩, src')) := by
  constructor
  · have hs : ∀ g, _netlink_route_build_singlepath bytelen { nexthop with gate := g } req cmd =
        .ok (singlepath_cross bytelen nexthop req cmd) := by
      intro g
      unfold _netlink_route_build_singlepath
      rw [if_pos ⟨hreq, ht⟩]
      rfl
    have h0 := hs nexthop.gate
    have hb : ∀ x : Req, x.r.rtm_flags = req.r.rtm_flags ||| RTNH_F_ONLINK →
        Nat.testBit x.r.rtm_flags 2 = true := by
      intro x hx
      rw [hx, Nat.testBit_or]
      simp
      right
      decide
    by_cases h1 : ipv4_s_addr nexthop.rmap_src = true ∧ cmd = RTM_NEWROUTE
    · refine ⟨_, [.rta ⟨RTA_PREFSRC, .leaf (.bytes (nexthop.rmap_src.take bytelen))⟩],
        h0, ?_, ?_, ?_, Or.inr (Or.inl rfl), hs⟩
      · simp [singlepath_cross, h1, addattr_l, addattr32, set_rtm_onlink]
      · exact hb _ (by simp [singlepath_cross, h1, addattr_l, addattr32, set_rtm_onlink])
      · simp [singlepath_cross, h1, addattr_l, addattr32, set_rtm_onlink]
    · by_cases h2 : ipv4_s_addr nexthop.src = true ∧ cmd = RTM_NEWROUTE
      · refine ⟨_, [.rta ⟨RTA_PREFSRC, .leaf (.bytes (nexthop.src.take bytelen))⟩],
          h0, ?_, ?_, ?_, Or.inr (Or.inr rfl), hs⟩
        · simp only [singlepath_cross, if_neg h1, if_pos h2, addattr_l, addattr32, set_rtm_onlink]
        · exact hb _ (by
            simp only [singlepath_cross, if_neg h1, if_pos h2, addattr_l, addattr32,
              set_rtm_onlink])
        · simp [singlepath_cross, if_neg h1, if_pos h2, addattr_l, addattr32, set_rtm_onlink]
      · refine ⟨_, [], h0, ?_, ?_, ?_, Or.inl rfl, hs⟩
        · simp only [singlepath_cross, if_neg h1, if_neg h2, addattr_l, addattr32, set_rtm_onlink]
        · exact hb _ (by
            simp only [singlepath_cross, if_neg h1, if_neg h2, addattr_l, addattr32,
              set_rtm_onlink])
        · simp [singlepath_cross, if_neg h1, if_neg h2, addattr_l, addattr32, set_rtm_onlink]
  · have hm : ∀ g, _netlink_route_build_multipath bytelen { nexthop with gate := g } rtmsg src =
        .ok (⟨RTNH_F_ONLINK, 0, nexthop.ifindex,
              [⟨RTA_GATEWAY, .leaf (.bytes [169, 254, 0, 1])⟩]⟩, src_v4 nexthop src) := by
      intro g
      unfold _netlink_route_build_multipath
      rw [if_pos ⟨hrt, ht⟩]
      rfl
    exact ⟨src_v4 nexthop src, hm nexthop.gate, hm⟩

theorem cross_family_gateway_witness :
    ex_req.r.rtm_family = AF_INET ∧ (ex_nh6.type = .IPV6 ∨ ex_nh6.type = .IPV6_IFINDEX) ∧
    _netlink_route_build_singlepath 4 ex_nh6 ex_req RTM_NEWROUTE =
      .ok { n := ex_req.n, r := { ex_req.r with rtm_flags := RTNH_F_ONLINK },
            attrs := ex_req.attrs ++
              [.rta ⟨RTA_GATEWAY, .leaf (.bytes [169, 254, 0, 1])⟩,
               .rta ⟨RTA_OIF, .leaf (.u32 2)⟩] } ∧
    (∃ req' prefsrc, _netlink_route_build_singlepath 4 ex_nh6 ex_req RTM_NEWROUTE = .ok req' ∧
      req'.r.rtm_flags = ex_req.r.rtm_flags ||| RTNH_F_ONLINK ∧
      Nat.testBit req'.r.rtm_flags 2 = true ∧
      req'.attrs = ex_req.attrs ++
        [.rta ⟨RTA_GATEWAY, .leaf (.bytes [169, 254, 0, 1])⟩,
         .rta ⟨RTA_OIF, .leaf (.u32 ex_nh6.ifindex)⟩] ++ prefsrc ∧
      (prefsrc = [] ∨
        prefsrc = [.rta ⟨RTA_PREFSRC, .leaf (.bytes (ex_nh6.rmap_src.take 4))⟩] ∨
        prefsrc = [.rta ⟨RTA_PREFSRC, .leaf (.bytes (ex_nh6.src.take 4))⟩]) ∧
      ∀ g, _netlink_route_build_singlepath 4 { ex_nh6 with gate := g } ex_req RTM_NEWROUTE =
        .ok req') :=
  ⟨by decide, by decide, by rfl,
    (cross_family_gateway 4 ex_nh6 ex_req ex_req.r RTM_NEWROUTE none (by decide) (by decide)
      (by decide)).1⟩

/-! ## C5 -/

/-- C5: `is_selfroute` returns 0 for the protocol id 189 of RIP, although
`get_rt_proto` installs RIP routes with that id; it returns 1 exactly for 186
(BGP), 188 (OSPF), 4 (Static), 11 (ZEBRA), 187 (ISIS) and 190 (RIPng). -/
theorem is_selfroute_rip :
    is_selfroute 189 = 0 ∧ get_rt_proto ZEBRA_ROUTE_RIP = 189 ∧
    ∀ proto, is_selfroute proto = 1 ↔
      (proto = 186 ∨ proto = 188 ∨ proto = 4 ∨ proto = 11 ∨ proto = 187 ∨ proto = 190) := by
  refine ⟨by decide, by decide, ?_⟩
  intro proto
  unfold is_selfroute
  split_ifs with h
  · simpa using h
  · simpa using h

/-! ## C6 -/

/-- C6: `get_rt_proto` maps BGP to 186, OSPF and OSPF6 to 188, ISIS to 187, RIP to
189, RIPng to 190, Static to 4 and every other origin type to 11, and the
request that `netlink_route_multipath` builds carries `get_rt_proto (rib->type)`
in `rtm_protocol`. -/
theorem get_rt_proto_map (multipath_num : Nat) (netlink_talk : Req → Int) (cmd : Nat)
    (p : Prefix) (rib : Rib) (update : Nat) (hfam : p.family ≠ AF_MPLS) :
    get_rt_proto ZEBRA_ROUTE_BGP = 186 ∧ get_rt_proto ZEBRA_ROUTE_OSPF = 188 ∧
    get_rt_proto ZEBRA_ROUTE_OSPF6 = 188 ∧ get_rt_proto ZEBRA_ROUTE_ISIS = 187 ∧
    get_rt_proto ZEBRA_ROUTE_RIP = 189 ∧ get_rt_proto ZEBRA_ROUTE_RIPNG = 190 ∧
    get_rt_proto ZEBRA_ROUTE_STATIC = 4 ∧
    (∀ t, t ≠ ZEBRA_ROUTE_BGP ∧ t ≠ ZEBRA_ROUTE_OSPF ∧ t ≠ ZEBRA_ROUTE_OSPF6 ∧
        t ≠ ZEBRA_ROUTE_ISIS ∧ t ≠ ZEBRA_ROUTE_RIP ∧ t ≠ ZEBRA_ROUTE_RIPNG ∧
        t ≠ ZEBRA_ROUTE_STATIC → get_rt_proto t = 11) ∧
    ∃ out, netlink_route_multipath multipath_num netlink_talk cmd p rib update = .ok out ∧
      out.req.r.rtm_protocol = get_rt_proto rib.type := by
  refine ⟨by decide, by decide, by decide, by decide, by decide, by decide, by decide, ?_, ?_⟩
  · rintro t ⟨h1, h2, h3, h4, h5, h6, h7⟩
    simp [get_rt_proto, h1, h2, h3, h4, h5, h6, h7]
  · obtain ⟨out, h, he⟩ :=
      netlink_route_multipath_extends multipath_num netlink_talk cmd p rib update hfam
    refine ⟨out, h, ?_⟩
    rw [he.2.1, route_req_base_r]

theorem get_rt_proto_map_witness :
    ex_p.family ≠ AF_MPLS ∧
    ∃ out, netlink_route_multipath 64 ex_talk RTM_NEWROUTE ex_p ex_rib3 0 = .ok out ∧
      out.req.r.rtm_protocol = get_rt_proto ex_rib3.type :=
  ⟨by decide,
    (get_rt_proto_map 64 ex_talk RTM_NEWROUTE ex_p ex_rib3 0 (by decide)).2.2.2.2.2.2.2.2⟩

/-! ## C7 -/

/-- C7, as amended: for every command and every route entry that has neither the
BLACKHOLE nor the REJECT flag, if no nexthop of the entry is a candidate,
`netlink_route_multipath` transmits no request and returns 0. -/
theorem no_candidate_no_request (multipath_num : Nat) (netlink_talk : Req → Int) (cmd : Nat)
    (p : Prefix) (rib : Rib) (update : Nat)
    (hdiscard : rib.flags.BLACKHOLE = false ∧ rib.flags.REJECT = false)
    (hnone : candidates cmd rib = []) :
    ∃ out, netlink_route_multipath multipath_num netlink_talk cmd p rib update = .ok out ∧
      out.talk = false ∧ out.ret = 0 := by
  have hd : (rib.flags.BLACKHOLE || rib.flags.REJECT) = false := by
    rw [hdiscard.1, hdiscard.2]; rfl
  by_cases hs : count_nexthops cmd (ALL_NEXTHOPS_RO rib.nexthop) = 1 ∨ multipath_num = 1
  · obtain ⟨b, s, hl⟩ := singlepath_loop_none cmd p.family (bytelen_of p.family)
      (ALL_NEXTHOPS_RO rib.nexthop) ⟨route_req_base cmd p rib update, false, [], 0⟩ hnone
    exact ⟨_, netlink_route_multipath_single _ _ _ _ _ _ hd hs _ hl, by simp, by simp⟩
  · obtain ⟨b, s, hl⟩ := multipath_loop_none multipath_num cmd p.family (bytelen_of p.family)
      (route_req_base cmd p rib update).r
      (ALL_NEXTHOPS_RO rib.nexthop) ⟨[], none, [], false, [], 0⟩ hnone
    exact ⟨_, netlink_route_multipath_multi _ _ _ _ _ _ hd hs _ hl, by simp, by simp⟩

theorem no_candidate_no_request_witness :
    (ex_rib_inactive.flags.BLACKHOLE = false ∧ ex_rib_inactive.flags.REJECT = false) ∧
    candidates RTM_NEWROUTE ex_rib_inactive = [] ∧
    ∃ out, netlink_route_multipath 64 ex_talk RTM_NEWROUTE ex_p ex_rib_inactive 0 = .ok out ∧
      out.talk = false ∧ out.ret = 0 :=
  ⟨by decide, by decide,
    no_candidate_no_request 64 ex_talk RTM_NEWROUTE ex_p ex_rib_inactive 0 (by decide) (by decide)⟩

/-- C7, counterexample to the claim as stated: the blackhole entry `ex_rib_blackhole`
has no candidate nexthop for RTM_NEWROUTE, yet `netlink_route_multipath` hands
the request to `netlink_talk` (the discard branch jumps to `skip:`). -/
theorem discard_route_sent_without_candidate :
    candidates RTM_NEWROUTE ex_rib_blackhole = [] ∧
    netlink_route_multipath 64 ex_talk RTM_NEWROUTE ex_p ex_rib_blackhole 0 =
      .ok ⟨route_req_base RTM_NEWROUTE ex_p ex_rib_blackhole 0, true, 0⟩ ∧
    (route_req_base RTM_NEWROUTE ex_p ex_rib_blackhole 0).r.rtm_type = RTN_BLACKHOLE :=
  ⟨by decide, by rfl, by decide⟩

/-! ## C8 -/

/-- C8: the request of `netlink_route_multipath` has `rtm_table = rib->table` and
no RTA_TABLE attribute when `rib->table < 256`, and `rtm_table = RT_TABLE_UNSPEC`
with exactly one RTA_TABLE attribute, carrying `rib->table` as a 32-bit value,
when `rib->table >= 256`. -/
theorem table_id_encoding (multipath_num : Nat) (netlink_talk : Req → Int) (cmd : Nat)
    (p : Prefix) (rib : Rib) (update : Nat) (hfam : p.family ≠ AF_MPLS) :
    ∃ out, netlink_route_multipath multipath_num netlink_talk cmd p rib update = .ok out ∧
      (rib.table < 256 → out.req.r.rtm_table = rib.table ∧
        out.req.attrs.filter (fun a => a.type == RTA_TABLE) = []) ∧
      (256 ≤ rib.table → out.req.r.rtm_table = RT_TABLE_UNSPEC ∧
        out.req.attrs.filter (fun a => a.type == RTA_TABLE) =
          [.rta ⟨RTA_TABLE, .leaf (.u32 rib.table)⟩]) := by
  obtain ⟨out, h, he⟩ :=
    netlink_route_multipath_extends multipath_num netlink_talk cmd p rib update hfam
  obtain ⟨-, hr, extra, hattrs, htypes⟩ := he
  have hextra : extra.filter (fun a => a.type == RTA_TABLE) = [] := by
    rw [List.filter_eq_nil_iff]
    intro a ha
    have := htypes a ha
    simp only [List.mem_cons, List.mem_singleton, List.not_mem_nil, or_false] at this
    rcases this with h | h | h | h | h | h <;> simp [h]
  refine ⟨out, h, ?_, ?_⟩
  · intro hlt
    refine ⟨?_, ?_⟩
    · rw [hr, route_req_base_r]; simp [hlt]
    · rw [hattrs, List.filter_append, hextra, route_req_base_attrs]
      simp only [hlt, if_true]
      split_ifs <;> simp [NlAttr.type]
  · intro hge
    have hlt : ¬ rib.table < 256 := by omega
    refine ⟨?_, ?_⟩
    · rw [hr, route_req_base_r]; simp [hlt]
    · rw [hattrs, List.filter_append, hextra, route_req_base_attrs]
      simp only [hlt, if_false]
      split_ifs <;> simp [NlAttr.type]

theorem table_id_encoding_witness :
    ex_p.family ≠ AF_MPLS ∧
    (∃ out, netlink_route_multipath 64 ex_talk RTM_NEWROUTE ex_p ex_rib_table 0 = .ok out ∧
      out.req.r.rtm_table = RT_TABLE_UNSPEC ∧
      out.req.attrs.filter (fun a => a.type == RTA_TABLE) =
        [.rta ⟨RTA_TABLE, .leaf (.u32 1001)⟩]) ∧
    (∃ out, netlink_route_multipath 64 ex_talk RTM_NEWROUTE ex_p ex_rib3 0 = .ok out ∧
      out.req.r.rtm_table = 254 ∧
      out.req.attrs.filter (fun a => a.type == RTA_TABLE) = []) :=
  ⟨by decide,
    (table_id_encoding 64 ex_talk RTM_NEWROUTE ex_p ex_rib_table 0 (by decide)).imp
      (fun _ h => ⟨h.1, h.2.2 (by decide)⟩),
    (table_id_encoding 64 ex_talk RTM_NEWROUTE ex_p ex_rib3 0 (by decide)).imp
      (fun _ h => ⟨h.1, h.2.1 (by decide)⟩)⟩

/-! ## C9 -/

/-- C9: with the label stack (implicit-null, 200) the label stack attribute that
both builders emit on an AF_INET route holds one entry, and that entry is the
slot `out_lse[0]`, which the loop never wrote; the entry of label 200 sits in
`out_lse[1]` and is not sent. Gateway attributes are the same as without
labels, and a stack of implicit-null labels only emits no label attribute. -/
theorem implicit_null_before_label :
    label_loop [3, 200] = ([none, some (mpls_lse_encode 200 0 0 1)], 1) ∧
    out_lse_payload [3, 200] = [none] ∧
    _netlink_route_build_singlepath 4 ex_nh_null_200 ex_req RTM_NEWROUTE =
      .ok { ex_req with attrs := ex_req.attrs ++
        [.rta ⟨RTA_ENCAP_TYPE, .leaf (.u16 LWTUNNEL_ENCAP_MPLS)⟩,
         .rta ⟨RTA_ENCAP, .nest [(MPLS_IPTUNNEL_DST, .lse [none])]⟩,
         .rta ⟨RTA_GATEWAY, .leaf (.bytes [192, 0, 2, 1])⟩] } ∧
    _netlink_route_build_multipath 4 ex_nh_null_200 ex_req.r none =
      .ok (⟨0, 0, 0,
        [⟨RTA_ENCAP_TYPE, .leaf (.u16 LWTUNNEL_ENCAP_MPLS)⟩,
         ⟨RTA_ENCAP, .nest [(MPLS_IPTUNNEL_DST, .lse [none])]⟩,
         ⟨RTA_GATEWAY, .leaf (.bytes [192, 0, 2, 1])⟩]⟩, none) ∧
    (∀ (fam : Nat) (label : List Nat), (∀ l ∈ label, l = MPLS_IMP_NULL_LABEL) →
      label_attrs fam (some label) = []) := by
  refine ⟨by decide, by decide, by rfl, by rfl, ?_⟩
  intro fam label h
  have h0 : (label_loop label).2 = 0 := by
    unfold label_loop
    rw [label_loop_all_null label label.length _ (fun i hi => by
      rw [List.getD_eq_getElem _ _ hi]; exact h _ (List.getElem_mem _))]
  simp [label_attrs, h0]

/-! ## C10 -/

/-- C10: with the label stack (200, implicit-null) both builders emit a label
stack attribute on an AF_INET route whose only entry is that of label 200 with
the bottom-of-stack bit clear: the bit is computed from the position in the
nexthop's stack, not in the emitted one. -/
theorem bos_missing_after_implicit_null :
    out_lse_payload [200, 3] = [some (mpls_lse_encode 200 0 0 0)] ∧
    lse_label (mpls_lse_encode 200 0 0 0) = 200 ∧
    lse_bos (mpls_lse_encode 200 0 0 0) = 0 ∧
    _netlink_route_build_singlepath 4 ex_nh_200_null ex_req RTM_NEWROUTE =
      .ok { ex_req with attrs := ex_req.attrs ++
        [.rta ⟨RTA_ENCAP_TYPE, .leaf (.u16 LWTUNNEL_ENCAP_MPLS)⟩,
         .rta ⟨RTA_ENCAP, .nest [(MPLS_IPTUNNEL_DST, .lse [some (mpls_lse_encode 200 0 0 0)])]⟩,
         .rta ⟨RTA_GATEWAY, .leaf (.bytes [192, 0, 2, 1])⟩] } ∧
    _netlink_route_build_multipath 4 ex_nh_200_null ex_req.r none =
      .ok (⟨0, 0, 0,
        [⟨RTA_ENCAP_TYPE, .leaf (.u16 LWTUNNEL_ENCAP_MPLS)⟩,
         ⟨RTA_ENCAP, .nest [(MPLS_IPTUNNEL_DST, .lse [some (mpls_lse_encode 200 0 0 0)])]⟩,
         ⟨RTA_GATEWAY, .leaf (.bytes [192, 0, 2, 1])⟩]⟩, none) :=
  ⟨by decide, by decide, by decide, by rfl, by rfl⟩

/-! ## The notification path -/

theorem is_selfroute_cases (proto : Nat) : is_selfroute proto = 0 ∨ is_selfroute proto = 1 := by
  unfold is_selfroute
  split_ifs <;> simp

theorem read_unicast_of_passes (vrfs : List (Option ZebraVrf))
    (valid main : Nat → Bool) (fuel : Nat) (msg : RouteMsg) (h : passes_filters msg) :
    netlink_route_change_read_unicast vrfs valid main fuel msg =
      if table_processed vrfs valid main (route_table msg) then
        (route_change_rib_calls fuel msg (vrf_lookup_by_table vrfs (route_table msg))
          (route_table msg) ⟨decide (is_selfroute msg.rtm.rtm_protocol ≠ 0)⟩).map
          (fun calls => (calls, 0))
      else some ([], 0) := by
  obtain ⟨h1, h2, h3, h4, h5⟩ := h
  have h4' : ¬ (is_selfroute msg.rtm.rtm_protocol ≠ 0 ∧ msg.h.nlmsg_type = RTM_NEWROUTE) := by
    rintro ⟨ha, hb⟩
    rcases is_selfroute_cases msg.rtm.rtm_protocol with h0 | h0
    · exact ha h0
    · exact h4 ⟨h0, hb⟩
  unfold netlink_route_change_read_unicast
  rw [if_neg (not_not.2 h1), if_neg h2, if_neg h3, if_neg h4']
  simp only [if_neg (not_not.2 h5)]
  by_cases hv : vrf_lookup_by_table vrfs (route_table msg) = VRF_DEFAULT
  · cases hb : valid (route_table msg) <;> cases hm : main (route_table msg) <;>
      simp [table_processed, hv, hb, hm]
  · simp [table_processed, hv]

theorem is_selfroute_ne_zero_iff (proto : Nat) : is_selfroute proto ≠ 0 ↔ is_selfroute proto = 1 := by
  rcases is_selfroute_cases proto with h | h <;> simp [h]

theorem rib_calls_delete (fuel : Nat) (msg : RouteMsg) (vrf_id table : Nat) (flags : ZebraFlags)
    (ht : msg.h.nlmsg_type ≠ RTM_NEWROUTE)
    (hf : msg.rtm.rtm_family = AF_INET ∨ msg.rtm.rtm_family = AF_INET6) :
    route_change_rib_calls fuel msg vrf_id table flags =
      some [.rib_delete (afi_of msg.rtm.rtm_family) SAFI_UNICAST vrf_id ZEBRA_ROUTE_KERNEL 0 flags
        ⟨msg.rtm.rtm_family, msg.rtm.rtm_dst_len,
          (route_dest msg).take (bytelen_of msg.rtm.rtm_family)⟩
        msg.tb.RTA_GATEWAY (msg.tb.RTA_OIF.getD 0) table] := by
  unfold route_change_rib_calls
  rcases hf with hf | hf <;>
    simp [hf, ht, afi_of, bytelen_of, route_dest]

theorem rib_calls_vrf_table (fuel : Nat) (msg : RouteMsg) (vrf_id table : Nat)
    (flags : ZebraFlags) (calls : List RibCall)
    (h : route_change_rib_calls fuel msg vrf_id table flags = some calls) :
    ∀ c ∈ calls, c.vrf = vrf_id ∧ c.table = table := by
  unfold route_change_rib_calls at h
  by_cases h4 : msg.rtm.rtm_family = AF_INET
  · have h6 : ¬ msg.rtm.rtm_family = AF_INET6 := by rw [h4]; decide
    simp only [h4, h6, if_true, if_false] at h
    by_cases hn : msg.h.nlmsg_type = RTM_NEWROUTE
    · simp only [hn, if_true] at h
      cases hm : msg.tb.RTA_MULTIPATH with
      | none =>
        simp only [hm, Option.map_some', List.append_nil, Option.some.injEq] at h
        subst h
        simp [RibCall.vrf, RibCall.table]
      | some mp =>
        simp only [hm] at h
        cases hw : rtnh_walk mp msg.tb.RTA_PREFSRC fuel 0 mp.len [] with
        | none => simp [hw] at h
        | some nexthops =>
          simp only [hw] at h
          by_cases hz : nexthops.length = 0
          · simp only [hz, if_true, Option.map_some', List.append_nil, Option.some.injEq] at h
            subst h
            simp
          · simp only [hz, if_false, Option.map_some', List.append_nil, Option.some.injEq] at h
            subst h
            simp [RibCall.vrf, RibCall.table]
    · simp only [hn, if_false, Option.map_some', List.append_nil, Option.some.injEq] at h
      subst h
      simp [RibCall.vrf, RibCall.table]
  · simp only [h4, if_false, Option.map_some', List.nil_append, Option.some.injEq] at h
    subst h
    split_ifs <;> simp [RibCall.vrf, RibCall.table]

theorem registered_of_lookup (vrfs : List (Option ZebraVrf)) (table : Nat)
    (h : vrf_lookup_by_table vrfs table ≠ VRF_DEFAULT) :
    registered vrfs table (vrf_lookup_by_table vrfs table) := by
  induction vrfs with
  | nil => simp [vrf_lookup_by_table] at h
  | cons a l ih =>
    cases a with
    | none =>
      simp only [vrf_lookup_by_table] at h ⊢
      obtain ⟨z, hz, h1, h2⟩ := ih h
      exact ⟨z, List.mem_cons_of_mem _ hz, h1, h2⟩
    | some zvrf =>
      simp only [vrf_lookup_by_table] at h ⊢
      by_cases ht : zvrf.table_id ≠ table
      · rw [if_pos ht] at h ⊢
        obtain ⟨z, hz, h1, h2⟩ := ih h
        exact ⟨z, List.mem_cons_of_mem _ hz, h1, h2⟩
      · rw [if_neg ht]
        exact ⟨zvrf, List.mem_cons_self _ _, not_not.1 ht, rfl⟩

theorem lookup_of_registered (vrfs : List (Option ZebraVrf)) (table vrf_id : Nat)
    (huniq : ∀ z1 z2, some z1 ∈ vrfs → some z2 ∈ vrfs → z1.table_id = z2.table_id →
      z1.vrf_id = z2.vrf_id)
    (h : registered vrfs table vrf_id) : vrf_lookup_by_table vrfs table = vrf_id := by
  induction vrfs with
  | nil => obtain ⟨z, hz, -⟩ := h; simp at hz
  | cons a l ih =>
    obtain ⟨z, hz, h1, h2⟩ := h
    have huniq' : ∀ z1 z2, some z1 ∈ l → some z2 ∈ l → z1.table_id = z2.table_id →
        z1.vrf_id = z2.vrf_id :=
      fun z1 z2 m1 m2 => huniq z1 z2 (List.mem_cons_of_mem _ m1) (List.mem_cons_of_mem _ m2)
    cases a with
    | none =>
      simp only [vrf_lookup_by_table]
      have hz' : some z ∈ l := by
        rcases List.mem_cons.1 hz with h0 | h0
        · cases h0
        · exact h0
      exact ih huniq' ⟨z, hz', h1, h2⟩
    | some zvrf =>
      simp only [vrf_lookup_by_table]
      by_cases ht : zvrf.table_id ≠ table
      · rw [if_pos ht]
        have hz' : some z ∈ l := by
          rcases List.mem_cons.1 hz with h0 | h0
          · cases h0; exact absurd h1 ht
          · exact h0
        exact ih huniq' ⟨z, hz', h1, h2⟩
      · rw [if_neg ht]
        rw [← h2]
        exact huniq zvrf z (List.mem_cons_self _ _) hz (by rw [h1]; exact not_not.1 ht)

theorem NLMSG_ALIGN_ge (len : Nat) : len ≤ NLMSG_ALIGN len := by
  unfold NLMSG_ALIGN; omega

theorem rtnh_walk_layout (mp : MultipathIn) (src : Option (List Nat)) (records : List RtnhIn)
    (hwf : ∀ r ∈ records, sizeof_rtnexthop ≤ r.rtnh_len) (fuel off : Nat)
    (acc : List NexthopAdd) (hfuel : records.length < fuel)
    (hat : ∀ k, mp.rtnh_at (off + k) = layout_at records k) :
    rtnh_walk mp src fuel off (layout_len records) acc =
      some (acc ++ records.map (fun r => rtnh_nexthop r src)) := by
  induction records generalizing fuel off acc with
  | nil =>
    obtain ⟨f, rfl⟩ : ∃ f, fuel = f + 1 := ⟨fuel - 1, by simp at hfuel; omega⟩
    simp [rtnh_walk, layout_len]
  | cons r rest ih =>
    obtain ⟨f, rfl⟩ : ∃ f, fuel = f + 1 := ⟨fuel - 1, by simp at hfuel; omega⟩
    have hr : sizeof_rtnexthop ≤ r.rtnh_len := hwf r (List.mem_cons_self _ _)
    have h0 : mp.rtnh_at off = r := by
      have := hat 0
      simpa [layout_at] using this
    have hal := NLMSG_ALIGN_ge r.rtnh_len
    unfold rtnh_walk
    simp only [h0, layout_len]
    have hc : ¬ (((NLMSG_ALIGN r.rtnh_len + layout_len rest : Nat) : Int) <
        (sizeof_rtnexthop : Int) ∨
        (r.rtnh_len : Int) > ((NLMSG_ALIGN r.rtnh_len + layout_len rest : Nat) : Int)) := by
      simp only [sizeof_rtnexthop] at hr ⊢
      omega
    rw [if_neg hc]
    have hlen : ((NLMSG_ALIGN r.rtnh_len + layout_len rest : Nat) : Int) -
        (NLMSG_ALIGN r.rtnh_len : Int) = (layout_len rest : Int) := by
      push_cast; ring
    rw [hlen, ih (fun x hx => hwf x (List.mem_cons_of_mem _ hx)) f
      (off + NLMSG_ALIGN r.rtnh_len) _ (by simp at hfuel ⊢; omega)]
    · simp
    · intro k
      have := hat (NLMSG_ALIGN r.rtnh_len + k)
      rw [← Nat.add_assoc] at this
      rw [this]
      have hpos : NLMSG_ALIGN r.rtnh_len + k ≠ 0 := by
        simp only [sizeof_rtnexthop] at hr; omega
      simp [layout_at, hpos]

/-! ## Return value and attribute filters of netlink_route_multipath -/

theorem netlink_route_multipath_ret (multipath_num : Nat) (netlink_talk : Req → Int)
    (cmd : Nat) (p : Prefix) (rib : Rib) (update : Nat) (out : Outcome)
    (h : netlink_route_multipath multipath_num netlink_talk cmd p rib update = .ok out) :
    (out.talk = true → out.ret = netlink_talk out.req) ∧ (out.talk = false → out.ret = 0) := by
  unfold netlink_route_multipath at h
  simp only at h
  by_cases hd : (rib.flags.BLACKHOLE || rib.flags.REJECT) = true
  · rw [if_pos hd] at h
    cases h
    simp
  rw [if_neg hd] at h
  by_cases hs : count_nexthops cmd (ALL_NEXTHOPS_RO rib.nexthop) = 1 ∨ multipath_num = 1
  · rw [if_pos hs] at h
    cases hl : singlepath_loop cmd p.family (bytelen_of p.family)
      (ALL_NEXTHOPS_RO rib.nexthop) ⟨route_req_base cmd p rib update, false, [], 0⟩ with
    | error e => rw [hl] at h; cases h
    | ok st =>
      rw [hl] at h
      simp only at h
      split_ifs at h <;> cases h <;> simp
  · rw [if_neg hs] at h
    cases hl : multipath_loop multipath_num cmd p.family (bytelen_of p.family)
      (route_req_base cmd p rib update).r
      (ALL_NEXTHOPS_RO rib.nexthop) ⟨[], none, [], false, [], 0⟩ with
    | error e => rw [hl] at h; cases h
    | ok st =>
      rw [hl] at h
      simp only at h
      split_ifs at h <;> cases h <;> simp

theorem extends_filter_base (cmd : Nat) (p : Prefix) (rib : Rib) (update : Nat) (req : Req)
    (t : Nat) (he : Extends (RTA_MULTIPATH :: singlepath_types)
      (route_req_base cmd p rib update) req)
    (ht : t ∉ RTA_MULTIPATH :: singlepath_types) :
    req.attrs.filter (fun a => a.type == t) =
      (route_req_base cmd p rib update).attrs.filter (fun a => a.type == t) := by
  obtain ⟨-, -, extra, hattrs, htypes⟩ := he
  have hextra : extra.filter (fun a => a.type == t) = [] := by
    rw [List.filter_eq_nil_iff]
    intro a ha h
    have h1 := htypes a ha
    have h2 : a.type = t := by simpa using h
    exact ht (h2 ▸ h1)
  rw [hattrs, List.filter_append, hextra, List.append_nil]

theorem multipath_loop_bound (multipath_num cmd family bytelen : Nat) (rtmsg : Rtmsg)
    (hf : rtmsg.rtm_family ≠ AF_MPLS) (walk : List Nexthop) (st st' : MultiState)
    (hloop : multipath_loop multipath_num cmd family bytelen rtmsg walk st = .ok st') :
    st'.nexthop_num ≤ max st.nexthop_num multipath_num := by
  induction walk generalizing st with
  | nil =>
    rw [multipath_loop] at hloop
    cases hloop
    exact le_max_left _ _
  | cons a l ih =>
    by_cases hge : st.nexthop_num ≥ multipath_num
    · rw [multipath_loop_break _ _ _ _ _ _ _ _ hge] at hloop
      cases hloop
      exact le_max_left _ _
    by_cases hr : a.flags.RECURSIVE = true
    · rw [multipath_loop_recursive _ _ _ _ _ _ _ _ hge hr] at hloop
      have := ih _ hloop
      exact this
    have hr' : a.flags.RECURSIVE = false := by simpa using hr
    have henc : ∀ s0 : MultiState, s0.nexthop_num = st.nexthop_num + 1 →
        multipath_loop multipath_num cmd family bytelen rtmsg l s0 = .ok st' →
        st'.nexthop_num ≤ max st.nexthop_num multipath_num := by
      intro s0 h0 hl
      have := ih s0 hl
      rw [h0] at this
      omega
    by_cases hnew : cmd = RTM_NEWROUTE ∧ a.flags.ACTIVE = true
    · have hdel : ¬ (cmd = RTM_DELROUTE ∧ a.flags.FIB = true) := by
        rintro ⟨h, -⟩; rw [hnew.1] at h; exact absurd h (by decide)
      by_cases hd : (is_duplicate_first_hop a st.nhops).1 = 0
      · obtain ⟨⟨r, src1⟩, hb⟩ := multipath_build_ok bytelen a rtmsg st.src1 hf
        rw [multipath_loop_encode _ _ _ _ _ _ _ _ hge hr' r src1 hb _
          (Or.inl ⟨hnew.1, hnew.2, hd, rfl⟩)] at hloop
        exact henc _ rfl hloop
      · rw [multipath_loop_skip _ _ _ _ _ _ _ _ hge hr' _ hdel
          (Or.inl ⟨hnew.1, hnew.2, hd, rfl⟩)] at hloop
        have := ih _ hloop
        exact this
    · by_cases hdel : cmd = RTM_DELROUTE ∧ a.flags.FIB = true
      · obtain ⟨⟨r, src1⟩, hb⟩ := multipath_build_ok bytelen a rtmsg st.src1 hf
        rw [multipath_loop_encode _ _ _ _ _ _ _ _ hge hr' r src1 hb _
          (Or.inr ⟨hnew, hdel, rfl⟩)] at hloop
        exact henc _ rfl hloop
      · rw [multipath_loop_skip _ _ _ _ _ _ _ _ hge hr' _ hdel (Or.inr ⟨hnew, rfl⟩)] at hloop
        have := ih _ hloop
        exact this

theorem no_multipath_of_types {ts : List Nat} (req req' : Req) (he : Extends ts req req')
    (hts : RTA_MULTIPATH ∉ ts) (hreq : ∀ a ∈ req.attrs, a.type ≠ RTA_MULTIPATH) :
    ∀ a ∈ req'.attrs, a.type ≠ RTA_MULTIPATH := by
  obtain ⟨-, -, extra, hattrs, htypes⟩ := he
  intro a ha
  rw [hattrs, List.mem_append] at ha
  rcases ha with ha | ha
  · exact hreq a ha
  · intro h
    exact hts (h ▸ htypes a ha)

/-! ## The MPLS builders -/

theorem label_assert_mpls (nhlfe : Nhlfe) (nexthop : Nexthop)
    (hn : nhlfe.nexthop = some nexthop) (hl : mpls_label_ok nhlfe = true) :
    label_assert AF_MPLS nexthop.nh_label = .ok () := by
  unfold mpls_label_ok at hl
  rw [hn] at hl
  simp only at hl
  unfold label_assert
  cases h : nexthop.nh_label with
  | none => rw [h] at hl; simp at hl
  | some label =>
    rw [h] at hl
    have : label.length = 1 := by simpa using hl
    simp [this]

theorem mpls_build_multipath_ok (nhlfe : Nhlfe) (nexthop : Nexthop)
    (hn : nhlfe.nexthop = some nexthop) (hl : mpls_label_ok nhlfe = true) (rtmsg : Rtmsg)
    (hf : rtmsg.rtm_family = AF_MPLS) (src : Option GAddr) :
    ∃ r, _netlink_mpls_build_multipath nhlfe rtmsg src = .ok r := by
  unfold _netlink_mpls_build_multipath
  rw [hn]
  simp only
  unfold _netlink_route_build_multipath
  have h1 : ¬ (rtmsg.rtm_family = AF_INET ∧
      (nexthop.type = .IPV6 ∨ nexthop.type = .IPV6_IFINDEX)) := by
    rw [hf]; rintro ⟨h, -⟩; exact absurd h (by decide)
  rw [if_neg h1, hf, label_assert_mpls nhlfe nexthop hn hl]
  exact ⟨_, rfl⟩

theorem mpls_build_singlepath_ok (nhlfe : Nhlfe) (nexthop : Nexthop)
    (hn : nhlfe.nexthop = some nexthop) (hl : mpls_label_ok nhlfe = true) (req : Req)
    (hf : req.r.rtm_family = AF_MPLS) (cmd : Nat) :
    ∃ r, _netlink_mpls_build_singlepath nhlfe req cmd = .ok r := by
  unfold _netlink_mpls_build_singlepath
  rw [hn]
  simp only
  unfold _netlink_route_build_singlepath
  have h1 : ¬ (req.r.rtm_family = AF_INET ∧
      (nexthop.type = .IPV6 ∨ nexthop.type = .IPV6_IFINDEX)) := by
    rw [hf]; rintro ⟨h, -⟩; exact absurd h (by decide)
  rw [if_neg h1, hf, label_assert_mpls nhlfe nexthop hn hl]
  exact ⟨_, rfl⟩

/-- The multipath loop of `netlink_mpls_multipath` returns when every label
stack passes the assertions; `nexthop_num` counts the records it appends and
does not pass `multipath_num`. -/
theorem mpls_multipath_loop_spec (multipath_num cmd : Nat) (rtmsg : Rtmsg)
    (hf : rtmsg.rtm_family = AF_MPLS) (l : List Nhlfe)
    (hlab : ∀ nhlfe ∈ l, mpls_label_ok nhlfe = true) (st : MplsMultiState) :
    ∃ l' st', mpls_multipath_loop multipath_num cmd rtmsg l st = .ok (l', st') ∧
      st'.nexthop_num ≤ max st.nexthop_num multipath_num ∧
      ∃ new, st'.rtnh = st.rtnh ++ new ∧ st'.nexthop_num = st.nexthop_num + new.length := by
  induction l generalizing st with
  | nil => exact ⟨[], st, rfl, le_max_left _ _, [], by simp, by simp⟩
  | cons a l ih =>
    have hlab' : ∀ nhlfe ∈ l, mpls_label_ok nhlfe = true :=
      fun x hx => hlab x (List.mem_cons_of_mem _ hx)
    unfold mpls_multipath_loop
    cases hn : a.nexthop with
    | none =>
      obtain ⟨l', st', h, hb, hnew⟩ := ih hlab' st
      simp only [h]
      exact ⟨_, _, rfl, hb, hnew⟩
    | some nexthop =>
      simp only
      by_cases hge : st.nexthop_num ≥ multipath_num
      · rw [if_pos hge]
        exact ⟨_, _, rfl, le_max_left _ _, [], by simp, by simp⟩
      rw [if_neg hge]
      by_cases hc : mpls_nhlfe_chosen cmd a nexthop = true
      · rw [if_pos hc]
        obtain ⟨⟨r, src1⟩, hb⟩ := mpls_build_multipath_ok a nexthop hn
          (hlab a (List.mem_cons_self _ _)) rtmsg hf st.src1
        obtain ⟨l', st', h, hbd, new, h1, h2⟩ := ih hlab' ⟨st.rtnh ++ [r], src1, st.nexthop_num + 1⟩
        simp only [hb, h]
        refine ⟨_, _, rfl, ?_, r :: new, ?_, ?_⟩
        · simp only at hbd; omega
        · rw [h1]; simp
        · rw [h2]; simp; omega
      · rw [if_neg hc]
        obtain ⟨l', st', h, hb, hnew⟩ := ih hlab' st
        simp only [h]
        exact ⟨_, _, rfl, hb, hnew⟩

theorem extends_gateway_info_any (req : Req) (gw bytelen : Nat) (nh : Nexthop) :
    Extends mpls_types req
      (_netlink_route_nl_add_gateway_info req.r.rtm_family gw req bytelen nh) := by
  refine ⟨rfl, rfl, [.rta (gateway_info req.r.rtm_family gw bytelen nh)], rfl, ?_⟩
  by_cases hf : req.r.rtm_family = AF_MPLS <;> simp [NlAttr.type, gateway_info, hf]

theorem extends_singlepath_labels_any (req : Req) (nh : Nexthop) :
    Extends mpls_types req (singlepath_labels nh req) := by
  refine ⟨rfl, rfl, (label_attrs req.r.rtm_family nh.nh_label).map NlAttr.rta, rfl, ?_⟩
  intro a ha
  obtain ⟨b, hb, rfl⟩ := List.mem_map.1 ha
  unfold label_attrs at hb
  split at hb
  · simp at hb
  · split_ifs at hb <;> simp at hb
    · subst hb; simp [NlAttr.type]
    · rcases hb with rfl | rfl <;> simp [NlAttr.type]

theorem singlepath_types_sub : ∀ t ∈ singlepath_types, t ∈ mpls_types := by
  intro t ht
  exact List.mem_cons_of_mem _ (List.mem_cons_of_mem _ ht)

theorem extends_singlepath_ipv4_any (bytelen : Nat) (nh : Nexthop) (cmd : Nat) (req : Req) :
    Extends mpls_types req (singlepath_ipv4 bytelen nh cmd req) := by
  unfold singlepath_ipv4
  simp only
  split_ifs <;>
    first
    | exact Extends.refl _ _
    | exact extends_gateway_info_any req _ _ _
    | exact extends_prefsrc_v4 _ _ _ (by simp)
    | exact (extends_gateway_info_any req _ _ _).trans (extends_prefsrc_v4 _ _ _ (by simp))

theorem extends_singlepath_ipv6_any (bytelen : Nat) (nh : Nexthop) (cmd : Nat) (req : Req) :
    Extends mpls_types req (singlepath_ipv6 bytelen nh cmd req) := by
  unfold singlepath_ipv6
  simp only
  split_ifs
  · exact (extends_gateway_info_any req _ _ _).trans (extends_prefsrc_v6 _ _ _ (by simp))
  · exact extends_gateway_info_any req _ _ _
  · exact Extends.refl _ _

/-- Whatever the family of the route, a request the singlepath builder returns
is the request it was given with further nexthop attributes. -/
theorem singlepath_extends_any (bytelen : Nat) (nh : Nexthop) (req req' : Req) (cmd : Nat)
    (h : _netlink_route_build_singlepath bytelen nh req cmd = .ok req') :
    Extends mpls_types req req' := by
  unfold _netlink_route_build_singlepath at h
  split_ifs at h
  · cases h
    exact (extends_singlepath_cross _ _ _ _).mono singlepath_types_sub
  · cases ha : label_assert req.r.rtm_family nh.nh_label with
    | error e => rw [ha] at h; cases h
    | ok u =>
      rw [ha] at h
      cases h
      have e1 := extends_singlepath_labels_any req nh
      have e2 := e1.trans ((extends_singlepath_onlink nh _).mono singlepath_types_sub)
      have e3 := e2.trans (extends_singlepath_ipv4_any bytelen nh cmd _)
      have e4 := e3.trans (extends_singlepath_ipv6_any bytelen nh cmd _)
      have e5 := e4.trans ((extends_singlepath_oif bytelen nh cmd _).mono singlepath_types_sub)
      exact e5.trans ((extends_singlepath_oif6 bytelen nh cmd _).mono singlepath_types_sub)

/-- The singlepath loop of `netlink_mpls_multipath` returns when every label
stack passes the assertions, and leaves the request with further nexthop
attributes. -/
theorem mpls_singlepath_loop_spec (cmd : Nat) (l : List Nhlfe)
    (hlab : ∀ nhlfe ∈ l, mpls_label_ok nhlfe = true) (req : Req)
    (hf : req.r.rtm_family = AF_MPLS) :
    ∃ l' req', mpls_singlepath_loop cmd l req = .ok (l', req') ∧
      Extends mpls_types req req' := by
  induction l with
  | nil => exact ⟨[], req, rfl, Extends.refl _ _⟩
  | cons a l ih =>
    have hlab' : ∀ nhlfe ∈ l, mpls_label_ok nhlfe = true :=
      fun x hx => hlab x (List.mem_cons_of_mem _ hx)
    obtain ⟨l', req', h, he⟩ := ih hlab'
    unfold mpls_singlepath_loop
    cases hn : a.nexthop with
    | none =>
      simp only [h]
      exact ⟨_, _, rfl, he⟩
    | some nexthop =>
      simp only
      by_cases hc : mpls_nhlfe_chosen cmd a nexthop = true
      · rw [if_pos hc]
        obtain ⟨r, hb⟩ := mpls_build_singlepath_ok a nexthop hn
          (hlab a (List.mem_cons_self _ _)) req hf cmd
        simp only [hb]
        refine ⟨_, _, rfl, ?_⟩
        unfold _netlink_mpls_build_singlepath at hb
        rw [hn] at hb
        exact singlepath_extends_any _ _ _ _ _ hb
      · rw [if_neg hc]
        simp only [h]
        exact ⟨_, _, rfl, he⟩

theorem mpls_req_base_attrs (cmd : Nat) (lsp : Lsp) :
    (mpls_req_base cmd lsp).attrs =
      [.rta ⟨RTA_DST, .leaf (.lse [some (mpls_lse_encode lsp.in_label 0 0 1)])⟩] := by
  unfold mpls_req_base
  simp [addattr]

theorem mpls_req_base_r (cmd : Nat) (lsp : Lsp) :
    (mpls_req_base cmd lsp).r =
      { rtm_family := AF_MPLS, rtm_dst_len := MPLS_LABEL_LEN_BITS, rtm_table := RT_TABLE_MAIN,
        rtm_protocol := RTPROT_ZEBRA, rtm_scope := RT_SCOPE_UNIVERSE, rtm_type := RTN_UNICAST,
        rtm_flags := 0 } := by
  unfold mpls_req_base
  simp [addattr]

theorem mpls_lse_encode_or (label : Nat) :
    mpls_lse_encode label 0 0 1 = (label * 4096 + 256) % 2 ^ 32 := by
  unfold mpls_lse_encode
  have h1 : (label <<< 12 ||| 0 <<< 9 ||| (if (1 : Nat) ≠ 0 then 1 <<< 8 else 0) ||| 0) =
      2 ^ 12 * label ||| 256 := by
    simp [Nat.shiftLeft_eq, Nat.mul_comm]
  rw [h1, ← Nat.mul_add_lt_is_or (by norm_num : 256 < 2 ^ 12)]
  congr 1
  omega

theorem lse_bos_encode (label : Nat) : lse_bos (mpls_lse_encode label 0 0 1) = 1 := by
  rw [mpls_lse_encode_or]
  unfold lse_bos
  rw [Nat.shiftRight_eq_div_pow]
  norm_num
  omega

theorem lse_fields_encode (label : Nat) (h : label < 2 ^ 20) :
    lse_label (mpls_lse_encode label 0 0 1) = label ∧
    lse_tc (mpls_lse_encode label 0 0 1) = 0 ∧
    lse_ttl (mpls_lse_encode label 0 0 1) = 0 := by
  rw [mpls_lse_encode_or]
  unfold lse_label lse_tc lse_ttl
  rw [Nat.shiftRight_eq_div_pow, Nat.shiftRight_eq_div_pow]
  norm_num at h ⊢
  omega

theorem label_attrs_single (L : Nat) (hL : L ≠ MPLS_IMP_NULL_LABEL) :
    label_attrs AF_MPLS (some [L]) =
      [⟨RTA_NEWDST, .leaf (.lse [some (mpls_lse_encode L 0 0 1)])⟩] := by
  have hloop : label_loop [L] = ([some (mpls_lse_encode L 0 0 1)], 1) := by
    simp [label_loop, label_loop_body, List.range_succ, hL]
  simp [label_attrs, out_lse_payload, hloop]

/-- On an MPLS request the singlepath builder encodes an IPv4 gateway nexthop
with one out-label other than implicit-null as RTA_NEWDST and RTA_VIA,
followed only by RTA_PREFSRC and RTA_OIF attributes. -/
theorem mpls_build_ipv4 (nexthop : Nexthop) (req : Req) (L : Nat)
    (hf : req.r.rtm_family = AF_MPLS)
    (htype : nexthop.type = .IPV4 ∨ nexthop.type = .IPV4_IFINDEX)
    (hlabel : nexthop.nh_label = some [L]) (hL : L ≠ MPLS_IMP_NULL_LABEL) :
    ∃ req', _netlink_route_build_singlepath 4 nexthop req RTM_NEWROUTE = .ok req' ∧
      Extends [RTA_PREFSRC, RTA_OIF]
        { req with
          r := { req.r with rtm_flags := req'.r.rtm_flags },
          attrs := req.attrs ++
            [.rta ⟨RTA_NEWDST, .leaf (.lse [some (mpls_lse_encode L 0 0 1)])⟩,
             .rta ⟨RTA_VIA, .leaf (.via AF_INET (nexthop.gate.take 4))⟩] } req' := by
  unfold _netlink_route_build_singlepath
  have h1 : ¬ (req.r.rtm_family = AF_INET ∧
      (nexthop.type = .IPV6 ∨ nexthop.type = .IPV6_IFINDEX)) := by
    rw [hf]; rintro ⟨h, -⟩; exact absurd h (by decide)
  have ha : label_assert req.r.rtm_family nexthop.nh_label = .ok () := by
    rw [hf, hlabel]; rfl
  rw [if_neg h1, ha]
  refine ⟨_, rfl, ?_⟩
  have h6 : ¬ (nexthop.type = .IPV6 ∨ nexthop.type = .IPV6_IFINDEX) := by
    rcases htype with h | h <;> rw [h] <;> decide
  have h66 : ¬ nexthop.type = .IPV6_IFINDEX := fun h => h6 (Or.inr h)
  have hlab : singlepath_labels nexthop req =
      { req with attrs := req.attrs ++
          [.rta ⟨RTA_NEWDST, .leaf (.lse [some (mpls_lse_encode L 0 0 1)])⟩] } := by
    unfold singlepath_labels
    rw [hf, hlabel, label_attrs_single L hL]
    rfl
  have hfam' : (singlepath_onlink nexthop (singlepath_labels nexthop req)).r.rtm_family =
      AF_MPLS := by
    unfold singlepath_onlink
    split_ifs <;> simp [set_rtm_onlink, singlepath_labels, hf]
  have hattrs' : (singlepath_onlink nexthop (singlepath_labels nexthop req)).attrs =
      req.attrs ++ [.rta ⟨RTA_NEWDST, .leaf (.lse [some (mpls_lse_encode L 0 0 1)])⟩] := by
    rw [hlab]
    unfold singlepath_onlink
    split_ifs <;> simp [set_rtm_onlink]
  have hn' : (singlepath_onlink nexthop (singlepath_labels nexthop req)).n = req.n := by
    unfold singlepath_onlink
    split_ifs <;> simp [set_rtm_onlink, singlepath_labels]
  have hr' : (singlepath_onlink nexthop (singlepath_labels nexthop req)).r =
      { req.r with rtm_flags :=
          (singlepath_onlink nexthop (singlepath_labels nexthop req)).r.rtm_flags } := by
    unfold singlepath_onlink
    split_ifs <;> simp [set_rtm_onlink, singlepath_labels]
  generalize singlepath_onlink nexthop (singlepath_labels nexthop req) = q at hfam' hattrs' hn' hr'
  have hgw : _netlink_route_nl_add_gateway_info q.r.rtm_family AF_INET q 4 nexthop =
      { q with attrs := req.attrs ++
        [.rta ⟨RTA_NEWDST, .leaf (.lse [some (mpls_lse_encode L 0 0 1)])⟩,
         .rta ⟨RTA_VIA, .leaf (.via AF_INET (nexthop.gate.take 4))⟩] } := by
    unfold _netlink_route_nl_add_gateway_info gateway_info
    rw [hfam', hattrs']
    simp
  have e4 : Extends [RTA_PREFSRC, RTA_OIF]
      (_netlink_route_nl_add_gateway_info q.r.rtm_family AF_INET q 4 nexthop)
      (singlepath_ipv4 4 nexthop RTM_NEWROUTE q) := by
    unfold singlepath_ipv4
    simp only [htype, if_true, ne_eq, show ¬ RTM_NEWROUTE = RTM_DELROUTE by decide,
      not_false_eq_true]
    exact extends_prefsrc_v4 _ _ _ (by simp)
  have e6 : singlepath_ipv6 4 nexthop RTM_NEWROUTE (singlepath_ipv4 4 nexthop RTM_NEWROUTE q) =
      singlepath_ipv4 4 nexthop RTM_NEWROUTE q := by
    unfold singlepath_ipv6
    rw [if_neg h6]
  have eo : Extends [RTA_PREFSRC, RTA_OIF] (singlepath_ipv4 4 nexthop RTM_NEWROUTE q)
      (singlepath_oif 4 nexthop RTM_NEWROUTE (singlepath_ipv4 4 nexthop RTM_NEWROUTE q)) := by
    unfold singlepath_oif
    simp only
    split_ifs
    · exact (extends_addattr32 _ _ _ (by simp)).trans (extends_prefsrc_v4 _ _ _ (by simp))
    · exact Extends.refl _ _
  have eo6 : ∀ x, singlepath_oif6 4 nexthop RTM_NEWROUTE x = x := by
    intro x
    unfold singlepath_oif6
    rw [if_neg h66]
  rw [eo6, e6]
  have e := e4.trans eo
  rw [hgw] at e
  obtain ⟨en, er, extra, eattrs, etypes⟩ := e
  refine ⟨?_, ?_, extra, eattrs, etypes⟩
  · rw [en]; exact hn'
  · rw [er]
    simp only
    rw [hr']

/-! ## C11 -/

/-- C11: a route notification with the CLONED flag, or of protocol REDIRECT or
KERNEL, or an RTM_NEWROUTE whose protocol id is self-owned per `is_selfroute`,
makes `netlink_route_change_read_unicast` return 0 without any call of
`rib_add`, `rib_add_multipath` or `rib_delete`. -/
theorem filtered_notification_leaves_rib (vrfs : List (Option ZebraVrf))
    (valid main : Nat → Bool) (fuel : Nat) (msg : RouteMsg)
    (h : msg.rtm.rtm_flags &&& RTM_F_CLONED ≠ 0 ∨ msg.rtm.rtm_protocol = RTPROT_REDIRECT ∨
      msg.rtm.rtm_protocol = RTPROT_KERNEL ∨
      (msg.h.nlmsg_type = RTM_NEWROUTE ∧ is_selfroute msg.rtm.rtm_protocol = 1)) :
    netlink_route_change_read_unicast vrfs valid main fuel msg = some ([], 0) := by
  unfold netlink_route_change_read_unicast
  by_cases h1 : msg.rtm.rtm_flags &&& RTM_F_CLONED ≠ 0
  · rw [if_pos h1]
  rw [if_neg h1]
  by_cases h2 : msg.rtm.rtm_protocol = RTPROT_REDIRECT
  · rw [if_pos h2]
  rw [if_neg h2]
  by_cases h3 : msg.rtm.rtm_protocol = RTPROT_KERNEL
  · rw [if_pos h3]
  rw [if_neg h3]
  rcases h with h | h | h | ⟨ha, hb⟩
  · exact absurd h h1
  · exact absurd h h2
  · exact absurd h h3
  · rw [if_pos ⟨by rw [hb]; decide, ha⟩]

theorem filtered_notification_leaves_rib_witness :
    (ex_msg_new_static.h.nlmsg_type = RTM_NEWROUTE ∧
      is_selfroute ex_msg_new_static.rtm.rtm_protocol = 1) ∧
    netlink_route_change_read_unicast ex_vrfs ex_valid ex_main 10 ex_msg_new_static =
      some ([], 0) :=
  ⟨by decide,
    filtered_notification_leaves_rib ex_vrfs ex_valid ex_main 10 ex_msg_new_static
      (Or.inr (Or.inr (Or.inr (by decide))))⟩

/-! ## C12 -/

/-- C12: an accepted RTM_DELROUTE notification of family AF_INET or AF_INET6 makes
`netlink_route_change_read_unicast` call `rib_delete` exactly once and nothing
else, with origin ZEBRA_ROUTE_KERNEL, the prefix, gateway, ifindex and table of
the message, the VRF of the table, and the flag SELFROUTE exactly when
`is_selfroute` of the message's protocol id is 1. -/
theorem delete_notification_calls_rib_delete (vrfs : List (Option ZebraVrf))
    (valid main : Nat → Bool) (fuel : Nat) (msg : RouteMsg)
    (hacc : accepted vrfs valid main msg) (hdel : msg.h.nlmsg_type = RTM_DELROUTE)
    (hfam : msg.rtm.rtm_family = AF_INET ∨ msg.rtm.rtm_family = AF_INET6) :
    netlink_route_change_read_unicast vrfs valid main fuel msg =
      some ([.rib_delete (afi_of msg.rtm.rtm_family) SAFI_UNICAST
          (vrf_lookup_by_table vrfs (route_table msg)) ZEBRA_ROUTE_KERNEL 0
          ⟨decide (is_selfroute msg.rtm.rtm_protocol = 1)⟩
          ⟨msg.rtm.rtm_family, msg.rtm.rtm_dst_len,
            (route_dest msg).take (bytelen_of msg.rtm.rtm_family)⟩
          msg.tb.RTA_GATEWAY (msg.tb.RTA_OIF.getD 0) (route_table msg)], 0) := by
  have hne : msg.h.nlmsg_type ≠ RTM_NEWROUTE := by rw [hdel]; decide
  rw [read_unicast_of_passes vrfs valid main fuel msg hacc.1, if_pos hacc.2,
    rib_calls_delete fuel msg _ _ _ hne hfam]
  have : decide (is_selfroute msg.rtm.rtm_protocol ≠ 0) =
      decide (is_selfroute msg.rtm.rtm_protocol = 1) := by
    rw [decide_eq_decide]; exact is_selfroute_ne_zero_iff _
  rw [this]
  rfl

theorem delete_notification_calls_rib_delete_witness :
    accepted ex_vrfs ex_valid ex_main ex_msg_del ∧ ex_msg_del.h.nlmsg_type = RTM_DELROUTE ∧
    (ex_msg_del.rtm.rtm_family = AF_INET ∨ ex_msg_del.rtm.rtm_family = AF_INET6) ∧
    netlink_route_change_read_unicast ex_vrfs ex_valid ex_main 10 ex_msg_del =
      some ([.rib_delete AFI_IP SAFI_UNICAST VRF_DEFAULT ZEBRA_ROUTE_KERNEL 0 ⟨true⟩
          ⟨AF_INET, 8, [10, 0, 0, 0]⟩ (some [192, 0, 2, 1]) 2 254], 0) :=
  ⟨by decide, by decide, by decide,
    delete_notification_calls_rib_delete ex_vrfs ex_valid ex_main 10 ex_msg_del
      (by decide) (by decide) (by decide)⟩

/-! ## C13 -/

/-- C13, as amended: for an accepted RTM_NEWROUTE notification (so its protocol id
is not self-owned): if the family is AF_INET and RTA_MULTIPATH holds a
non-empty sequence of well-formed records, the route is submitted by one call
of `rib_add_multipath` with a kernel-origin entry that holds one nexthop per
record in record order (gateway+ifindex, gateway only, or ifindex only); if the
family is AF_INET and there is no RTA_MULTIPATH, it is submitted by one call of
`rib_add`; if the family is AF_INET6 it is submitted by one call of `rib_add`
whether or not the message has RTA_MULTIPATH. -/
theorem multipath_notification (vrfs : List (Option ZebraVrf))
    (valid main : Nat → Bool) (fuel : Nat) (msg : RouteMsg)
    (hacc : accepted vrfs valid main msg) (hnew : msg.h.nlmsg_type = RTM_NEWROUTE) :
    (msg.rtm.rtm_family = AF_INET →
      ∀ records, msg.tb.RTA_MULTIPATH = some (multipath_layout records) → records ≠ [] →
        (∀ r ∈ records, sizeof_rtnexthop ≤ r.rtnh_len) → records.length < fuel →
        netlink_route_change_read_unicast vrfs valid main fuel msg =
          some ([.rib_add_multipath AFI_IP SAFI_UNICAST
            ⟨AF_INET, msg.rtm.rtm_dst_len, (route_dest msg).take 4⟩
            ⟨ZEBRA_ROUTE_KERNEL, 0, ⟨false⟩, msg.tb.RTA_PRIORITY.getD 0, route_mtu msg,
              vrf_lookup_by_table vrfs (route_table msg), route_table msg,
              records.map (fun r => rtnh_nexthop r msg.tb.RTA_PREFSRC)⟩], 0)) ∧
    (msg.rtm.rtm_family = AF_INET → msg.tb.RTA_MULTIPATH.isNone = true →
      netlink_route_change_read_unicast vrfs valid main fuel msg =
        some ([.rib_add AFI_IP SAFI_UNICAST (vrf_lookup_by_table vrfs (route_table msg))
          ZEBRA_ROUTE_KERNEL 0 ⟨false⟩ ⟨AF_INET, msg.rtm.rtm_dst_len, (route_dest msg).take 4⟩
          msg.tb.RTA_GATEWAY msg.tb.RTA_PREFSRC (msg.tb.RTA_OIF.getD 0) (route_table msg)
          (msg.tb.RTA_PRIORITY.getD 0) (route_mtu msg) 0], 0)) ∧
    (msg.rtm.rtm_family = AF_INET6 →
      netlink_route_change_read_unicast vrfs valid main fuel msg =
        some ([.rib_add AFI_IP6 SAFI_UNICAST (vrf_lookup_by_table vrfs (route_table msg))
          ZEBRA_ROUTE_KERNEL 0 ⟨false⟩ ⟨AF_INET6, msg.rtm.rtm_dst_len, (route_dest msg).take 16⟩
          msg.tb.RTA_GATEWAY msg.tb.RTA_PREFSRC (msg.tb.RTA_OIF.getD 0) (route_table msg)
          (msg.tb.RTA_PRIORITY.getD 0) (route_mtu msg) 0], 0)) := by
  have hbase := read_unicast_of_passes vrfs valid main fuel msg hacc.1
  rw [if_pos hacc.2] at hbase
  refine ⟨?_, ?_, ?_⟩
  · intro h4 records hm hne hwf hfuel
    have h6 : ¬ msg.rtm.rtm_family = AF_INET6 := by rw [h4]; decide
    have hw := rtnh_walk_layout (multipath_layout records) msg.tb.RTA_PREFSRC records hwf fuel 0 []
      hfuel (fun k => by simp [multipath_layout])
    have hz : ¬ (records.map (fun r => rtnh_nexthop r msg.tb.RTA_PREFSRC)).length = 0 := by
      simpa using hne
    rw [hbase]
    unfold route_change_rib_calls
    simp only [h4, h6, hnew, if_true, if_false, hm]
    have hw' : rtnh_walk (multipath_layout records) msg.tb.RTA_PREFSRC fuel 0
        (multipath_layout records).len [] =
        some (records.map (fun r => rtnh_nexthop r msg.tb.RTA_PREFSRC)) := by
      simpa [multipath_layout] using hw
    rw [hw']
    simp only [if_neg hz]
    rfl
  · intro h4 hm
    have h6 : ¬ msg.rtm.rtm_family = AF_INET6 := by rw [h4]; decide
    have hm' : msg.tb.RTA_MULTIPATH = none := by simpa using hm
    rw [hbase]
    unfold route_change_rib_calls
    simp only [h4, h6, hnew, if_true, if_false, hm']
    rfl
  · intro h6
    have h4 : ¬ msg.rtm.rtm_family = AF_INET := by rw [h6]; decide
    rw [hbase]
    unfold route_change_rib_calls
    simp only [h4, h6, hnew, if_true, if_false]
    rfl

theorem multipath_notification_witness :
    accepted ex_vrfs ex_valid ex_main ex_msg_multipath ∧
    ex_msg_multipath.h.nlmsg_type = RTM_NEWROUTE ∧
    netlink_route_change_read_unicast ex_vrfs ex_valid ex_main 10 ex_msg_multipath =
      some ([.rib_add_multipath AFI_IP SAFI_UNICAST ⟨AF_INET, 8, [10, 0, 0, 0]⟩
        ⟨ZEBRA_ROUTE_KERNEL, 0, ⟨false⟩, 100, 0, 5, 1001,
          [.ipv4_ifindex [192, 0, 2, 1] none 2, .ipv4 [198, 51, 100, 1] none]⟩], 0) :=
  ⟨by decide, by decide,
    (multipath_notification ex_vrfs ex_valid ex_main 10 ex_msg_multipath (by decide)
      (by decide)).1 (by decide) ex_records rfl (by decide) (by decide) (by decide)⟩

/-- C13, counterexample to the claim as stated: an accepted external
RTM_NEWROUTE of family AF_INET6 that carries an RTA_MULTIPATH with one
well-formed record is submitted through `rib_add`, with the gateway and
ifindex of the top-level attributes (none here), and `rib_add_multipath` is
not called. -/
theorem inet6_multipath_uses_rib_add :
    accepted ex_vrfs ex_valid ex_main ex_msg_multipath6 ∧
    ex_msg_multipath6.h.nlmsg_type = RTM_NEWROUTE ∧
    is_selfroute ex_msg_multipath6.rtm.rtm_protocol = 0 ∧
    ex_msg_multipath6.tb.RTA_MULTIPATH.isSome = true ∧
    netlink_route_change_read_unicast ex_vrfs ex_valid ex_main 10 ex_msg_multipath6 =
      some ([.rib_add AFI_IP6 SAFI_UNICAST VRF_DEFAULT ZEBRA_ROUTE_KERNEL 0 ⟨false⟩
        ⟨AF_INET6, 32, [32, 1, 13, 184, 0, 0, 0, 0, 0, 0, 0, 0, 0, 0, 0, 0]⟩
        none none 0 254 0 0 0], 0) :=
  ⟨by decide, by decide, by decide, by decide, by decide⟩

/-! ## C14 -/

/-- C14: for a route notification that passes the earlier filters,
`netlink_route_change_read_unicast` takes the table id from RTA_TABLE when
present and from `rtm_table` otherwise. If the VRF lookup of that table gives
a non-default VRF (a VRF registered with the table), or the table is the main
table or an allowed kernel table, the message is processed with that VRF
(the default VRF in the last two cases) and table in every call into the RIB;
otherwise it is discarded with no call and result 0. When each table id
belongs to one VRF id, the lookup gives a non-default VRF exactly when the
table is registered to one. -/
theorem table_selects_vrf (vrfs : List (Option ZebraVrf))
    (valid main : Nat → Bool) (fuel : Nat) (msg : RouteMsg) (hpass : passes_filters msg) :
    (∀ t, msg.tb.RTA_TABLE = some t → route_table msg = t) ∧
    (msg.tb.RTA_TABLE = none → route_table msg = msg.rtm.rtm_table) ∧
    (table_processed vrfs valid main (route_table msg) =
      (decide (vrf_lookup_by_table vrfs (route_table msg) ≠ VRF_DEFAULT) ||
        main (route_table msg) || valid (route_table msg))) ∧
    (table_processed vrfs valid main (route_table msg) = true →
      netlink_route_change_read_unicast vrfs valid main fuel msg =
        (route_change_rib_calls fuel msg (vrf_lookup_by_table vrfs (route_table msg))
          (route_table msg) ⟨decide (is_selfroute msg.rtm.rtm_protocol ≠ 0)⟩).map
          (fun calls => (calls, 0)) ∧
      (vrf_lookup_by_table vrfs (route_table msg) ≠ VRF_DEFAULT →
        registered vrfs (route_table msg) (vrf_lookup_by_table vrfs (route_table msg))) ∧
      ∀ calls ret, netlink_route_change_read_unicast vrfs valid main fuel msg =
          some (calls, ret) →
        ∀ c ∈ calls, c.vrf = vrf_lookup_by_table vrfs (route_table msg) ∧
          c.table = route_table msg) ∧
    (table_processed vrfs valid main (route_table msg) = false →
      netlink_route_change_read_unicast vrfs valid main fuel msg = some ([], 0)) ∧
    ((∀ z1 z2, some z1 ∈ vrfs → some z2 ∈ vrfs → z1.table_id = z2.table_id →
        z1.vrf_id = z2.vrf_id) →
      (vrf_lookup_by_table vrfs (route_table msg) ≠ VRF_DEFAULT ↔
        ∃ v, v ≠ VRF_DEFAULT ∧ registered vrfs (route_table msg) v)) := by
  have hbase := read_unicast_of_passes vrfs valid main fuel msg hpass
  refine ⟨?_, ?_, rfl, ?_, ?_, ?_⟩
  · intro t ht; simp [route_table, ht]
  · intro ht; simp [route_table, ht]
  · intro hp
    rw [if_pos hp] at hbase
    refine ⟨hbase, registered_of_lookup vrfs _, ?_⟩
    intro calls ret hres
    rw [hbase] at hres
    cases hc : route_change_rib_calls fuel msg (vrf_lookup_by_table vrfs (route_table msg))
        (route_table msg) ⟨decide (is_selfroute msg.rtm.rtm_protocol ≠ 0)⟩ with
    | none => rw [hc] at hres; simp at hres
    | some cs =>
      rw [hc] at hres
      simp only [Option.map_some', Option.some.injEq, Prod.mk.injEq] at hres
      rw [← hres.1]
      exact rib_calls_vrf_table fuel msg _ _ _ cs hc
  · intro hp
    rw [if_neg (by simp [hp])] at hbase
    exact hbase
  · intro huniq
    constructor
    · intro h
      exact ⟨_, h, registered_of_lookup vrfs _ h⟩
    · rintro ⟨v, hv, hreg⟩
      rw [lookup_of_registered vrfs _ v huniq hreg]
      exact hv

theorem table_selects_vrf_witness :
    passes_filters ex_msg_multipath ∧
    route_table ex_msg_multipath = 1001 ∧
    vrf_lookup_by_table ex_vrfs 1001 = 5 ∧
    (∀ calls ret, netlink_route_change_read_unicast ex_vrfs ex_valid ex_main 10
        ex_msg_multipath = some (calls, ret) →
      ∀ c ∈ calls, c.vrf = 5 ∧ c.table = 1001) ∧
    netlink_route_change_read_unicast ex_vrfs ex_valid ex_main 10
      { ex_msg_multipath with tb := { ex_msg_multipath.tb with RTA_TABLE := some 77 } } =
      some ([], 0) :=
  ⟨by decide, by decide, by decide,
    ((table_selects_vrf ex_vrfs ex_valid ex_main 10 ex_msg_multipath (by decide)).2.2.2.1
      (by decide)).2.2,
    (table_selects_vrf ex_vrfs ex_valid ex_main 10
      { ex_msg_multipath with tb := { ex_msg_multipath.tb with RTA_TABLE := some 77 } }
      (by decide)).2.2.2.2.1 (by decide)⟩

/-! ## C15 -/

/-- C15, the divergence: with both `old` and `new` absent `kernel_route_rib`
is not a no-op. Neither of its two tests holds, so it calls
`netlink_route_multipath (RTM_NEWROUTE, p, new, 1)` with the NULL `new`, which
reads `rib->vrf_id` before anything else: the call faults on a NULL
dereference instead of returning 0. -/
theorem kernel_route_rib_both_null (multipath_num : Nat) (netlink_talk : Req → Int)
    (p : Prefix) :
    kernel_route_rib multipath_num netlink_talk p none none = .error .null_deref ∧
    ∀ out, kernel_route_rib multipath_num netlink_talk p none none ≠ .ok out := by
  refine ⟨rfl, ?_⟩
  intro out h
  cases h

/-! ## C16 -/

/-- C16, as amended: for every prefix p that is not of family MPLS and every
route entry A, with `multipath_num` not 0, `kernel_route_rib (p, A, A)` is the
call `netlink_route_multipath (RTM_NEWROUTE, p, A, 1)`: it builds an
RTM_NEWROUTE request with header flags CREATE|REQUEST|REPLACE and hands it to
`netlink_talk`, whose result it returns, exactly when A has the BLACKHOLE or
the REJECT flag or at least one candidate nexthop; it sends nothing and
returns 0 only when A is not a discard entry and has no candidate nexthop. -/
theorem same_entry_install_sends_replace (multipath_num : Nat) (netlink_talk : Req → Int)
    (p : Prefix) (A : Rib) (hfam : p.family ≠ AF_MPLS) (hmp : multipath_num ≠ 0) :
    kernel_route_rib multipath_num netlink_talk p (some A) (some A) =
      netlink_route_multipath multipath_num netlink_talk RTM_NEWROUTE p A 1 ∧
    ∃ out, kernel_route_rib multipath_num netlink_talk p (some A) (some A) = .ok out ∧
      out.req.n = ⟨RTM_NEWROUTE, (NLM_F_CREATE ||| NLM_F_REQUEST) ||| NLM_F_REPLACE⟩ ∧
      (out.talk = true ↔
        ((A.flags.BLACKHOLE || A.flags.REJECT) = true ∨ candidates RTM_NEWROUTE A ≠ [])) ∧
      (out.talk = true → out.ret = netlink_talk out.req) ∧
      (out.talk = false → out.ret = 0) := by
  refine ⟨rfl, ?_⟩
  show ∃ out, netlink_route_multipath multipath_num netlink_talk RTM_NEWROUTE p A 1 = .ok out ∧ _
  obtain ⟨out, h, he⟩ :=
    netlink_route_multipath_extends multipath_num netlink_talk RTM_NEWROUTE p A 1 hfam
  have hret := netlink_route_multipath_ret _ _ _ _ _ _ out h
  refine ⟨out, h, ?_, ?_, hret.1, hret.2⟩
  · rw [he.1, route_req_base_n]
    simp
  · by_cases hd : (A.flags.BLACKHOLE || A.flags.REJECT) = true
    · rw [netlink_route_multipath_discard _ _ _ _ _ _ hd] at h
      cases h
      simp [hd]
    have hd' : (A.flags.BLACKHOLE || A.flags.REJECT) = false := by simpa using hd
    rcases hc : candidates RTM_NEWROUTE A with _ | ⟨c, rest⟩
    · have hnone : (ALL_NEXTHOPS_RO A.nexthop).filter (is_candidate RTM_NEWROUTE) = [] := hc
      have : out.talk = false := by
        by_cases hs : count_nexthops RTM_NEWROUTE (ALL_NEXTHOPS_RO A.nexthop) = 1 ∨
            multipath_num = 1
        · obtain ⟨b, s, hl⟩ := singlepath_loop_none RTM_NEWROUTE p.family (bytelen_of p.family)
            (ALL_NEXTHOPS_RO A.nexthop) ⟨route_req_base RTM_NEWROUTE p A 1, false, [], 0⟩ hnone
          rw [netlink_route_multipath_single _ _ _ _ _ _ hd' hs _ hl] at h
          cases h
          simp
        · obtain ⟨b, s, hl⟩ := multipath_loop_none multipath_num RTM_NEWROUTE p.family
            (bytelen_of p.family) (route_req_base RTM_NEWROUTE p A 1).r
            (ALL_NEXTHOPS_RO A.nexthop) ⟨[], none, [], false, [], 0⟩ hnone
          rw [netlink_route_multipath_multi _ _ _ _ _ _ hd' hs _ hl] at h
          cases h
          simp
      simp [this, hd']
    · have : out.talk = true := by
        by_cases hs : count_nexthops RTM_NEWROUTE (ALL_NEXTHOPS_RO A.nexthop) = 1 ∨
            multipath_num = 1
        · obtain ⟨out', -, h', ht, -⟩ := netlink_route_multipath_single_first multipath_num
            netlink_talk RTM_NEWROUTE p A 1 hfam hd' hs c rest hc
          rw [h] at h'
          cases h'
          exact ht
        · obtain ⟨out', -, -, h', ht, -⟩ := netlink_route_multipath_multi_records multipath_num
            netlink_talk RTM_NEWROUTE p A 1 hfam hd' hs (by rw [hc]; simp) hmp
          rw [h] at h'
          cases h'
          exact ht
      simp [this]

theorem same_entry_install_sends_replace_witness :
    ex_p.family ≠ AF_MPLS ∧ (64 : Nat) ≠ 0 ∧
    ∃ out, kernel_route_rib 64 ex_talk ex_p (some ex_rib3) (some ex_rib3) = .ok out ∧
      out.req.n = ⟨RTM_NEWROUTE, (NLM_F_CREATE ||| NLM_F_REQUEST) ||| NLM_F_REPLACE⟩ ∧
      (out.talk = true ↔
        ((ex_rib3.flags.BLACKHOLE || ex_rib3.flags.REJECT) = true ∨
          candidates RTM_NEWROUTE ex_rib3 ≠ [])) ∧
      (out.talk = true → out.ret = ex_talk out.req) ∧
      (out.talk = false → out.ret = 0) :=
  ⟨by decide, by decide,
    (same_entry_install_sends_replace 64 ex_talk ex_p ex_rib3 (by decide) (by decide)).2⟩

/-- C16, counterexample to the claim as stated: installing the static entry
`ex_rib1` (one ACTIVE IPv4 gateway nexthop) over itself hands a request to
`netlink_talk`: an RTM_NEWROUTE with header flags CREATE|REQUEST|REPLACE that
carries RTA_DST, RTA_PRIORITY and RTA_GATEWAY. -/
theorem same_entry_install_is_sent :
    ∃ out, kernel_route_rib 64 ex_talk ex_p (some ex_rib1) (some ex_rib1) = .ok out ∧
      out.talk = true ∧
      out.req.n = ⟨RTM_NEWROUTE, 0x501⟩ ∧
      out.req.attrs.map NlAttr.type = [RTA_DST, RTA_PRIORITY, RTA_GATEWAY] :=
  ⟨_, rfl, by decide, by decide, by decide⟩

/-! ## C17 -/

/-- C17: for every command, route entry and value of `multipath_num` (prefix
not of family MPLS), `netlink_route_multipath` returns and every RTA_MULTIPATH
attribute of its request holds at most `multipath_num` nexthop records; and
for every LSP whose NHLFE label stacks pass the builders' assertions,
`netlink_mpls_multipath` returns and every RTA_MULTIPATH attribute of the
request it sends holds at most `multipath_num` nexthop records. -/
theorem multipath_record_bound (multipath_num : Nat) (netlink_talk : Req → Int) (cmd : Nat)
    (p : Prefix) (rib : Rib) (update : Nat) (lsp : Lsp) (hfam : p.family ≠ AF_MPLS)
    (hlab : ∀ nhlfe ∈ lsp.nhlfe_list, mpls_label_ok nhlfe = true) :
    (∃ out, netlink_route_multipath multipath_num netlink_talk cmd p rib update = .ok out ∧
      ∀ records, NlAttr.multipath records ∈ out.req.attrs →
        records.length ≤ multipath_num) ∧
    (∃ out, netlink_mpls_multipath multipath_num netlink_talk cmd lsp = .ok out ∧
      ∀ req, out.sent = some req → ∀ records, NlAttr.multipath records ∈ req.attrs →
        records.length ≤ multipath_num) := by
  have hbf : (route_req_base cmd p rib update).r.rtm_family ≠ AF_MPLS := by
    rw [route_req_base_r]; exact hfam
  have hbase : ∀ a ∈ (route_req_base cmd p rib update).attrs, a.type ≠ RTA_MULTIPATH := by
    intro a ha
    obtain ⟨x, rfl, hx⟩ := route_req_base_attr_types cmd p rib update a ha
    simp only [List.mem_cons, List.mem_singleton, List.not_mem_nil, or_false] at hx
    rcases hx with h | h | h | h <;> simp [NlAttr.type, h]
  constructor
  · by_cases hd : (rib.flags.BLACKHOLE || rib.flags.REJECT) = true
    · refine ⟨_, netlink_route_multipath_discard _ _ _ _ _ _ hd, ?_⟩
      intro records hm
      exact absurd rfl (hbase _ hm)
    have hd' : (rib.flags.BLACKHOLE || rib.flags.REJECT) = false := by simpa using hd
    by_cases hs : count_nexthops cmd (ALL_NEXTHOPS_RO rib.nexthop) = 1 ∨ multipath_num = 1
    · obtain ⟨st, hl, he⟩ := singlepath_loop_extends cmd p.family (bytelen_of p.family)
        (ALL_NEXTHOPS_RO rib.nexthop) ⟨route_req_base cmd p rib update, false, [], 0⟩ hbf
      refine ⟨_, netlink_route_multipath_single _ _ _ _ _ _ hd' hs st hl, ?_⟩
      intro records hm
      have := no_multipath_of_types _ _
        (he.trans (extends_add_setsrc _ cmd p.family (bytelen_of p.family) st.setsrc st.src
          (by simp))) (by decide) hbase _ hm
      exact absurd rfl this
    · obtain ⟨st, hl, enc, new, -, h3, -, h5, -, -⟩ := multipath_loop_spec multipath_num cmd
        p.family (bytelen_of p.family) (route_req_base cmd p rib update).r hbf
        (ALL_NEXTHOPS_RO rib.nexthop) ⟨[], none, [], false, [], 0⟩
      have hb := multipath_loop_bound multipath_num cmd p.family (bytelen_of p.family)
        (route_req_base cmd p rib update).r hbf (ALL_NEXTHOPS_RO rib.nexthop) _ st hl
      simp only [List.nil_append] at h3
      simp only [Nat.zero_add] at h5
      have hlen : st.rtnh.length ≤ multipath_num := by
        rw [h3, ← h5]
        simpa using hb
      refine ⟨_, netlink_route_multipath_multi _ _ _ _ _ _ hd' hs st hl, ?_⟩
      intro records hm
      have hsrc := no_multipath_of_types _ _
        (@extends_add_setsrc singlepath_types (route_req_base cmd p rib update) cmd p.family
          (bytelen_of p.family) st.setsrc st.src (by simp)) (by decide) hbase
      simp only [multipath_req] at hm
      split_ifs at hm
      · simp only [List.mem_append, List.mem_singleton] at hm
        rcases hm with hm | hm
        · exact absurd rfl (hsrc _ hm)
        · cases hm; exact hlen
      · exact absurd rfl (hsrc _ hm)
  · have hmf : (mpls_req_base cmd lsp).r.rtm_family = AF_MPLS := by rw [mpls_req_base_r]
    have hmbase : ∀ a ∈ (mpls_req_base cmd lsp).attrs, a.type ≠ RTA_MULTIPATH := by
      intro a ha
      rw [mpls_req_base_attrs, List.mem_singleton] at ha
      subst ha
      simp [NlAttr.type]
    unfold netlink_mpls_multipath
    simp only
    by_cases hz : mpls_count_nexthops cmd lsp.nhlfe_list = 0
    · rw [if_pos hz]
      exact ⟨_, rfl, by intro req h; cases h⟩
    rw [if_neg hz]
    by_cases hs : mpls_count_nexthops cmd lsp.nhlfe_list = 1 ∨ multipath_num = 1
    · rw [if_pos hs]
      obtain ⟨l', req', hl, he⟩ := mpls_singlepath_loop_spec cmd lsp.nhlfe_list hlab
        (mpls_req_base cmd lsp) hmf
      simp only [hl]
      refine ⟨_, rfl, ?_⟩
      intro req h records hm
      cases h
      exact absurd rfl (no_multipath_of_types _ _ he (by decide) hmbase _ hm)
    · rw [if_neg hs]
      obtain ⟨l', st', hl, hb, new, h1, h2⟩ := mpls_multipath_loop_spec multipath_num cmd
        (mpls_req_base cmd lsp).r hmf lsp.nhlfe_list hlab ⟨[], none, 0⟩
      simp only [hl]
      refine ⟨_, rfl, ?_⟩
      intro req h records hm
      cases h
      simp only [List.nil_append] at h1
      simp only [Nat.zero_add] at h2
      have hlen : st'.rtnh.length ≤ multipath_num := by
        rw [h1, ← h2]
        simpa using hb
      split_ifs at hm
      · simp only [List.mem_append, List.mem_singleton] at hm
        rcases hm with hm | hm
        · exact absurd rfl (hmbase _ hm)
        · cases hm; exact hlen
      · exact absurd rfl (hmbase _ hm)

theorem multipath_record_bound_witness :
    ex_p.family ≠ AF_MPLS ∧
    (∀ nhlfe ∈ ex_lsp3.nhlfe_list, mpls_label_ok nhlfe = true) ∧
    (∃ out, netlink_route_multipath 2 ex_talk RTM_NEWROUTE ex_p ex_rib3 0 = .ok out ∧
      ∀ records, NlAttr.multipath records ∈ out.req.attrs → records.length ≤ 2) ∧
    (∃ out, netlink_mpls_multipath 2 ex_talk RTM_NEWROUTE ex_lsp3 = .ok out ∧
      ∀ req, out.sent = some req → ∀ records, NlAttr.multipath records ∈ req.attrs →
        records.length ≤ 2) :=
  ⟨by decide, by decide,
    multipath_record_bound 2 ex_talk RTM_NEWROUTE ex_p ex_rib3 0 ex_lsp3 (by decide) (by decide)⟩

/-! ## C18 -/

/-- C18: for every LSP with exactly one NHLFE that is SELECTED with an ACTIVE
IPv4 gateway nexthop (with or without ifindex) carrying one out-label L other
than implicit-null, `netlink_mpls_multipath (RTM_NEWROUTE, lsp)` hands to
`netlink_talk` a request with header flags CREATE|REQUEST|REPLACE, family
AF_MPLS, destination length 20, table main, protocol ZEBRA, scope universe and
type UNICAST, whose attributes are RTA_DST with the entry of the in-label
(BOS 1), RTA_NEWDST with the single entry `mpls_lse_encode (L, 0, 0, 1)`
(BOS 1; label L, TC 0, TTL 0 for a 20-bit L) and RTA_VIA with AF_INET and the
4 gateway bytes, followed only by RTA_PREFSRC and RTA_OIF attributes. -/
theorem mpls_transit_request (multipath_num : Nat) (netlink_talk : Req → Int) (lsp : Lsp)
    (nhlfe : Nhlfe) (nexthop : Nexthop) (L : Nat)
    (hlist : lsp.nhlfe_list = [nhlfe]) (hnh : nhlfe.nexthop = some nexthop)
    (hsel : nhlfe.flags.SELECTED = true) (hact : nexthop.flags.ACTIVE = true)
    (htype : nexthop.type = .IPV4 ∨ nexthop.type = .IPV4_IFINDEX)
    (hlabel : nexthop.nh_label = some [L]) (hL : L ≠ MPLS_IMP_NULL_LABEL) :
    ∃ out req rest,
      netlink_mpls_multipath multipath_num netlink_talk RTM_NEWROUTE lsp = .ok out ∧
      out.sent = some req ∧ out.ret = netlink_talk req ∧
      req.n = ⟨RTM_NEWROUTE, (NLM_F_CREATE ||| NLM_F_REQUEST) ||| NLM_F_REPLACE⟩ ∧
      req.r.rtm_family = AF_MPLS ∧ req.r.rtm_dst_len = 20 ∧
      req.r.rtm_table = RT_TABLE_MAIN ∧ req.r.rtm_protocol = RTPROT_ZEBRA ∧
      req.r.rtm_scope = RT_SCOPE_UNIVERSE ∧ req.r.rtm_type = RTN_UNICAST ∧
      req.attrs =
        [.rta ⟨RTA_DST, .leaf (.lse [some (mpls_lse_encode lsp.in_label 0 0 1)])⟩,
         .rta ⟨RTA_NEWDST, .leaf (.lse [some (mpls_lse_encode L 0 0 1)])⟩,
         .rta ⟨RTA_VIA, .leaf (.via AF_INET (nexthop.gate.take 4))⟩] ++ rest ∧
      (∀ a ∈ rest, a.type = RTA_PREFSRC ∨ a.type = RTA_OIF) ∧
      lse_bos (mpls_lse_encode lsp.in_label 0 0 1) = 1 ∧
      lse_bos (mpls_lse_encode L 0 0 1) = 1 ∧
      (L < 2 ^ 20 → lse_label (mpls_lse_encode L 0 0 1) = L ∧
        lse_tc (mpls_lse_encode L 0 0 1) = 0 ∧ lse_ttl (mpls_lse_encode L 0 0 1) = 0) := by
  have hchosen : mpls_nhlfe_chosen RTM_NEWROUTE nhlfe nexthop = true := by
    simp [mpls_nhlfe_chosen, hsel, hact]
  have hcount : mpls_count_nexthops RTM_NEWROUTE lsp.nhlfe_list = 1 := by
    rw [hlist]
    simp [mpls_count_nexthops, hnh, hsel, hact]
  have hfam : NHLFE_FAMILY nexthop = AF_INET := by
    unfold NHLFE_FAMILY
    rcases htype with h | h <;> rw [h] <;> decide
  obtain ⟨req', hb, he⟩ := mpls_build_ipv4 nexthop (mpls_req_base RTM_NEWROUTE lsp) L
    (by simp [mpls_req_base, addattr]) htype hlabel hL
  have hbuild : _netlink_mpls_build_singlepath nhlfe (mpls_req_base RTM_NEWROUTE lsp)
      RTM_NEWROUTE = .ok req' := by
    unfold _netlink_mpls_build_singlepath
    rw [hnh]
    simp only [hfam, if_true]
    exact hb
  have hloop : mpls_singlepath_loop RTM_NEWROUTE lsp.nhlfe_list
      (mpls_req_base RTM_NEWROUTE lsp) =
      .ok ([mpls_mark RTM_NEWROUTE nhlfe nexthop], req') := by
    rw [hlist]
    unfold mpls_singlepath_loop
    simp only [hnh, hchosen, if_true, hbuild]
  obtain ⟨en, er, rest, eattrs, etypes⟩ := he
  refine ⟨⟨{ lsp with nhlfe_list := [mpls_mark RTM_NEWROUTE nhlfe nexthop] }, some req',
    netlink_talk req'⟩, req', rest, ?_, rfl, rfl, ?_, ?_, ?_, ?_, ?_, ?_, ?_, ?_, ?_,
    lse_bos_encode _, lse_bos_encode _, lse_fields_encode L⟩
  · unfold netlink_mpls_multipath
    simp only [hcount, hloop]
    simp
  · rw [en]; simp [mpls_req_base, addattr]
  · rw [er]; simp [mpls_req_base, addattr]
  · rw [er]; simp [mpls_req_base, addattr]
  · rw [er]; simp [mpls_req_base, addattr]
  · rw [er]; simp [mpls_req_base, addattr]
  · rw [er]; simp [mpls_req_base, addattr]
  · rw [er]; simp [mpls_req_base, addattr]
  · rw [eattrs]; simp [mpls_req_base, addattr]
  · intro a ha
    have := etypes a ha
    simpa using this

theorem mpls_transit_request_witness :
    ex_lsp_transit.nhlfe_list = [ex_nhlfe1] ∧ ex_nhlfe1.nexthop = some ex_nh_200 ∧
    ex_nhlfe1.flags.SELECTED = true ∧ ex_nh_200.flags.ACTIVE = true ∧
    (ex_nh_200.type = .IPV4 ∨ ex_nh_200.type = .IPV4_IFINDEX) ∧
    ex_nh_200.nh_label = some [200] ∧ 200 ≠ MPLS_IMP_NULL_LABEL ∧
    ∃ out req rest,
      netlink_mpls_multipath 64 ex_talk RTM_NEWROUTE ex_lsp_transit = .ok out ∧
      out.sent = some req ∧
      req.n = ⟨RTM_NEWROUTE, (NLM_F_CREATE ||| NLM_F_REQUEST) ||| NLM_F_REPLACE⟩ ∧
      req.r.rtm_family = AF_MPLS ∧
      req.attrs =
        [.rta ⟨RTA_DST, .leaf (.lse [some (mpls_lse_encode 100 0 0 1)])⟩,
         .rta ⟨RTA_NEWDST, .leaf (.lse [some (mpls_lse_encode 200 0 0 1)])⟩,
         .rta ⟨RTA_VIA, .leaf (.via AF_INET [192, 0, 2, 1])⟩] ++ rest ∧
      lse_bos (mpls_lse_encode 200 0 0 1) = 1 ∧
      lse_label (mpls_lse_encode 200 0 0 1) = 200 :=
  ⟨by decide, by decide, by decide, by decide, by decide, by decide, by decide,
    (mpls_transit_request 64 ex_talk ex_lsp_transit ex_nhlfe1 ex_nh_200 200 (by decide)
      (by decide) (by decide) (by decide) (by decide) (by decide) (by decide)).imp
      (fun _ h => h.imp (fun _ h => h.imp (fun _ h =>
        ⟨h.1, h.2.1, h.2.2.2.1, h.2.2.2.2.1, h.2.2.2.2.2.2.2.2.2.2.1,
          h.2.2.2.2.2.2.2.2.2.2.2.2.2.1, (h.2.2.2.2.2.2.2.2.2.2.2.2.2.2 (by decide)).1⟩)))⟩

/-! ## C19 -/

/-- C19: for every command and route entry (prefix not of family MPLS), the
request of `netlink_route_multipath` has an RTA_METRICS attribute if and only
if `rib->mtu` or `rib->nexthop_mtu` is non-zero; it then has exactly one, a
nest of one RTAX_MTU whose 32-bit value is the minimum of the non-zero values
among `rib->mtu` and `rib->nexthop_mtu`. -/
theorem metrics_attribute (multipath_num : Nat) (netlink_talk : Req → Int) (cmd : Nat)
    (p : Prefix) (rib : Rib) (update : Nat) (hfam : p.family ≠ AF_MPLS) :
    ∃ out, netlink_route_multipath multipath_num netlink_talk cmd p rib update = .ok out ∧
      ((∃ a ∈ out.req.attrs, a.type = RTA_METRICS) ↔ (rib.mtu ≠ 0 ∨ rib.nexthop_mtu ≠ 0)) ∧
      out.req.attrs.filter (fun a => a.type == RTA_METRICS) =
        if rib.mtu ≠ 0 ∨ rib.nexthop_mtu ≠ 0 then
          [.rta ⟨RTA_METRICS, .nest [(RTAX_MTU, .u32 (min_nonzero rib.mtu rib.nexthop_mtu))]⟩]
        else [] := by
  obtain ⟨out, h, he⟩ :=
    netlink_route_multipath_extends multipath_num netlink_talk cmd p rib update hfam
  have hf := extends_filter_base cmd p rib update out.req RTA_METRICS he (by decide)
  have hval : (if rib.mtu = 0 ∨ (rib.nexthop_mtu ≠ 0 ∧ rib.nexthop_mtu < rib.mtu)
      then rib.nexthop_mtu else rib.mtu) = min_nonzero rib.mtu rib.nexthop_mtu := by
    unfold min_nonzero
    split_ifs <;> omega
  have hfilter : out.req.attrs.filter (fun a => a.type == RTA_METRICS) =
      if rib.mtu ≠ 0 ∨ rib.nexthop_mtu ≠ 0 then
        [.rta ⟨RTA_METRICS, .nest [(RTAX_MTU, .u32 (min_nonzero rib.mtu rib.nexthop_mtu))]⟩]
      else [] := by
    rw [hf, route_req_base_attrs, hval]
    split_ifs <;> simp [NlAttr.type]
  refine ⟨out, h, ?_, hfilter⟩
  have hiff : (∃ a ∈ out.req.attrs, a.type = RTA_METRICS) ↔
      out.req.attrs.filter (fun a => a.type == RTA_METRICS) ≠ [] := by
    rw [Ne, List.filter_eq_nil_iff]
    simp
  rw [hiff, hfilter]
  split_ifs with hm <;> simp [hm]

theorem metrics_attribute_witness :
    ex_p.family ≠ AF_MPLS ∧
    ∃ out, netlink_route_multipath 64 ex_talk RTM_NEWROUTE ex_p
        { ex_rib3 with mtu := 9000, nexthop_mtu := 1500 } 0 = .ok out ∧
      out.req.attrs.filter (fun a => a.type == RTA_METRICS) =
        [.rta ⟨RTA_METRICS, .nest [(RTAX_MTU, .u32 1500)]⟩] :=
  ⟨by decide,
    (metrics_attribute 64 ex_talk RTM_NEWROUTE ex_p
      { ex_rib3 with mtu := 9000, nexthop_mtu := 1500 } 0 (by decide)).imp
      (fun _ h => ⟨h.1, h.2.2⟩)⟩

/-! ## C20 -/

/-- C20: for every route entry installed with RTM_NEWROUTE, with or without
REPLACE (prefix not of family MPLS), the request that
`netlink_route_multipath` builds has body type RTN_BLACKHOLE when the entry
has the BLACKHOLE flag (also with REJECT set), RTN_UNREACHABLE when it has the
REJECT flag without the BLACKHOLE flag, and RTN_UNICAST when it has neither. -/
theorem route_type_of_flags (multipath_num : Nat) (netlink_talk : Req → Int)
    (p : Prefix) (rib : Rib) (update : Nat) (hfam : p.family ≠ AF_MPLS) :
    ∃ out, netlink_route_multipath multipath_num netlink_talk RTM_NEWROUTE p rib update =
        .ok out ∧
      (rib.flags.BLACKHOLE = true → out.req.r.rtm_type = RTN_BLACKHOLE) ∧
      (rib.flags.BLACKHOLE = false → rib.flags.REJECT = true →
        out.req.r.rtm_type = RTN_UNREACHABLE) ∧
      (rib.flags.BLACKHOLE = false → rib.flags.REJECT = false →
        out.req.r.rtm_type = RTN_UNICAST) := by
  obtain ⟨out, h, he⟩ :=
    netlink_route_multipath_extends multipath_num netlink_talk RTM_NEWROUTE p rib update hfam
  obtain ⟨-, hr, -⟩ := he
  have ht : out.req.r.rtm_type = (route_req_base RTM_NEWROUTE p rib update).r.rtm_type := by
    rw [hr]
  rw [route_req_base_r] at ht
  refine ⟨out, h, ?_, ?_, ?_⟩
  · intro hb; rw [ht]; simp [hb]
  · intro hb hj; rw [ht]; simp [hb, hj]
  · intro hb hj; rw [ht]; simp [hb, hj]

theorem route_type_of_flags_witness :
    ex_p.family ≠ AF_MPLS ∧
    (∃ out, netlink_route_multipath 64 ex_talk RTM_NEWROUTE ex_p ex_rib_reject 1 = .ok out ∧
      out.req.r.rtm_type = RTN_UNREACHABLE) ∧
    (∃ out, netlink_route_multipath 64 ex_talk RTM_NEWROUTE ex_p
        { ex_rib1 with flags := ⟨true, true⟩ } 0 = .ok out ∧
      out.req.r.rtm_type = RTN_BLACKHOLE) :=
  ⟨by decide,
    (route_type_of_flags 64 ex_talk ex_p ex_rib_reject 1 (by decide)).imp
      (fun _ h => ⟨h.1, h.2.2.1 (by decide) (by decide)⟩),
    (route_type_of_flags 64 ex_talk ex_p { ex_rib1 with flags := ⟨true, true⟩ } 0
      (by decide)).imp (fun _ h => ⟨h.1, h.2.1 (by decide)⟩)⟩

/-! ## Helpers for the claims on sources, deletes, neighbors and LSP flags -/

theorem rtnh_walk_zero_len (src : Option (List Nat)) (fuel : Nat) (acc : List NexthopAdd) :
    rtnh_walk ex_mp_zero src fuel 0 8 acc = none := by
  induction fuel generalizing acc with
  | zero => rfl
  | succ n ih =>
    unfold rtnh_walk
    simp only [ex_mp_zero, sizeof_rtnexthop, NLMSG_ALIGN]
    exact ih _

theorem singlepath_loop_skip_to (cmd family bytelen : Nat) (pre post : List Nexthop)
    (c : Nexthop) (st : SingleState)
    (hpre : ∀ nh ∈ pre, nh.flags.RECURSIVE = false ∧ is_candidate cmd nh = false)
    (hc : is_candidate cmd c = true) :
    singlepath_loop cmd family bytelen (pre ++ c :: post) st =
      match _netlink_route_build_singlepath bytelen c st.req cmd with
      | .error e => .error e
      | .ok req => .ok { st with req := req, nexthop_num := st.nexthop_num + 1 } := by
  induction pre with
  | nil =>
    rw [is_candidate_iff] at hc
    simp only [List.nil_append]
    unfold singlepath_loop
    simp only [hc.1, Bool.false_eq_true, if_false, if_pos hc.2]
  | cons a l ih =>
    have ha := hpre a (List.mem_cons_self _ _)
    have hcand : ¬ is_candidate cmd a = true := by simp [ha.2]
    rw [is_candidate_iff] at hcand
    have hn : ¬ ((cmd = RTM_NEWROUTE ∧ a.flags.ACTIVE = true) ∨
        (cmd = RTM_DELROUTE ∧ a.flags.FIB = true)) := fun h => hcand ⟨ha.1, h⟩
    simp only [List.cons_append]
    unfold singlepath_loop
    simp only [ha.1, Bool.false_eq_true, if_false, if_neg hn]
    exact ih (fun nh h => hpre nh (List.mem_cons_of_mem _ h))

theorem added_trans {R : NlAttr → Prop} {l1 l2 l3 : List NlAttr}
    (h12 : ∀ a ∈ l2, a ∈ l1 ∨ R a) (h23 : ∀ a ∈ l3, a ∈ l2 ∨ R a) :
    ∀ a ∈ l3, a ∈ l1 ∨ R a := by
  intro a ha
  rcases h23 a ha with h | h
  · exact h12 a h
  · exact Or.inr h

theorem mem_of_extends {ts : List Nat} {q q' : Req} (h : Extends ts q q') (a : NlAttr)
    (ha : a ∈ q.attrs) : a ∈ q'.attrs := by
  obtain ⟨-, -, extra, hattrs, -⟩ := h
  rw [hattrs]
  exact List.mem_append_left _ ha

/-- What the singlepath builder appends for RTM_DELROUTE on a route that is not
of family MPLS: no RTA_PREFSRC, no gateway attribute for a nexthop that is not
of type IPV6 or IPV6_IFINDEX, and the gateway (169.254.0.1 on an AF_INET
route) for a nexthop of type IPV6 or IPV6_IFINDEX. -/
theorem singlepath_del_attrs (bytelen : Nat) (nh : Nexthop) (req : Req)
    (hf : req.r.rtm_family ≠ AF_MPLS) :
    ∃ req', _netlink_route_build_singlepath bytelen nh req RTM_DELROUTE = .ok req' ∧
      (∀ a ∈ req'.attrs, a ∈ req.attrs ∨ DeleteAttr nh a) ∧
      ((nh.type = .IPV6 ∨ nh.type = .IPV6_IFINDEX) →
        NlAttr.rta ⟨RTA_GATEWAY, .leaf (.bytes
          (if req.r.rtm_family = AF_INET then ipv4_ll else nh.gate.take bytelen))⟩ ∈
          req'.attrs) := by
  unfold _netlink_route_build_singlepath
  by_cases hcross : req.r.rtm_family = AF_INET ∧
      (nh.type = .IPV6 ∨ nh.type = .IPV6_IFINDEX)
  · rw [if_pos hcross]
    refine ⟨_, rfl, ?_, ?_⟩
    · intro a ha
      unfold singlepath_cross at ha
      simp only [show ¬ RTM_DELROUTE = RTM_NEWROUTE by decide, and_false, if_false, addattr_l,
        addattr32, set_rtm_onlink, List.mem_append, List.mem_singleton] at ha
      rcases ha with (ha | ha) | ha
      · exact Or.inl ha
      · subst ha; exact Or.inr ⟨by simp [NlAttr.type], fun h => absurd hcross.2 h⟩
      · subst ha; exact Or.inr ⟨by simp [NlAttr.type], fun h => absurd hcross.2 h⟩
    · intro _
      unfold singlepath_cross
      simp [hcross.1, addattr_l, addattr32, set_rtm_onlink]
  · rw [if_neg hcross, label_assert_ok _ _ hf]
    refine ⟨_, rfl, ?_⟩
    have hne : (nh.type = .IPV6 ∨ nh.type = .IPV6_IFINDEX) → req.r.rtm_family ≠ AF_INET :=
      fun h hfam => hcross ⟨hfam, h⟩
    have e1 := extends_singlepath_labels req nh hf
    have m1 : ∀ a ∈ (singlepath_labels nh req).attrs, a ∈ req.attrs ∨ DeleteAttr nh a := by
      intro a ha
      unfold singlepath_labels at ha
      simp only [List.mem_append, List.mem_map] at ha
      rcases ha with ha | ⟨b, hb, rfl⟩
      · exact Or.inl ha
      · refine Or.inr ?_
        rcases label_attrs_types _ _ hf b hb with h | h <;> simp [DeleteAttr, NlAttr.type, h]
    generalize singlepath_labels nh req = q1 at e1 m1 ⊢
    have e2 := e1.trans (extends_singlepath_onlink nh q1)
    have m2 : ∀ a ∈ (singlepath_onlink nh q1).attrs, a ∈ req.attrs ∨ DeleteAttr nh a := by
      intro a ha
      have : (singlepath_onlink nh q1).attrs = q1.attrs := by
        unfold singlepath_onlink; split_ifs <;> simp [set_rtm_onlink]
      rw [this] at ha
      exact m1 a ha
    generalize singlepath_onlink nh q1 = q2 at e2 m2 ⊢
    have h3 : singlepath_ipv4 bytelen nh RTM_DELROUTE q2 = q2 := by
      unfold singlepath_ipv4
      simp
    rw [h3]
    have hf2 : q2.r.rtm_family ≠ AF_MPLS := by rw [e2.family]; exact hf
    have m4 : ∀ a ∈ (singlepath_ipv6 bytelen nh RTM_DELROUTE q2).attrs,
        a ∈ req.attrs ∨ DeleteAttr nh a := by
      apply added_trans m2
      unfold singlepath_ipv6
      split_ifs with ht hn
      · exact absurd hn (by decide)
      · intro a ha
        simp only [_netlink_route_nl_add_gateway_info, List.mem_append, List.mem_singleton] at ha
        rcases ha with ha | ha
        · exact Or.inl ha
        · subst ha
          refine Or.inr ⟨?_, fun h => absurd ht h⟩
          unfold gateway_info
          split_ifs <;> simp [NlAttr.type]
      · intro a ha; exact Or.inl ha
    have g4 : (nh.type = .IPV6 ∨ nh.type = .IPV6_IFINDEX) →
        NlAttr.rta ⟨RTA_GATEWAY, .leaf (.bytes
          (if req.r.rtm_family = AF_INET then ipv4_ll else nh.gate.take bytelen))⟩ ∈
          (singlepath_ipv6 bytelen nh RTM_DELROUTE q2).attrs := by
      intro ht
      unfold singlepath_ipv6
      simp only [ht, if_true, show ¬ RTM_DELROUTE = RTM_NEWROUTE by decide, if_false,
        _netlink_route_nl_add_gateway_info, gateway_info, if_neg hf2, if_neg (hne ht)]
      simp
    have e4 := extends_singlepath_ipv6 bytelen nh RTM_DELROUTE q2 hf2
    generalize singlepath_ipv6 bytelen nh RTM_DELROUTE q2 = q4 at m4 g4 e4 ⊢
    have e5 := extends_singlepath_oif bytelen nh RTM_DELROUTE q4
    have m5 : ∀ a ∈ (singlepath_oif bytelen nh RTM_DELROUTE q4).attrs,
        a ∈ req.attrs ∨ DeleteAttr nh a := by
      apply added_trans m4
      unfold singlepath_oif
      split_ifs with ht hn
      · exact absurd hn (by decide)
      · intro a ha
        simp only [addattr32, List.mem_append, List.mem_singleton] at ha
        rcases ha with ha | ha
        · exact Or.inl ha
        · subst ha; exact Or.inr (by simp [DeleteAttr, NlAttr.type])
      · intro a ha; exact Or.inl ha
    generalize singlepath_oif bytelen nh RTM_DELROUTE q4 = q5 at m5 e5 ⊢
    have e6 := extends_singlepath_oif6 bytelen nh RTM_DELROUTE q5
    refine ⟨?_, fun ht => mem_of_extends e6 _ (mem_of_extends e5 _ (g4 ht))⟩
    apply added_trans m5
    unfold singlepath_oif6
    split_ifs with ht hn
    · exact absurd hn (by decide)
    · intro a ha
      simp only [addattr32, List.mem_append, List.mem_singleton] at ha
      rcases ha with ha | ha
      · exact Or.inl ha
      · subst ha; exact Or.inr (by simp [DeleteAttr, NlAttr.type])
    · intro a ha; exact Or.inl ha

theorem route_req_base_no_nexthop_attr (cmd : Nat) (p : Prefix) (rib : Rib) (update : Nat) :
    ∀ a ∈ (route_req_base cmd p rib update).attrs,
      a.type ≠ RTA_PREFSRC ∧ a.type ≠ RTA_GATEWAY ∧ a.type ≠ RTA_VIA := by
  intro a ha
  obtain ⟨x, rfl, hx⟩ := route_req_base_attr_types cmd p rib update a ha
  simp only [List.mem_cons, List.mem_singleton, List.not_mem_nil, or_false] at hx
  rcases hx with h | h | h | h <;> simp [NlAttr.type, h]

/-- A neighbor message whose C `int` `len` is negative (its `nlmsg_len` is below
the 28 bytes of header and `struct ndmsg`, or at least 2^31 + 28, below 2^32)
is answered with -1 before any handler is called. -/
theorem neigh_change_negative_len (if_lookup : Nat → Option Interface)
    (vrf_lookup : Nat → Option ZebraVrfEvpn) (filter_vlan : Nat) (handler : MacCall → Int)
    (msg : NeighMsg)
    (htype : msg.h.nlmsg_type = RTM_NEWNEIGH ∨ msg.h.nlmsg_type = RTM_DELNEIGH)
    (hlen : msg.nlmsg_len < NLMSG_LENGTH sizeof_ndmsg ∨
      (2 ^ 31 + NLMSG_LENGTH sizeof_ndmsg ≤ msg.nlmsg_len ∧ msg.nlmsg_len < 2 ^ 32)) :
    netlink_neigh_change if_lookup vrf_lookup filter_vlan handler msg = .ok ([], -1) := by
  have hneg : to_int32 ((msg.nlmsg_len : Int) - (NLMSG_LENGTH sizeof_ndmsg : Int)) < 0 := by
    have hc : (NLMSG_LENGTH sizeof_ndmsg : Int) = 28 := by decide
    have hn : NLMSG_LENGTH sizeof_ndmsg = 28 := by decide
    rw [hn] at hlen
    norm_num at hlen
    rw [hc]
    unfold to_int32
    omega
  unfold netlink_neigh_change
  rw [if_neg (not_not.mpr htype)]
  simp only []
  rw [if_pos hneg]

theorem neigh_change_negative_len_example :
    netlink_neigh_change ex_if_lookup ex_vrf_info 0 ex_handler
      { ex_neigh_del with nlmsg_len := 2 ^ 31 + 28 } = .ok ([], -1) :=
  neigh_change_negative_len ex_if_lookup ex_vrf_info 0 ex_handler
    { ex_neigh_del with nlmsg_len := 2 ^ 31 + 28 } (Or.inr rfl) (Or.inr (by decide))

theorem neigh_change_handled (if_lookup : Nat → Option Interface)
    (vrf_lookup : Nat → Option ZebraVrfEvpn) (filter_vlan : Nat) (handler : MacCall → Int)
    (msg : NeighMsg)
    (hlen : NLMSG_LENGTH sizeof_ndmsg ≤ msg.nlmsg_len ∧
      msg.nlmsg_len < 2 ^ 31 + NLMSG_LENGTH sizeof_ndmsg)
    (ifp : Interface) (zif : ZebraIf) (br_if : BridgeIf) (mac : List Nat)
    (h : neigh_handled if_lookup vrf_lookup filter_vlan msg ifp zif br_if mac) :
    netlink_neigh_change if_lookup vrf_lookup filter_vlan handler msg =
      .ok ([neigh_handler_call msg.h.nlmsg_type zif.vxlan ifp br_if mac (msg.tb.NDA_VLAN.getD 0)],
        handler (neigh_handler_call msg.h.nlmsg_type zif.vxlan ifp br_if mac
          (msg.tb.NDA_VLAN.getD 0))) := by
  obtain ⟨ht, hf, hi, ⟨zvrf, hv, he⟩, hinfo, hbs, ⟨br_slave, hl2, hbr⟩, hperm, hll, hmac, hvl⟩ := h
  have hlen' : ¬ (to_int32 ((msg.nlmsg_len : Int) - (NLMSG_LENGTH sizeof_ndmsg : Int)) < 0) := by
    have h1 : (NLMSG_LENGTH sizeof_ndmsg : Int) ≤ (msg.nlmsg_len : Int) := by
      exact_mod_cast hlen.1
    have h2 : (msg.nlmsg_len : Int) < 2147483648 + (NLMSG_LENGTH sizeof_ndmsg : Int) := by
      have := hlen.2
      norm_num at this
      exact_mod_cast this
    unfold to_int32
    omega
  have hfv : ¬ (filter_vlan ≠ 0 ∧ msg.tb.NDA_VLAN.getD 0 ≠ filter_vlan) := by
    rintro ⟨h1, h2⟩
    rcases hvl with h | h
    · exact h1 h
    · exact h2 h
  have htake : mac.take ETHER_ADDR_LEN = mac := by
    rw [List.take_of_length_le]; rw [hmac]
  unfold netlink_neigh_change
  simp only [ht, not_true_eq_false, if_false, if_neg hlen', hf, ne_eq, hi, hv, if_neg he, hinfo,
    hbs, Bool.not_true, Bool.false_eq_true, hperm, hl2, hbr, hll, hmac, if_neg hfv, htake]
  unfold neigh_handler_call
  by_cases hn : msg.h.nlmsg_type = RTM_NEWNEIGH <;> cases hx : zif.vxlan <;> simp [hn]

theorem neigh_change_only_handled (if_lookup : Nat → Option Interface)
    (vrf_lookup : Nat → Option ZebraVrfEvpn) (filter_vlan : Nat) (handler : MacCall → Int)
    (msg : NeighMsg) (calls : List MacCall) (ret : Int)
    (h : netlink_neigh_change if_lookup vrf_lookup filter_vlan handler msg = .ok (calls, ret))
    (hne : calls ≠ []) :
    ∃ ifp zif br_if mac, neigh_handled if_lookup vrf_lookup filter_vlan msg ifp zif br_if mac := by
  unfold netlink_neigh_change at h
  have nil : ∀ r : Int, (Except.ok (([] : List MacCall), r) : Except Fault (List MacCall × Int)) =
      .ok (calls, ret) → False := by
    intro r hr
    cases hr
    exact hne rfl
  by_cases ht : msg.h.nlmsg_type = RTM_NEWNEIGH ∨ msg.h.nlmsg_type = RTM_DELNEIGH
  swap
  · rw [if_pos ht] at h; exact (nil _ h).elim
  rw [if_neg (not_not.2 ht)] at h
  simp only at h
  by_cases h1 : to_int32 ((msg.nlmsg_len : Int) - (NLMSG_LENGTH sizeof_ndmsg : Int)) < 0
  · rw [if_pos h1] at h; exact (nil _ h).elim
  rw [if_neg h1] at h
  by_cases h2 : msg.ndm.ndm_family ≠ AF_BRIDGE
  · rw [if_pos h2] at h; exact (nil _ h).elim
  rw [if_neg h2] at h
  cases hi : if_lookup msg.ndm.ndm_ifindex with
  | none => rw [hi] at h; exact (nil _ h).elim
  | some ifp =>
    rw [hi] at h
    simp only at h
    cases hv : vrf_lookup ifp.vrf_id with
    | none => rw [hv] at h; exact (nil _ h).elim
    | some zvrf =>
      rw [hv] at h
      simp only at h
      by_cases he : EVPN_ENABLED zvrf = 0
      · rw [if_pos he] at h; exact (nil _ h).elim
      rw [if_neg he] at h
      cases hinfo : ifp.info with
      | none => rw [hinfo] at h; exact (nil _ h).elim
      | some zif =>
        rw [hinfo] at h
        simp only at h
        by_cases hbs : (!zif.bridge_slave) = true
        · rw [if_pos hbs] at h; exact (nil _ h).elim
        rw [if_neg hbs] at h
        by_cases hperm : msg.ndm.ndm_state &&& NUD_PERMANENT ≠ 0
        · rw [if_pos hperm] at h; exact (nil _ h).elim
        rw [if_neg hperm] at h
        cases hl2 : zif.l2if with
        | none => rw [hl2] at h; cases h
        | some br_slave =>
          rw [hl2] at h
          simp only at h
          cases hbr : br_slave.br_if with
          | none => rw [hbr] at h; exact (nil _ h).elim
          | some br_if =>
            rw [hbr] at h
            simp only at h
            cases hll : msg.tb.NDA_LLADDR with
            | none => rw [hll] at h; exact (nil _ h).elim
            | some mac =>
              rw [hll] at h
              simp only at h
              by_cases hmac : mac.length ≠ ETHER_ADDR_LEN
              · rw [if_pos hmac] at h; exact (nil _ h).elim
              rw [if_neg hmac] at h
              by_cases hfv : filter_vlan ≠ 0 ∧ msg.tb.NDA_VLAN.getD 0 ≠ filter_vlan
              · rw [if_pos hfv] at h; exact (nil _ h).elim
              refine ⟨ifp, zif, br_if, mac, ht, not_not.1 h2, hi, ⟨zvrf, hv, he⟩, hinfo,
                by simpa using hbs, ⟨br_slave, hl2, hbr⟩, not_not.1 hperm, hll,
                not_not.1 hmac, ?_⟩
              by_cases hz : filter_vlan = 0
              · exact Or.inl hz
              · exact Or.inr (not_not.1 (fun hx => hfv ⟨hz, hx⟩))

theorem neigh_update_af_bridge_ok (netlink_talk : NeighReq → Int) (ifp : Interface)
    (vid : Nat) (mac vtep_ip : List Nat) (cmd : Nat) (zif : ZebraIf) (br_slave : BrSlave)
    (br_if : BridgeIf) (hinfo : ifp.info = some zif) (hl2 : zif.l2if = some br_slave)
    (hbr : br_slave.br_if = some br_if) (hmac : mac.length = 6) (hvtep : vtep_ip.length = 4) :
    ∃ req, netlink_neigh_update_af_bridge netlink_talk ifp vid mac vtep_ip cmd =
        .ok (some req, netlink_talk req) ∧
      req.n = ⟨cmd, if cmd = RTM_NEWNEIGH then NLM_F_REQUEST ||| (NLM_F_CREATE ||| NLM_F_REPLACE)
        else NLM_F_REQUEST⟩ ∧
      req.ndm.ndm_family = AF_BRIDGE ∧
      req.attrs =
        [⟨NDA_LLADDR, .leaf (.bytes mac)⟩, ⟨NDA_DST, .leaf (.bytes vtep_ip)⟩] ++
        (if br_if.vlan_aware = true ∧ vid > 0 then [⟨NDA_VLAN, .leaf (.u16 vid)⟩] else []) ++
        [⟨NDA_MASTER, .leaf (.u32 br_if.ifindex)⟩] := by
  have h6 : mac.take 6 = mac := by rw [List.take_of_length_le]; rw [hmac]
  have h4 : vtep_ip.take 4 = vtep_ip := by rw [List.take_of_length_le]; rw [hvtep]
  unfold netlink_neigh_update_af_bridge
  simp only [hinfo, hl2, hbr, h6, h4]
  refine ⟨_, rfl, rfl, rfl, ?_⟩
  split_ifs <;> simp

theorem mpls_encoded_mask_zero (cmd : Nat) (l : List Nhlfe) :
    mpls_marked cmd (mpls_encoded_mask cmd 0 l) l = l ∧
    mpls_encoded (mpls_encoded_mask cmd 0 l) l = [] := by
  induction l with
  | nil => exact ⟨rfl, rfl⟩
  | cons a l ih =>
    simp only [mpls_encoded_mask, ne_eq, not_true_eq_false, false_and, if_false, mpls_marked,
      mpls_encoded, ih.1, ih.2, and_self]

theorem mpls_multipath_loop_mask (multipath_num cmd : Nat) (rtmsg : Rtmsg)
    (hf : rtmsg.rtm_family = AF_MPLS) (l : List Nhlfe)
    (hlab : ∀ nhlfe ∈ l, mpls_label_ok nhlfe = true) (st : MplsMultiState) :
    ∃ st', mpls_multipath_loop multipath_num cmd rtmsg l st =
        .ok (mpls_marked cmd (mpls_encoded_mask cmd (multipath_num - st.nexthop_num) l) l,
          st') ∧
      ∃ records, st'.rtnh = st.rtnh ++ records ∧
        List.Forall₂ (fun nhlfe r =>
            ∃ s s', _netlink_mpls_build_multipath nhlfe rtmsg s = .ok (r, s'))
          (mpls_encoded (mpls_encoded_mask cmd (multipath_num - st.nexthop_num) l) l)
          records := by
  induction l generalizing st with
  | nil => exact ⟨st, rfl, [], by simp, by simp [mpls_encoded_mask, mpls_encoded]⟩
  | cons a l ih =>
    have hlab' : ∀ nhlfe ∈ l, mpls_label_ok nhlfe = true :=
      fun x hx => hlab x (List.mem_cons_of_mem _ hx)
    unfold mpls_multipath_loop
    cases hn : a.nexthop with
    | none =>
      have hch : mpls_chosen cmd a = false := by simp [mpls_chosen, hn]
      obtain ⟨st', h, records, h1, h2⟩ := ih hlab' st
      simp only [h, mpls_encoded_mask, hch, Bool.false_eq_true, and_false, if_false,
        mpls_marked, mpls_encoded]
      exact ⟨st', rfl, records, h1, h2⟩
    | some nexthop =>
      simp only
      by_cases hge : st.nexthop_num ≥ multipath_num
      · have hz : multipath_num - st.nexthop_num = 0 := by omega
        rw [if_pos hge, hz]
        obtain ⟨z1, z2⟩ := mpls_encoded_mask_zero cmd (a :: l)
        rw [z1, z2]
        exact ⟨st, rfl, [], by simp, List.Forall₂.nil⟩
      rw [if_neg hge]
      have hpos : multipath_num - st.nexthop_num ≠ 0 := by omega
      by_cases hc : mpls_nhlfe_chosen cmd a nexthop = true
      · have hch : mpls_chosen cmd a = true := by simp [mpls_chosen, hn, hc]
        rw [if_pos hc]
        obtain ⟨⟨r, src1⟩, hb⟩ := mpls_build_multipath_ok a nexthop hn
          (hlab a (List.mem_cons_self _ _)) rtmsg hf st.src1
        obtain ⟨st', h, records, h1, h2⟩ := ih hlab' ⟨st.rtnh ++ [r], src1, st.nexthop_num + 1⟩
        have hsub : multipath_num - (st.nexthop_num + 1) = multipath_num - st.nexthop_num - 1 := by
          omega
        simp only [hsub] at h h2
        simp only [hb, h, mpls_encoded_mask, hch, hpos, ne_eq, not_false_eq_true, and_self,
          if_true, mpls_marked, mpls_encoded, hn]
        refine ⟨st', rfl, r :: records, ?_, ?_⟩
        · rw [h1]; simp
        · exact List.Forall₂.cons ⟨_, _, hb⟩ h2
      · have hch : mpls_chosen cmd a = false := by simp [mpls_chosen, hn, hc]
        rw [if_neg hc]
        obtain ⟨st', h, records, h1, h2⟩ := ih hlab' st
        simp only [h, mpls_encoded_mask, hch, Bool.false_eq_true, and_false, if_false,
          mpls_marked, mpls_encoded]
        exact ⟨st', rfl, records, h1, h2⟩

theorem mpls_singlepath_loop_mask (cmd : Nat) (l : List Nhlfe)
    (hlab : ∀ nhlfe ∈ l, mpls_label_ok nhlfe = true) (req : Req)
    (hf : req.r.rtm_family = AF_MPLS) :
    ∃ req', mpls_singlepath_loop cmd l req =
        .ok (mpls_marked cmd (mpls_encoded_mask cmd 1 l) l, req') ∧
      ((mpls_encoded (mpls_encoded_mask cmd 1 l) l = [] ∧ req' = req) ∨
        ∃ nhlfe, mpls_encoded (mpls_encoded_mask cmd 1 l) l = [nhlfe] ∧
          _netlink_mpls_build_singlepath nhlfe req cmd = .ok req') := by
  induction l with
  | nil => exact ⟨req, rfl, Or.inl ⟨rfl, rfl⟩⟩
  | cons a l ih =>
    have hlab' : ∀ nhlfe ∈ l, mpls_label_ok nhlfe = true :=
      fun x hx => hlab x (List.mem_cons_of_mem _ hx)
    obtain ⟨req', h, hr⟩ := ih hlab'
    unfold mpls_singlepath_loop
    cases hn : a.nexthop with
    | none =>
      have hch : mpls_chosen cmd a = false := by simp [mpls_chosen, hn]
      simp only [h, mpls_encoded_mask, hch, Bool.false_eq_true, and_false, if_false,
        mpls_marked, mpls_encoded]
      exact ⟨req', rfl, hr⟩
    | some nexthop =>
      simp only
      by_cases hc : mpls_nhlfe_chosen cmd a nexthop = true
      · have hch : mpls_chosen cmd a = true := by simp [mpls_chosen, hn, hc]
        rw [if_pos hc]
        obtain ⟨r, hb⟩ := mpls_build_singlepath_ok a nexthop hn
          (hlab a (List.mem_cons_self _ _)) req hf cmd
        obtain ⟨z1, z2⟩ := mpls_encoded_mask_zero cmd l
        simp only [hb, mpls_encoded_mask, hch, ne_eq, one_ne_zero, not_false_eq_true, and_self,
          if_true, mpls_marked, mpls_encoded, hn, Nat.sub_self, z1, z2]
        exact ⟨r, rfl, Or.inr ⟨a, rfl, hb⟩⟩
      · have hch : mpls_chosen cmd a = false := by simp [mpls_chosen, hn, hc]
        rw [if_neg hc]
        simp only [h, mpls_encoded_mask, hch, Bool.false_eq_true, and_false, if_false,
          mpls_marked, mpls_encoded]
        exact ⟨req', rfl, hr⟩

theorem foldl_count_chosen (f : Nat → Nhlfe → Nat)
    (hf : ∀ n a, f n a = if mpls_chosen RTM_NEWROUTE a = true then n + 1 else n)
    (l : List Nhlfe) (n : Nat) :
    l.foldl f n = n + (l.filter (mpls_chosen RTM_NEWROUTE)).length := by
  induction l generalizing n with
  | nil => simp
  | cons a l ih =>
    rw [List.foldl_cons, ih, hf]
    by_cases hc : mpls_chosen RTM_NEWROUTE a = true
    · simp [hc]; omega
    · simp [hc]

theorem mpls_count_nexthops_new (l : List Nhlfe) :
    mpls_count_nexthops RTM_NEWROUTE l = (l.filter (mpls_chosen RTM_NEWROUTE)).length := by
  unfold mpls_count_nexthops
  refine (foldl_count_chosen _ ?_ l 0).trans (by simp)
  intro n a
  cases hn : a.nexthop with
  | none => simp [mpls_chosen, hn]
  | some nexthop =>
    by_cases hc : a.flags.SELECTED = true ∧ nexthop.flags.ACTIVE = true
    · simp [mpls_chosen, mpls_nhlfe_chosen, hn, hc]
    · have : (a.flags.SELECTED && nexthop.flags.ACTIVE) = false := by simpa using hc
      simp [mpls_chosen, mpls_nhlfe_chosen, hn, hc, this]

theorem mpls_encoded_one_ne_nil (cmd : Nat) (l : List Nhlfe)
    (h : l.filter (mpls_chosen cmd) ≠ []) :
    mpls_encoded (mpls_encoded_mask cmd 1 l) l ≠ [] := by
  induction l with
  | nil => simp at h
  | cons a l ih =>
    by_cases hch : mpls_chosen cmd a = true
    · simp [mpls_encoded_mask, hch, mpls_encoded]
    · have hch' : mpls_chosen cmd a = false := by simpa using hch
      rw [List.filter_cons, hch'] at h
      simp only [mpls_encoded_mask, hch', Bool.false_eq_true, and_false, if_false, mpls_encoded]
      exact ih (by simpa using h)

theorem mpls_marked_flags (limit : Nat) (l : List Nhlfe) :
    (mpls_marked RTM_NEWROUTE (mpls_encoded_mask RTM_NEWROUTE limit l) l).map
        (fun nhlfe => nhlfe.flags.INSTALLED) =
      List.zipWith (fun b x => b || x) (mpls_encoded_mask RTM_NEWROUTE limit l)
        (l.map (fun nhlfe => nhlfe.flags.INSTALLED)) ∧
    (mpls_marked RTM_NEWROUTE (mpls_encoded_mask RTM_NEWROUTE limit l) l).map nhlfe_fib =
      List.zipWith (fun b x => b || x) (mpls_encoded_mask RTM_NEWROUTE limit l)
        (l.map nhlfe_fib) := by
  induction l generalizing limit with
  | nil => simp [mpls_encoded_mask, mpls_marked]
  | cons a l ih =>
    by_cases hc : limit ≠ 0 ∧ mpls_chosen RTM_NEWROUTE a = true
    · have hn : ∃ nexthop, a.nexthop = some nexthop := by
        cases h : a.nexthop with
        | none => simp [mpls_chosen, h] at hc
        | some nexthop => exact ⟨nexthop, rfl⟩
      obtain ⟨nexthop, hn⟩ := hn
      simp only [mpls_encoded_mask, if_pos hc, mpls_marked, hn, List.map_cons,
        List.zipWith_cons_cons, (ih (limit - 1)).1, (ih (limit - 1)).2]
      simp [mpls_mark, nhlfe_fib]
    · simp only [mpls_encoded_mask, if_neg hc, mpls_marked, List.map_cons,
        List.zipWith_cons_cons, (ih limit).1, (ih limit).2]
      simp

theorem mpls_encoded_mask_length (cmd limit : Nat) (l : List Nhlfe) :
    (mpls_encoded_mask cmd limit l).length = l.length := by
  induction l generalizing limit with
  | nil => rfl
  | cons a l ih =>
    unfold mpls_encoded_mask
    split_ifs <;> simp [ih]

theorem zipWith_or_false (mask xs : List Bool) (hlen : mask.length = xs.length)
    (h : ∀ x ∈ xs, x = false) : List.zipWith (fun b x => b || x) mask xs = mask := by
  induction mask generalizing xs with
  | nil => simp
  | cons b mask ih =>
    cases xs with
    | nil => simp at hlen
    | cons x xs =>
      have hx : x = false := h x (List.mem_cons_self _ _)
      simp only [List.zipWith_cons_cons, hx, Bool.or_false, List.cons.injEq, true_and]
      exact ih xs (by simpa using hlen) (fun y hy => h y (List.mem_cons_of_mem _ hy))

/-! ## C21 -/

/-- C21, the divergence: for the RTM_NEWROUTE request, built in singlepath
encoding, of the IPv6 route 2001:db8::/32 over ifindex 2 (a nexthop of type
IFINDEX without RECURSIVE-marked parent) with `rmap_src` ::1 and `src`
2001:db8::9, the interface block of the builder tests `rmap_src.ipv4.s_addr`,
the first 4 bytes, finds them zero and appends `src`: the one RTA_PREFSRC of
the request carries `src` although `rmap_src` is non-zero. The same sources
on a nexthop of type IPV6_IFINDEX, whose blocks test all 16 bytes, give
RTA_PREFSRC attributes that carry `rmap_src`. -/
theorem ifindex_source_tested_as_ipv4 :
    IN6_IS_ADDR_UNSPECIFIED ex_nh_if6.rmap_src = false ∧
    ex_nh_if6.flags.RECURSIVE = false ∧
    ALL_NEXTHOPS_RO ex_rib_if6.nexthop = [ex_nh_if6] ∧
    (∃ out, netlink_route_multipath 64 ex_talk RTM_NEWROUTE ex_p6 ex_rib_if6 0 = .ok out ∧
      out.talk = true ∧
      out.req.attrs.map NlAttr.type = [RTA_DST, RTA_PRIORITY, RTA_OIF, RTA_PREFSRC] ∧
      out.req.attrs.filter (fun a => a.type == RTA_PREFSRC) = [prefsrc_attr 16 ex_src6]) ∧
    (∃ out, netlink_route_multipath 64 ex_talk RTM_NEWROUTE ex_p6
        { ex_rib_if6 with nexthop :=
            [⟨{ ex_nh_if6 with type := .IPV6_IFINDEX, gate := ex_gw6 }, []⟩] } 0 = .ok out ∧
      out.talk = true ∧
      out.req.attrs.filter (fun a => a.type == RTA_PREFSRC) =
        [prefsrc_attr 16 ex_rmap6, prefsrc_attr 16 ex_rmap6]) :=
  ⟨by decide, by decide, by decide, ⟨_, rfl, by decide, by decide, by decide⟩,
    ⟨_, rfl, by decide, by decide⟩⟩

/-! ## C22 -/

/-- C22: for a neighbor message whose `nlmsg_len` is at least the 28 bytes of
header and `struct ndmsg` and below 2^31 + 28 (so that the C `int` `len` is not
negative), `netlink_neigh_change` invokes a MAC handler if and only if the message is
RTM_NEWNEIGH or RTM_DELNEIGH of family BRIDGE, its interface exists, belongs
to an EVPN-enabled VRF and is a bridge slave with a bridge master, the entry
is not PERMANENT, it carries an LLADDR of exactly 6 bytes and its VLAN passes
the VLAN filter; then exactly one handler is invoked, with the interface, the
bridge, the MAC and the VLAN of the message, and its result is returned:
`zebra_vxlan_check_del_local_mac` for NEW on a VxLAN interface,
`zebra_vxlan_local_mac_add_update` for NEW on any other interface,
`zebra_vxlan_check_readd_remote_mac` for DEL on a VxLAN interface,
`zebra_vxlan_local_mac_del` for DEL on any other interface. -/
theorem neigh_change_dispatch (if_lookup : Nat → Option Interface)
    (vrf_lookup : Nat → Option ZebraVrfEvpn) (filter_vlan : Nat) (handler : MacCall → Int)
    (msg : NeighMsg)
    (hlen : NLMSG_LENGTH sizeof_ndmsg ≤ msg.nlmsg_len ∧
      msg.nlmsg_len < 2 ^ 31 + NLMSG_LENGTH sizeof_ndmsg) :
    ((∃ calls ret, netlink_neigh_change if_lookup vrf_lookup filter_vlan handler msg =
        .ok (calls, ret) ∧ calls ≠ []) ↔
      ∃ ifp zif br_if mac,
        neigh_handled if_lookup vrf_lookup filter_vlan msg ifp zif br_if mac) ∧
    (∀ ifp zif br_if mac, neigh_handled if_lookup vrf_lookup filter_vlan msg ifp zif br_if mac →
      netlink_neigh_change if_lookup vrf_lookup filter_vlan handler msg =
        .ok ([neigh_handler_call msg.h.nlmsg_type zif.vxlan ifp br_if mac
            (msg.tb.NDA_VLAN.getD 0)],
          handler (neigh_handler_call msg.h.nlmsg_type zif.vxlan ifp br_if mac
            (msg.tb.NDA_VLAN.getD 0)))) := by
  refine ⟨⟨?_, ?_⟩, ?_⟩
  · rintro ⟨calls, ret, h, hne⟩
    exact neigh_change_only_handled if_lookup vrf_lookup filter_vlan handler msg calls ret h hne
  · rintro ⟨ifp, zif, br_if, mac, h⟩
    exact ⟨_, _, neigh_change_handled if_lookup vrf_lookup filter_vlan handler msg hlen
      ifp zif br_if mac h, by simp⟩
  · intro ifp zif br_if mac h
    exact neigh_change_handled if_lookup vrf_lookup filter_vlan handler msg hlen ifp zif br_if
      mac h

theorem neigh_change_dispatch_witness :
    (NLMSG_LENGTH sizeof_ndmsg ≤ ex_neigh_del.nlmsg_len ∧
      ex_neigh_del.nlmsg_len < 2 ^ 31 + NLMSG_LENGTH sizeof_ndmsg) ∧
    netlink_neigh_change ex_if_lookup ex_vrf_info 0 ex_handler ex_neigh_del =
      .ok ([.zebra_vxlan_check_readd_remote_mac ex_ifp_vxlan ex_br ex_mac 100], 0) :=
  ⟨by decide,
    (neigh_change_dispatch ex_if_lookup ex_vrf_info 0 ex_handler ex_neigh_del (by decide)).2
      ex_ifp_vxlan ⟨true, true, some ⟨10, some ex_br⟩⟩ ex_br ex_mac
      ⟨by decide, by decide, by decide, ⟨⟨1⟩, by decide, by decide⟩, by decide, by decide,
        ⟨⟨10, some ex_br⟩, by decide, by decide⟩, by decide, by decide, by decide,
        Or.inl rfl⟩⟩

/-! ## C23 -/

/-- C23: for an interface that is a bridge slave (its `info` and `l2if` are set)
and a MAC of 6 bytes and a VTEP address of 4 bytes: with a bridge master,
`kernel_add_mac` and `kernel_del_mac` hand to `netlink_talk` a neighbor
message of family BRIDGE whose attributes are LLADDR with the MAC, DST with
the VTEP address, a VLAN attribute exactly when the bridge is VLAN-aware and
the VLAN id is greater than 0, and MASTER with the ifindex of the bridge; the
header flags are REQUEST|CREATE|REPLACE for add and REQUEST for delete, and
the result of `netlink_talk` is returned. Without bridge master nothing is
handed to `netlink_talk` and the result is -1. -/
theorem bridge_mac_request (netlink_talk : NeighReq → Int) (ifp : Interface) (vid : Nat)
    (mac vtep_ip : List Nat) (zif : ZebraIf) (br_slave : BrSlave)
    (hinfo : ifp.info = some zif) (hl2 : zif.l2if = some br_slave)
    (hmac : mac.length = 6) (hvtep : vtep_ip.length = 4) :
    (∀ br_if, br_slave.br_if = some br_if →
      ∃ add del,
        kernel_add_mac netlink_talk ifp vid mac vtep_ip = .ok (some add, netlink_talk add) ∧
        kernel_del_mac netlink_talk ifp vid mac vtep_ip = .ok (some del, netlink_talk del) ∧
        add.n = ⟨RTM_NEWNEIGH, NLM_F_REQUEST ||| (NLM_F_CREATE ||| NLM_F_REPLACE)⟩ ∧
        del.n = ⟨RTM_DELNEIGH, NLM_F_REQUEST⟩ ∧
        add.ndm.ndm_family = AF_BRIDGE ∧ del.ndm.ndm_family = AF_BRIDGE ∧
        add.attrs = del.attrs ∧
        add.attrs =
          [⟨NDA_LLADDR, .leaf (.bytes mac)⟩, ⟨NDA_DST, .leaf (.bytes vtep_ip)⟩] ++
          (if br_if.vlan_aware = true ∧ vid > 0 then [⟨NDA_VLAN, .leaf (.u16 vid)⟩] else []) ++
          [⟨NDA_MASTER, .leaf (.u32 br_if.ifindex)⟩]) ∧
    (br_slave.br_if = none →
      kernel_add_mac netlink_talk ifp vid mac vtep_ip = .ok (none, -1) ∧
      kernel_del_mac netlink_talk ifp vid mac vtep_ip = .ok (none, -1)) := by
  constructor
  · intro br_if hbr
    obtain ⟨add, h1, h2, h3, h4⟩ := neigh_update_af_bridge_ok netlink_talk ifp vid mac vtep_ip
      RTM_NEWNEIGH zif br_slave br_if hinfo hl2 hbr hmac hvtep
    obtain ⟨del, g1, g2, g3, g4⟩ := neigh_update_af_bridge_ok netlink_talk ifp vid mac vtep_ip
      RTM_DELNEIGH zif br_slave br_if hinfo hl2 hbr hmac hvtep
    refine ⟨add, del, h1, g1, ?_, ?_, h3, g3, by rw [h4, g4], h4⟩
    · rw [h2]; simp
    · rw [g2]; simp
  · intro hbr
    constructor
    · unfold kernel_add_mac netlink_neigh_update_af_bridge
      simp only [hinfo, hl2, hbr]
    · unfold kernel_del_mac netlink_neigh_update_af_bridge
      simp only [hinfo, hl2, hbr]

theorem bridge_mac_request_witness :
    ex_ifp_vxlan.info = some ⟨true, true, some ⟨10, some ex_br⟩⟩ ∧
    ex_mac.length = 6 ∧ [203, 0, 113, 7].length = 4 ∧
    (∃ add del,
      kernel_add_mac ex_neigh_talk ex_ifp_vxlan 100 ex_mac [203, 0, 113, 7] =
        .ok (some add, ex_neigh_talk add) ∧
      kernel_del_mac ex_neigh_talk ex_ifp_vxlan 100 ex_mac [203, 0, 113, 7] =
        .ok (some del, ex_neigh_talk del) ∧
      add.n = ⟨RTM_NEWNEIGH, 0x501⟩ ∧ del.n = ⟨RTM_DELNEIGH, 0x1⟩ ∧
      add.attrs =
        [⟨NDA_LLADDR, .leaf (.bytes ex_mac)⟩, ⟨NDA_DST, .leaf (.bytes [203, 0, 113, 7])⟩,
         ⟨NDA_VLAN, .leaf (.u16 100)⟩, ⟨NDA_MASTER, .leaf (.u32 10)⟩]) ∧
    kernel_add_mac ex_neigh_talk ex_ifp_orphan 100 ex_mac [203, 0, 113, 7] = .ok (none, -1) :=
  ⟨by decide, by decide, by decide,
    ((bridge_mac_request ex_neigh_talk ex_ifp_vxlan 100 ex_mac [203, 0, 113, 7]
      ⟨true, true, some ⟨10, some ex_br⟩⟩ ⟨10, some ex_br⟩ rfl rfl (by decide) (by decide)).1
      ex_br rfl).imp (fun _ h => h.imp (fun _ h => ⟨h.1, h.2.1, h.2.2.1, h.2.2.2.1,
        h.2.2.2.2.2.2.2⟩)),
    ((bridge_mac_request ex_neigh_talk ex_ifp_orphan 100 ex_mac [203, 0, 113, 7]
      ⟨true, false, some ⟨10, none⟩⟩ ⟨10, none⟩ rfl rfl (by decide) (by decide)).2 rfl).1⟩

/-! ## C24 -/

/-- C24: after `clear_nhlfe_installed (lsp)` the NHLFE list has the same length
and the in-label is the same; at every position, an NHLFE without nexthop is
unchanged, and an NHLFE with a nexthop has INSTALLED cleared and the FIB flag
of its nexthop cleared while SELECTED, the other nexthop flags and every other
field of the nexthop are unchanged; applying it twice gives the same state as
applying it once. -/
theorem clear_nhlfe_installed_spec (lsp : Lsp) :
    (clear_nhlfe_installed lsp).in_label = lsp.in_label ∧
    (clear_nhlfe_installed lsp).nhlfe_list.length = lsp.nhlfe_list.length ∧
    (∀ i nhlfe, lsp.nhlfe_list.get? i = some nhlfe →
      ∃ nhlfe', (clear_nhlfe_installed lsp).nhlfe_list.get? i = some nhlfe' ∧
        (nhlfe.nexthop = none → nhlfe' = nhlfe) ∧
        (∀ nexthop, nhlfe.nexthop = some nexthop →
          nhlfe'.flags.INSTALLED = false ∧ nhlfe'.flags.SELECTED = nhlfe.flags.SELECTED ∧
          ∃ nexthop', nhlfe'.nexthop = some nexthop' ∧ nexthop'.flags.FIB = false ∧
            nexthop' = { nexthop with flags := { nexthop.flags with FIB := false } } ∧
            nexthop'.flags.ACTIVE = nexthop.flags.ACTIVE ∧
            nexthop'.flags.RECURSIVE = nexthop.flags.RECURSIVE ∧
            nexthop'.flags.ONLINK = nexthop.flags.ONLINK)) ∧
    clear_nhlfe_installed (clear_nhlfe_installed lsp) = clear_nhlfe_installed lsp := by
  refine ⟨rfl, by simp [clear_nhlfe_installed], ?_, ?_⟩
  · intro i nhlfe hi
    simp only [clear_nhlfe_installed, List.get?_eq_getElem?, List.getElem?_map] at hi ⊢
    rw [hi]
    refine ⟨_, rfl, ?_, ?_⟩
    · intro hn; simp [hn]
    · intro nexthop hn
      simp [hn]
  · simp only [clear_nhlfe_installed, List.map_map]
    congr 1
    apply List.map_congr_left
    intro nhlfe _
    cases hn : nhlfe.nexthop <;> simp [hn]

theorem clear_nhlfe_installed_spec_witness :
    ex_lsp_installed.nhlfe_list.get? 0 =
      some ⟨⟨true, true⟩, some { ex_nh_200 with flags := ⟨true, true, false, true⟩ }⟩ ∧
    (∃ nhlfe, (clear_nhlfe_installed ex_lsp_installed).nhlfe_list.get? 0 = some nhlfe ∧
      nhlfe.flags.INSTALLED = false ∧ nhlfe.flags.SELECTED = true ∧
      ∃ nexthop, nhlfe.nexthop = some nexthop ∧ nexthop.flags.FIB = false ∧
        nexthop.flags.ACTIVE = true ∧ nexthop.flags.ONLINK = true) ∧
    (clear_nhlfe_installed ex_lsp_installed).nhlfe_list.get? 1 = some ⟨⟨false, true⟩, none⟩ :=
  ⟨by decide,
    ((clear_nhlfe_installed_spec ex_lsp_installed).2.2.1 0 _ rfl).imp (fun _ h =>
      ⟨h.1, (h.2.2 _ rfl).1, (h.2.2 _ rfl).2.1,
        (h.2.2 _ rfl).2.2.imp (fun _ g => ⟨g.1, g.2.1, g.2.2.2.1, g.2.2.2.2.2⟩)⟩),
    by decide⟩

/-! ## C25 -/

/-- C25, as amended: for every LSP whose label stacks pass the builders'
assertions and that has at least one selected NHLFE with an ACTIVE nexthop,
`netlink_mpls_multipath (RTM_NEWROUTE, lsp)` transmits a request that encodes
exactly the first NHLFEs that pass the test, up to the room of the encoding
(1 in singlepath encoding, `multipath_num` otherwise); after the call exactly
these NHLFEs have been marked (INSTALLED set, FIB set on the nexthop) and every
other NHLFE is as it was, so an NHLFE has INSTALLED (a nexthop has FIB) after
the call exactly when it is encoded or had the flag before; for an LSP none of
whose NHLFEs had INSTALLED or FIB set before the call, the NHLFEs with
INSTALLED set and the nexthops with FIB set are exactly the encoded ones. -/
theorem mpls_flags_follow_request (multipath_num : Nat) (netlink_talk : Req → Int) (lsp : Lsp)
    (hlab : ∀ nhlfe ∈ lsp.nhlfe_list, mpls_label_ok nhlfe = true)
    (hcount : mpls_count_nexthops RTM_NEWROUTE lsp.nhlfe_list ≠ 0) :
    ∃ out req, netlink_mpls_multipath multipath_num netlink_talk RTM_NEWROUTE lsp = .ok out ∧
      out.sent = some req ∧
      MplsEncodes RTM_NEWROUTE (mpls_req_base RTM_NEWROUTE lsp)
        (mpls_encoded (mpls_encoded_mask RTM_NEWROUTE
          (mpls_room multipath_num RTM_NEWROUTE lsp.nhlfe_list) lsp.nhlfe_list)
          lsp.nhlfe_list) req ∧
      out.lsp.nhlfe_list = mpls_marked RTM_NEWROUTE (mpls_encoded_mask RTM_NEWROUTE
        (mpls_room multipath_num RTM_NEWROUTE lsp.nhlfe_list) lsp.nhlfe_list)
        lsp.nhlfe_list ∧
      out.lsp.nhlfe_list.map (fun nhlfe => nhlfe.flags.INSTALLED) =
        List.zipWith (fun b x => b || x) (mpls_encoded_mask RTM_NEWROUTE
          (mpls_room multipath_num RTM_NEWROUTE lsp.nhlfe_list) lsp.nhlfe_list)
          (lsp.nhlfe_list.map (fun nhlfe => nhlfe.flags.INSTALLED)) ∧
      out.lsp.nhlfe_list.map nhlfe_fib =
        List.zipWith (fun b x => b || x) (mpls_encoded_mask RTM_NEWROUTE
          (mpls_room multipath_num RTM_NEWROUTE lsp.nhlfe_list) lsp.nhlfe_list)
          (lsp.nhlfe_list.map nhlfe_fib) ∧
      ((∀ nhlfe ∈ lsp.nhlfe_list, nhlfe.flags.INSTALLED = false ∧ nhlfe_fib nhlfe = false) →
        out.lsp.nhlfe_list.map (fun nhlfe => nhlfe.flags.INSTALLED) =
          mpls_encoded_mask RTM_NEWROUTE
            (mpls_room multipath_num RTM_NEWROUTE lsp.nhlfe_list) lsp.nhlfe_list ∧
        out.lsp.nhlfe_list.map nhlfe_fib =
          mpls_encoded_mask RTM_NEWROUTE
            (mpls_room multipath_num RTM_NEWROUTE lsp.nhlfe_list) lsp.nhlfe_list) := by
  have hmf : (mpls_req_base RTM_NEWROUTE lsp).r.rtm_family = AF_MPLS := by rw [mpls_req_base_r]
  have hflags := mpls_marked_flags (mpls_room multipath_num RTM_NEWROUTE lsp.nhlfe_list)
    lsp.nhlfe_list
  have hclean : (∀ nhlfe ∈ lsp.nhlfe_list,
      nhlfe.flags.INSTALLED = false ∧ nhlfe_fib nhlfe = false) →
      List.zipWith (fun b x => b || x) (mpls_encoded_mask RTM_NEWROUTE
          (mpls_room multipath_num RTM_NEWROUTE lsp.nhlfe_list) lsp.nhlfe_list)
          (lsp.nhlfe_list.map (fun nhlfe => nhlfe.flags.INSTALLED)) =
        mpls_encoded_mask RTM_NEWROUTE
          (mpls_room multipath_num RTM_NEWROUTE lsp.nhlfe_list) lsp.nhlfe_list ∧
      List.zipWith (fun b x => b || x) (mpls_encoded_mask RTM_NEWROUTE
          (mpls_room multipath_num RTM_NEWROUTE lsp.nhlfe_list) lsp.nhlfe_list)
          (lsp.nhlfe_list.map nhlfe_fib) =
        mpls_encoded_mask RTM_NEWROUTE
          (mpls_room multipath_num RTM_NEWROUTE lsp.nhlfe_list) lsp.nhlfe_list := by
    intro h
    constructor
    · apply zipWith_or_false
      · simp [mpls_encoded_mask_length]
      · intro x hx
        obtain ⟨n, hn, rfl⟩ := List.mem_map.1 hx
        exact (h n hn).1
    · apply zipWith_or_false
      · simp [mpls_encoded_mask_length]
      · intro x hx
        obtain ⟨n, hn, rfl⟩ := List.mem_map.1 hx
        exact (h n hn).2
  unfold netlink_mpls_multipath
  simp only [if_neg hcount]
  by_cases hs : mpls_count_nexthops RTM_NEWROUTE lsp.nhlfe_list = 1 ∨ multipath_num = 1
  · have hroom : mpls_room multipath_num RTM_NEWROUTE lsp.nhlfe_list = 1 := by
      simp [mpls_room, hs]
    rw [hroom] at hflags hclean ⊢
    obtain ⟨req', hl, hr⟩ := mpls_singlepath_loop_mask RTM_NEWROUTE lsp.nhlfe_list hlab
      (mpls_req_base RTM_NEWROUTE lsp) hmf
    rw [if_pos hs]
    simp only [hl]
    refine ⟨_, req', rfl, rfl, ?_, rfl, hflags.1, hflags.2, ?_⟩
    · rcases hr with ⟨he, -⟩ | ⟨nhlfe, he, hb⟩
      · have hne : lsp.nhlfe_list.filter (mpls_chosen RTM_NEWROUTE) ≠ [] := by
          intro h0
          rw [mpls_count_nexthops_new, h0] at hcount
          exact hcount rfl
        exact absurd he (mpls_encoded_one_ne_nil RTM_NEWROUTE lsp.nhlfe_list hne)
      · exact Or.inl ⟨nhlfe, he, hb⟩
    · intro h
      rw [hflags.1, hflags.2]
      exact hclean h
  · have hroom : mpls_room multipath_num RTM_NEWROUTE lsp.nhlfe_list = multipath_num := by
      simp [mpls_room, hs]
    rw [hroom] at hflags hclean ⊢
    obtain ⟨st', hl, records, h1, h2⟩ := mpls_multipath_loop_mask multipath_num RTM_NEWROUTE
      (mpls_req_base RTM_NEWROUTE lsp).r hmf lsp.nhlfe_list hlab ⟨[], none, 0⟩
    simp only [Nat.sub_zero, List.nil_append] at hl h1 h2
    rw [if_neg hs]
    simp only [hl]
    refine ⟨_, _, rfl, rfl, ?_, rfl, hflags.1, hflags.2, ?_⟩
    · exact Or.inr ⟨records, h2, by rw [h1]⟩
    · intro h
      rw [hflags.1, hflags.2]
      exact hclean h

theorem mpls_flags_follow_request_witness :
    (∀ nhlfe ∈ ex_lsp3.nhlfe_list, mpls_label_ok nhlfe = true) ∧
    mpls_count_nexthops RTM_NEWROUTE ex_lsp3.nhlfe_list ≠ 0 ∧
    mpls_encoded_mask RTM_NEWROUTE (mpls_room 2 RTM_NEWROUTE ex_lsp3.nhlfe_list)
      ex_lsp3.nhlfe_list = [true, true, false] ∧
    ∃ out req, netlink_mpls_multipath 2 ex_talk RTM_NEWROUTE ex_lsp3 = .ok out ∧
      out.sent = some req ∧
      out.lsp.nhlfe_list.map (fun nhlfe => nhlfe.flags.INSTALLED) =
        mpls_encoded_mask RTM_NEWROUTE (mpls_room 2 RTM_NEWROUTE ex_lsp3.nhlfe_list)
          ex_lsp3.nhlfe_list ∧
      out.lsp.nhlfe_list.map nhlfe_fib =
        mpls_encoded_mask RTM_NEWROUTE (mpls_room 2 RTM_NEWROUTE ex_lsp3.nhlfe_list)
          ex_lsp3.nhlfe_list :=
  ⟨by decide, by decide, by decide,
    (mpls_flags_follow_request 2 ex_talk ex_lsp3 (by decide) (by decide)).imp
      (fun _ h => h.imp (fun _ h =>
        ⟨h.1, h.2.1, (h.2.2.2.2.2.2 (by decide)).1, (h.2.2.2.2.2.2 (by decide)).2⟩))⟩

/-- C25, counterexample to the claim as stated: on an LSP whose second NHLFE was
installed earlier and is no longer selected, `netlink_mpls_multipath
(RTM_NEWROUTE, lsp)` transmits a request that encodes the first NHLFE only
(RTA_NEWDST 200, RTA_VIA 192.0.2.1), and after the call both NHLFEs have
INSTALLED set and both nexthops have FIB set. -/
theorem stale_nhlfe_keeps_flags :
    ∃ out req, netlink_mpls_multipath 64 ex_talk RTM_NEWROUTE ex_lsp_stale = .ok out ∧
      out.sent = some req ∧
      req.attrs =
        [.rta ⟨RTA_DST, .leaf (.lse [some (mpls_lse_encode 100 0 0 1)])⟩,
         .rta ⟨RTA_NEWDST, .leaf (.lse [some (mpls_lse_encode 200 0 0 1)])⟩,
         .rta ⟨RTA_VIA, .leaf (.via AF_INET [192, 0, 2, 1])⟩] ∧
      out.lsp.nhlfe_list.map (fun nhlfe => nhlfe.flags.INSTALLED) = [true, true] ∧
      out.lsp.nhlfe_list.map nhlfe_fib = [true, true] :=
  ⟨_, _, rfl, rfl, by decide, by decide, by decide⟩

/-! ## C26 -/

/-- C26: `are_first_hops_same (a, b)` returns 0 or 1; when a is of type IPV4 or
IPV4_IFINDEX it returns 1 exactly when b is of type IPV4 or IPV4_IFINDEX with
the same IPv4 gateway (4 bytes) and the same ifindex; when a is of type IPV6 or
IPV6_IFINDEX it returns 1 exactly when b is of type IPV6 or IPV6_IFINDEX with
the same IPv6 gateway (16 bytes) and the same ifindex; when a is of type
IFINDEX it returns 1 exactly when b is of type IFINDEX with the same ifindex. -/
theorem are_first_hops_same_spec (a b : Nexthop) :
    (are_first_hops_same a b = 0 ∨ are_first_hops_same a b = 1) ∧
    ((a.type = .IPV4 ∨ a.type = .IPV4_IFINDEX) →
      (are_first_hops_same a b = 1 ↔
        (b.type = .IPV4 ∨ b.type = .IPV4_IFINDEX) ∧ a.gate.take 4 = b.gate.take 4 ∧
          a.ifindex = b.ifindex)) ∧
    ((a.type = .IPV6 ∨ a.type = .IPV6_IFINDEX) →
      (are_first_hops_same a b = 1 ↔
        (b.type = .IPV6 ∨ b.type = .IPV6_IFINDEX) ∧ a.gate.take 16 = b.gate.take 16 ∧
          a.ifindex = b.ifindex)) ∧
    (a.type = .IFINDEX →
      (are_first_hops_same a b = 1 ↔ b.type = .IFINDEX ∧ a.ifindex = b.ifindex)) := by
  refine ⟨?_, ?_, ?_, ?_⟩
  · unfold are_first_hops_same
    split <;> first | (split_ifs <;> simp) | simp
  · intro h
    unfold are_first_hops_same
    by_cases hg : a.gate.take 4 = b.gate.take 4 <;> by_cases hi : a.ifindex = b.ifindex <;>
      rcases h with h | h <;> rw [h] <;> simp only [IPV4_ADDR_SAME] <;>
      cases hb : b.type <;> simp [hg, hi]
  · intro h
    unfold are_first_hops_same
    by_cases hg : a.gate.take 16 = b.gate.take 16 <;> by_cases hi : a.ifindex = b.ifindex <;>
      rcases h with h | h <;> rw [h] <;> simp only [IPV6_ADDR_SAME] <;>
      cases hb : b.type <;> simp [hg, hi]
  · intro h
    unfold are_first_hops_same
    rw [h]
    simp only
    by_cases hi : a.ifindex = b.ifindex <;> cases hb : b.type <;> simp [h, hi]

theorem are_first_hops_same_spec_witness :
    (ex_nh1.type = .IPV4 ∨ ex_nh1.type = .IPV4_IFINDEX) ∧
    (are_first_hops_same ex_nh1 ex_nh2 = 1 ↔
      (ex_nh2.type = .IPV4 ∨ ex_nh2.type = .IPV4_IFINDEX) ∧
        ex_nh1.gate.take 4 = ex_nh2.gate.take 4 ∧ ex_nh1.ifindex = ex_nh2.ifindex) ∧
    are_first_hops_same ex_nh1 ex_nh2 = 1 ∧ are_first_hops_same ex_nh1 ex_nh3 = 0 :=
  ⟨by decide, (are_first_hops_same_spec ex_nh1 ex_nh2).2.1 (by decide), by decide, by decide⟩

/-! ## C27 -/

/-- C27, as amended: for every RTM_DELROUTE request that
`netlink_route_multipath` builds in singlepath encoding (prefix not of family
MPLS, route entry without BLACKHOLE and REJECT, first candidate `c`), the
request contains no RTA_PREFSRC attribute whatever the type of `c`; it
contains no gateway attribute (neither RTA_GATEWAY nor RTA_VIA) when `c` is
not of type IPV6 or IPV6_IFINDEX; and when `c` is of type IPV6 or IPV6_IFINDEX
it contains an RTA_GATEWAY, with the gateway of `c`, or with 169.254.0.1 on an
AF_INET route. -/
theorem delete_without_nexthop (multipath_num : Nat) (netlink_talk : Req → Int) (p : Prefix)
    (rib : Rib) (update : Nat) (c : Nexthop) (rest : List Nexthop)
    (hfam : p.family ≠ AF_MPLS)
    (hd : (rib.flags.BLACKHOLE || rib.flags.REJECT) = false)
    (hs : count_nexthops RTM_DELROUTE (ALL_NEXTHOPS_RO rib.nexthop) = 1 ∨ multipath_num = 1)
    (hc : candidates RTM_DELROUTE rib = c :: rest) :
    ∃ out, netlink_route_multipath multipath_num netlink_talk RTM_DELROUTE p rib update =
        .ok out ∧ out.talk = true ∧
      (∀ a ∈ out.req.attrs, a.type ≠ RTA_PREFSRC) ∧
      (¬ (c.type = .IPV6 ∨ c.type = .IPV6_IFINDEX) →
        ∀ a ∈ out.req.attrs, a.type ≠ RTA_GATEWAY ∧ a.type ≠ RTA_VIA) ∧
      ((c.type = .IPV6 ∨ c.type = .IPV6_IFINDEX) →
        NlAttr.rta ⟨RTA_GATEWAY, .leaf (.bytes
          (if p.family = AF_INET then ipv4_ll else c.gate.take (bytelen_of p.family)))⟩ ∈
          out.req.attrs) := by
  have hbr : (route_req_base RTM_DELROUTE p rib update).r.rtm_family = p.family := by
    rw [route_req_base_r]
  have hbf : (route_req_base RTM_DELROUTE p rib update).r.rtm_family ≠ AF_MPLS := by
    rw [hbr]; exact hfam
  obtain ⟨req1, b, s, hb, -, hl⟩ := singlepath_loop_first RTM_DELROUTE p.family
    (bytelen_of p.family) (ALL_NEXTHOPS_RO rib.nexthop)
    ⟨route_req_base RTM_DELROUTE p rib update, false, [], 0⟩ c rest hc hbf
  obtain ⟨req1', hb', hm, hg⟩ := singlepath_del_attrs (bytelen_of p.family) c
    (route_req_base RTM_DELROUTE p rib update) hbf
  rw [hb] at hb'
  cases hb'
  rw [hbr] at hg
  have hout := netlink_route_multipath_single multipath_num netlink_talk RTM_DELROUTE p rib
    update hd hs _ hl
  have hset : add_setsrc req1 RTM_DELROUTE p.family (bytelen_of p.family) b s = req1 := by
    simp [add_setsrc]
  simp only [hset] at hout
  refine ⟨_, hout, by simp, ?_, ?_, hg⟩
  · intro a ha
    rcases hm a ha with h | h
    · exact (route_req_base_no_nexthop_attr _ _ _ _ a h).1
    · exact h.1
  · intro ht a ha
    rcases hm a ha with h | h
    · exact (route_req_base_no_nexthop_attr _ _ _ _ a h).2
    · exact h.2 ht

theorem delete_without_nexthop_witness :
    ex_p.family ≠ AF_MPLS ∧
    candidates RTM_DELROUTE { ex_rib1 with nexthop := [⟨{ ex_nh_src with flags := ⟨true, true, false, false⟩ }, []⟩] } =
      [{ ex_nh_src with flags := ⟨true, true, false, false⟩ }] ∧
    ∃ out, netlink_route_multipath 64 ex_talk RTM_DELROUTE ex_p
        { ex_rib1 with nexthop := [⟨{ ex_nh_src with flags := ⟨true, true, false, false⟩ }, []⟩] } 0 =
        .ok out ∧ out.talk = true ∧
      (∀ a ∈ out.req.attrs, a.type ≠ RTA_PREFSRC) ∧
      (∀ a ∈ out.req.attrs, a.type ≠ RTA_GATEWAY ∧ a.type ≠ RTA_VIA) :=
  ⟨by decide, by decide,
    (delete_without_nexthop 64 ex_talk ex_p
      { ex_rib1 with nexthop := [⟨{ ex_nh_src with flags := ⟨true, true, false, false⟩ }, []⟩] } 0
      { ex_nh_src with flags := ⟨true, true, false, false⟩ } [] (by decide) (by decide)
      (by decide) (by decide)).imp
      (fun _ h => ⟨h.1, h.2.1, h.2.2.1, h.2.2.2.1 (by decide)⟩)⟩

/-- C27, counterexample to the claim as stated: the RTM_DELROUTE request for the
installed static route 2001:db8::/32 via fe80::1 on ifindex 2, built in
singlepath encoding, carries the gateway fe80::1 in an RTA_GATEWAY attribute. -/
theorem delete_carries_ipv6_gateway :
    ∃ out, netlink_route_multipath 64 ex_talk RTM_DELROUTE ex_p6 ex_rib6_fib 0 = .ok out ∧
      out.talk = true ∧
      out.req.attrs.map NlAttr.type = [RTA_DST, RTA_PRIORITY, RTA_GATEWAY, RTA_OIF] ∧
      NlAttr.rta ⟨RTA_GATEWAY, .leaf (.bytes ex_gw6)⟩ ∈ out.req.attrs :=
  ⟨_, rfl, by decide, by decide, by decide⟩

/-! ## C28 -/

/-- C28, the divergence: `are_first_hops_same` is reflexive, but it is not
symmetric: a nexthop of type BLACKHOLE as first argument falls to the
`default:` case and compares equal to the IPv4 gateway 192.0.2.1, while the
IPv4 gateway as first argument compares different from the BLACKHOLE nexthop;
so `is_duplicate_first_hop` drops the second nexthop of the pair in one order
and keeps it in the other. -/
theorem are_first_hops_same_not_symmetric :
    (∀ a, are_first_hops_same a a = 1) ∧
    are_first_hops_same ex_nh_blackhole ex_nh1 = 1 ∧
    are_first_hops_same ex_nh1 ex_nh_blackhole = 0 ∧
    is_duplicate_first_hop ex_nh_blackhole [ex_nh1] = (1, [ex_nh1]) ∧
    is_duplicate_first_hop ex_nh1 [ex_nh_blackhole] = (0, [ex_nh_blackhole, ex_nh1]) := by
  refine ⟨?_, by decide, by decide, by decide, by decide⟩
  intro a
  unfold are_first_hops_same
  cases h : a.type <;> simp [h, IPV4_ADDR_SAME, IPV6_ADDR_SAME]

/-! ## C29 -/

/-- C29, the divergence: the RTM_NEWROUTE request for the static route
10.0.0.0/8 via 192.0.2.1 on ifindex 2 (type IPV4_IFINDEX) with source
192.0.2.9 holds two RTA_PREFSRC attributes, one from the gateway block and one
from the interface block of the singlepath builder; under a RECURSIVE-marked
parent with a source the request holds three. -/
theorem prefsrc_appended_twice :
    (∃ out, netlink_route_multipath 64 ex_talk RTM_NEWROUTE ex_p ex_rib_src 0 = .ok out ∧
      out.talk = true ∧
      out.req.attrs.map NlAttr.type =
        [RTA_DST, RTA_PRIORITY, RTA_GATEWAY, RTA_PREFSRC, RTA_OIF, RTA_PREFSRC] ∧
      out.req.attrs.filter (fun a => a.type == RTA_PREFSRC) =
        [prefsrc_attr 4 ex_src, prefsrc_attr 4 ex_src]) ∧
    (∃ out, netlink_route_multipath 64 ex_talk RTM_NEWROUTE ex_p ex_rib_rec_src 0 = .ok out ∧
      out.talk = true ∧
      out.req.attrs.filter (fun a => a.type == RTA_PREFSRC) =
        [prefsrc_attr 4 ex_src, prefsrc_attr 4 ex_src, prefsrc_attr 4 ex_src2]) :=
  ⟨⟨_, rfl, by decide, by decide, by decide⟩, ⟨_, rfl, by decide, by decide⟩⟩

/-! ## C30 -/

/-- C30, the divergence: on an accepted RTM_NEWROUTE whose RTA_MULTIPATH payload
is 8 bytes with a first record of `rtnh_len` 0, neither exit test of the walk
holds and `len` and `rtnh` do not move, so the walk does not end: for every
number of iterations allowed it is still running, having added one nexthop per
iteration, and `netlink_route_change_read_unicast` does not return. -/
theorem multipath_walk_zero_len_diverges :
    accepted ex_vrfs ex_valid ex_main ex_msg_zero_len ∧
    (∀ fuel acc, rtnh_walk ex_mp_zero none fuel 0 8 acc = none) ∧
    (∀ fuel, netlink_route_change_read_unicast ex_vrfs ex_valid ex_main fuel ex_msg_zero_len =
      none) := by
  refine ⟨by decide, fun fuel acc => rtnh_walk_zero_len none fuel acc, ?_⟩
  intro fuel
  have h := rtnh_walk_zero_len none fuel []
  have hfam : ex_msg_zero_len.rtm.rtm_family = AF_INET := rfl
  have htype : ex_msg_zero_len.h.nlmsg_type = RTM_NEWROUTE := rfl
  have hmp : ex_msg_zero_len.tb.RTA_MULTIPATH = some ex_mp_zero := rfl
  have hsrc : ex_msg_zero_len.tb.RTA_PREFSRC = none := rfl
  have hlen : ex_mp_zero.len = 8 := rfl
  rw [read_unicast_of_passes ex_vrfs ex_valid ex_main fuel ex_msg_zero_len (by decide),
    if_pos (by decide)]
  simp [route_change_rib_calls, hfam, htype, hmp, hsrc, hlen, h]

end RtNetlink
